import Mathlib

/-!
# The power-state controller of the VCHIQ link

A shallow embedding of the suspend / resume / use-count code of
`drivers/staging/vc04_services/interface/vchiq_arm/vchiq_arm.c`.

* Every C function that is embedded keeps its C name and its control flow;
  the comment of each definition gives the source lines it stands for.
* The code runs under `susp_res_lock`.  A maximal stretch of code that holds the
  lock is one pure function on the shared state.  Where the code drops the lock
  and sleeps on a completion, the embedding takes the next `wait_event` from a
  list given by the caller of the model: the event says how the sleep ended and
  what the other parties did to the shared state in the meantime.  A function
  that sleeps returns `none` when the list has no event left for a sleep, that
  is, when the sleep never ends.
* C `int` fields are `Int`; the model covers executions in which no counter
  leaves the range of `int`.  Logging (`vchiq_log_*`, `WARN_ON`,
  `output_timeout_error`) has no effect on the state and is left out.
-/

namespace VchiqArm

/-! ## Types -/

/-- Modelled from the spec: the return codes `VCHIQ_STATUS_T` of the link layer
(the spec's `Success`, `Retry`, `Error`), declared in a header that is not part
of the sources at hand. -/
inductive VCHIQ_STATUS_T
  | VCHIQ_ERROR
  | VCHIQ_SUCCESS
  | VCHIQ_RETRY
  deriving DecidableEq, Repr

/-- Modelled from the spec: the enumeration `vc_suspend_status` is declared in
`vchiq_arm.h`, which is not part of the sources at hand.  The spec lists the
values in this order and `suspend_state_names` with `VC_SUSPEND_NUM_OFFSET = 3`
(lines 79-88) fixes their numbers: three values lie below `VC_SUSPEND_IDLE = 0`. -/
inductive vc_suspend_status
  | VC_SUSPEND_FORCE_CANCELED
  | VC_SUSPEND_REJECTED
  | VC_SUSPEND_FAILED
  | VC_SUSPEND_IDLE
  | VC_SUSPEND_REQUESTED
  | VC_SUSPEND_IN_PROGRESS
  | VC_SUSPEND_SUSPENDED
  deriving DecidableEq, Repr

/-- Modelled from the spec: the enumeration `vc_resume_status` of `vchiq_arm.h`;
`resume_state_names` with `VC_RESUME_NUM_OFFSET = 1` (lines 89-96) fixes the
numbers: one value lies below `VC_RESUME_IDLE = 0`. -/
inductive vc_resume_status
  | VC_RESUME_FAILED
  | VC_RESUME_IDLE
  | VC_RESUME_REQUESTED
  | VC_RESUME_IN_PROGRESS
  | VC_RESUME_RESUMED
  deriving DecidableEq, Repr

/-- Modelled from the spec: the enumeration `USE_TYPE_E` of `vchiq_arm.h`: a use
of a service, a use of a service on the "no-resume" fast path, and a use of the
link itself. -/
inductive USE_TYPE_E
  | USE_TYPE_SERVICE
  | USE_TYPE_SERVICE_NO_RESUME
  | USE_TYPE_VCHIQ
  deriving DecidableEq, Repr

open VCHIQ_STATUS_T vc_suspend_status vc_resume_status USE_TYPE_E

/-- The number of a suspend state, as the C comparisons `<=`, `<`, `>` see it. -/
def vc_suspend_status.toInt : vc_suspend_status → Int
  | VC_SUSPEND_FORCE_CANCELED => -3
  | VC_SUSPEND_REJECTED => -2
  | VC_SUSPEND_FAILED => -1
  | VC_SUSPEND_IDLE => 0
  | VC_SUSPEND_REQUESTED => 1
  | VC_SUSPEND_IN_PROGRESS => 2
  | VC_SUSPEND_SUSPENDED => 3

/-- The number of a resume state, as the C comparisons see it. -/
def vc_resume_status.toInt : vc_resume_status → Int
  | VC_RESUME_FAILED => -1
  | VC_RESUME_IDLE => 0
  | VC_RESUME_REQUESTED => 1
  | VC_RESUME_IN_PROGRESS => 2
  | VC_RESUME_RESUMED => 3

/-- Modelled from the spec: the kernel's `struct completion` is not part of the
sources at hand.  The spec's Event Primitive: "waiters block until signaled;
signaling wakes all current and future waiters until explicitly reset".  The one
bit says whether the event is signaled. -/
structure completion where
  done : Bool
  deriving DecidableEq, Repr

/-- Modelled from the spec: `init_completion`, a fresh unsignaled event. -/
def init_completion : completion := ⟨false⟩

/-- Modelled from the spec: `complete_all`, signal the event for all current and
future waiters. -/
def complete_all (_x : completion) : completion := ⟨true⟩

/-- Modelled from the spec: `INIT_COMPLETION`, the explicit reset of an event. -/
def INIT_COMPLETION (_x : completion) : completion := ⟨false⟩

/-- Modelled from the spec: `try_wait_for_completion`, the non-blocking poll. A
signaled event stays signaled for future waiters, so the poll changes nothing. -/
def try_wait_for_completion (x : completion) : Bool := x.done

/-- Modelled from the spec: the kernel timer behind `suspend_timer`, the spec's
"deferred-suspend timer"; only whether it is queued. -/
structure timer_list where
  pending : Bool
  deriving DecidableEq, Repr

/-- Modelled from the spec: kernel `del_timer`, the timer is no longer queued. -/
def del_timer (_t : timer_list) : timer_list := ⟨false⟩

/-- Modelled from the spec: kernel `add_timer`, the timer is queued. -/
def add_timer (_t : timer_list) : timer_list := ⟨true⟩

/-- Modelled from the spec: the spec's Power State, `VCHIQ_ARM_STATE_T` of
`vchiq_arm.h`, with the fields that the embedded functions read or write, under
the names that `vchiq_arm.c` uses for them. -/
structure VCHIQ_ARM_STATE_T where
  ka_use_ack_count : Nat
  vc_suspend_state : vc_suspend_status
  vc_resume_state : vc_resume_status
  vc_suspend_complete : completion
  vc_resume_complete : completion
  resume_blocker : completion
  blocked_blocker : completion
  resume_blocked : Int
  blocked_count : Int
  videocore_use_count : Int
  peer_use_count : Int
  suspend_timer : timer_list
  suspend_timer_timeout : Int
  suspend_timer_running : Int
  autosuspend_override : Int
  first_connect : Int
  wake_address : Int
  deriving DecidableEq, Repr

/-- Modelled from the spec: the spec's Service Endpoint, `VCHIQ_SERVICE_T`, with
the one field that the power-state code writes, its use count. -/
structure VCHIQ_SERVICE_T where
  service_use_count : Int
  deriving DecidableEq, Repr

/-- Modelled from the spec: the link state `VCHIQ_STATE_T` with its `n` service
endpoints.  A service pointer is an index `Fin n`; the null pointer is `none`.
`poll_requests` counts the calls of `request_poll` (the kicks of the slot handler
that ask the remote side to act) and `remote_use_active_sent` the messages sent
by `vchiq_send_remote_use_active`; both functions live in the link driver. -/
structure VCHIQ_STATE_T (n : Nat) where
  arm_state : VCHIQ_ARM_STATE_T
  services : Fin n → VCHIQ_SERVICE_T
  poll_requests : Nat
  remote_use_active_sent : Nat

/-- What the functions below take from code that is not part of the sources at
hand: `vchiq_platform_videocore_wanted` and `vchiq_platform_use_suspend_timer` of
the platform layer, and the outcome of `vchiq_send_remote_use_active` of the link
driver. -/
structure platform_ops (n : Nat) where
  vchiq_platform_videocore_wanted : VCHIQ_STATE_T n → Int
  vchiq_platform_use_suspend_timer : Int
  vchiq_send_remote_use_active : VCHIQ_STATE_T n → VCHIQ_STATUS_T

/-- How a sleep on a completion ended. -/
inductive wait_result
  | completed
  | timed_out
  | interrupted
  deriving DecidableEq, Repr

/-- One sleep with the lock released: how it ended, and what the other parties
(other callers, the slot handler, the remote side) did to the shared state until
the sleeper held the lock again. -/
structure wait_event (n : Nat) where
  result : wait_result
  others : VCHIQ_STATE_T n → VCHIQ_STATE_T n

/-- Modelled from the spec: `wait_for_completion_killable` returns 0 when the
event was signaled and `-ERESTARTSYS` when the sleep was interrupted; it has no
timeout, so with a `timed_out` event it does not return. -/
def wait_for_completion_killable (r : wait_result) : Option Int :=
  match r with
  | wait_result.completed => some 0
  | wait_result.interrupted => some (-512)
  | wait_result.timed_out => none

/-- Modelled from the spec: `wait_for_completion_interruptible`, with the same
results as `wait_for_completion_killable`. -/
def wait_for_completion_interruptible (r : wait_result) : Option Int :=
  match r with
  | wait_result.completed => some 0
  | wait_result.interrupted => some (-512)
  | wait_result.timed_out => none

/-- Modelled from the spec: `wait_for_completion_interruptible_timeout` returns a
positive number (the time left) when the event was signaled, 0 when the time ran
out, and `-ERESTARTSYS` when the sleep was interrupted. -/
def wait_for_completion_interruptible_timeout (r : wait_result) : Int :=
  match r with
  | wait_result.completed => 1
  | wait_result.timed_out => 0
  | wait_result.interrupted => -512

/-- The threshold `FORCE_SUSPEND_FAIL_MAX` (line 101). -/
def FORCE_SUSPEND_FAIL_MAX : Int := 8

/-- The default `SUSPEND_TIMER_TIMEOUT_MS` (line 76). -/
def SUSPEND_TIMER_TIMEOUT_MS : Int := 100

/-! ## The state variables: `set_suspend_state`, `set_resume_state` -/

/-- The call `set_suspend_state(arm_state, VC_SUSPEND_IDLE)` (lines 677, 692-694),
as `set_resume_state` makes it at line 729.  `set_suspend_state_IDLE_eq` shows
that it is `set_suspend_state` at `VC_SUSPEND_IDLE`. -/
def set_suspend_state_IDLE (arm_state : VCHIQ_ARM_STATE_T) : VCHIQ_ARM_STATE_T :=
  let arm_state := { arm_state with vc_suspend_state := VC_SUSPEND_IDLE }
  { arm_state with vc_suspend_complete := INIT_COMPLETION arm_state.vc_suspend_complete }

/-- The function `set_resume_state` (lines 709-735). -/
def set_resume_state (arm_state : VCHIQ_ARM_STATE_T) (new_state : vc_resume_status) :
    VCHIQ_ARM_STATE_T :=
  let arm_state := { arm_state with vc_resume_state := new_state }
  match new_state with
  | VC_RESUME_FAILED => arm_state
  | VC_RESUME_IDLE =>
    { arm_state with vc_resume_complete := INIT_COMPLETION arm_state.vc_resume_complete }
  | VC_RESUME_REQUESTED => arm_state
  | VC_RESUME_IN_PROGRESS => arm_state
  | VC_RESUME_RESUMED =>
    let arm_state :=
      { arm_state with vc_resume_complete := complete_all arm_state.vc_resume_complete }
    set_suspend_state_IDLE arm_state

/-- The function `set_suspend_state` (lines 672-707). -/
def set_suspend_state (arm_state : VCHIQ_ARM_STATE_T) (new_state : vc_suspend_status) :
    VCHIQ_ARM_STATE_T :=
  let arm_state := { arm_state with vc_suspend_state := new_state }
  match new_state with
  | VC_SUSPEND_FORCE_CANCELED =>
    { arm_state with vc_suspend_complete := complete_all arm_state.vc_suspend_complete }
  | VC_SUSPEND_REJECTED =>
    { arm_state with vc_suspend_complete := complete_all arm_state.vc_suspend_complete }
  | VC_SUSPEND_FAILED =>
    let arm_state :=
      { arm_state with vc_suspend_complete := complete_all arm_state.vc_suspend_complete }
    let arm_state := { arm_state with vc_resume_state := VC_RESUME_RESUMED }
    { arm_state with vc_resume_complete := complete_all arm_state.vc_resume_complete }
  | VC_SUSPEND_IDLE =>
    { arm_state with vc_suspend_complete := INIT_COMPLETION arm_state.vc_suspend_complete }
  | VC_SUSPEND_REQUESTED => arm_state
  | VC_SUSPEND_IN_PROGRESS => set_resume_state arm_state VC_RESUME_IDLE
  | VC_SUSPEND_SUSPENDED =>
    { arm_state with vc_suspend_complete := complete_all arm_state.vc_suspend_complete }

/-! ## Helpers of the controller -/

/-- Modelled from the spec: `vchiq_platform_get_arm_state` is platform code that
is not part of the sources at hand.  The spec has one Power State per link,
living as long as the link, so the accessor always finds it: the
`if (!arm_state)` exits of the functions below are embedded but never taken. -/
def vchiq_platform_get_arm_state {n : Nat} (state : VCHIQ_STATE_T n) :
    Option VCHIQ_ARM_STATE_T :=
  some state.arm_state

/-- Modelled from the spec: `request_poll(state, NULL, 0)` of the link driver
kicks the slot handler, which is how "the remote side is asked" to act.  Only
the number of kicks is recorded. -/
def request_poll {n : Nat} (state : VCHIQ_STATE_T n) : VCHIQ_STATE_T n :=
  { state with poll_requests := state.poll_requests + 1 }

/-- The function `start_suspend_timer` (lines 739-748). -/
def start_suspend_timer (arm_state : VCHIQ_ARM_STATE_T) : VCHIQ_ARM_STATE_T :=
  let arm_state := { arm_state with suspend_timer := del_timer arm_state.suspend_timer }
  let arm_state := { arm_state with suspend_timer := add_timer arm_state.suspend_timer }
  { arm_state with suspend_timer_running := 1 }

/-- The function `stop_suspend_timer` (lines 751-758). -/
def stop_suspend_timer (arm_state : VCHIQ_ARM_STATE_T) : VCHIQ_ARM_STATE_T :=
  if arm_state.suspend_timer_running ≠ 0 then
    let arm_state := { arm_state with suspend_timer := del_timer arm_state.suspend_timer }
    { arm_state with suspend_timer_running := 0 }
  else arm_state

/-- The function `vchiq_videocore_wanted` (lines 461-479); the C truth value as an
`Int`. -/
def vchiq_videocore_wanted {n : Nat} (P : platform_ops n) (state : VCHIQ_STATE_T n) : Int :=
  match vchiq_platform_get_arm_state state with
  | none => 1
  | some arm_state =>
    if arm_state.blocked_count ≠ 0 then 1
    else if arm_state.videocore_use_count = 0 then
      if arm_state.resume_blocked ≠ 0 then 0
      else P.vchiq_platform_videocore_wanted state
    else 1

/-- The function `need_resume` (lines 760-767).  The source dereferences
`arm_state` without a test; its callers have tested it. -/
def need_resume {n : Nat} (P : platform_ops n) (state : VCHIQ_STATE_T n) : Bool :=
  match vchiq_platform_get_arm_state state with
  | none => false
  | some arm_state =>
    decide (arm_state.vc_suspend_state.toInt > VC_SUSPEND_IDLE.toInt) &&
      decide (arm_state.vc_resume_state.toInt < VC_RESUME_REQUESTED.toInt) &&
      decide (vchiq_videocore_wanted P state ≠ 0)

/-- The function `unblock_resume` (lines 835-840). -/
def unblock_resume (arm_state : VCHIQ_ARM_STATE_T) : VCHIQ_ARM_STATE_T :=
  let arm_state := { arm_state with resume_blocker := complete_all arm_state.resume_blocker }
  { arm_state with resume_blocked := 0 }

/-- The loop of `block_resume` that waits for a resume in flight (lines 801-827),
entered and left with the lock held.  `resume_count` is the C local. -/
def block_resume_wait_resume {n : Nat} :
    Int → List (wait_event n) → VCHIQ_STATE_T n →
      Option (VCHIQ_STATUS_T × VCHIQ_STATE_T n × List (wait_event n))
  | resume_count, evs, state =>
    if state.arm_state.vc_resume_state ≠ VC_RESUME_RESUMED ∧
        state.arm_state.vc_resume_state.toInt > VC_RESUME_IDLE.toInt then
      if resume_count > 1 then some (VCHIQ_ERROR, state, evs)
      else
        match evs with
        | [] => none
        | ev :: rest =>
          let state := ev.others state
          if wait_for_completion_interruptible_timeout ev.result ≤ 0 then
            some (VCHIQ_ERROR, state, rest)
          else block_resume_wait_resume (resume_count + 1) rest state
    else some (VCHIQ_SUCCESS, state, evs)

/-- The function `block_resume` (lines 769-833), entered and left with the lock
held. -/
def block_resume {n : Nat} (evs : List (wait_event n)) (state : VCHIQ_STATE_T n) :
    Option (VCHIQ_STATUS_T × VCHIQ_STATE_T n × List (wait_event n)) :=
  let blocked_done : Option (VCHIQ_STATUS_T × VCHIQ_STATE_T n × List (wait_event n)) :=
    if state.arm_state.blocked_count ≠ 0 then
      let state := { state with arm_state :=
        { state.arm_state with
          blocked_blocker := INIT_COMPLETION state.arm_state.blocked_blocker } }
      match evs with
      | [] => none
      | ev :: rest =>
        let state := ev.others state
        if wait_for_completion_interruptible_timeout ev.result ≤ 0 then
          some (VCHIQ_ERROR, state, rest)
        else some (VCHIQ_SUCCESS, state, rest)
    else some (VCHIQ_SUCCESS, state, evs)
  match blocked_done with
  | none => none
  | some (VCHIQ_SUCCESS, state, evs) =>
    match block_resume_wait_resume 0 evs state with
    | none => none
    | some (VCHIQ_SUCCESS, state, evs) =>
      let arm_state := state.arm_state
      let arm_state :=
        { arm_state with resume_blocker := INIT_COMPLETION arm_state.resume_blocker }
      let arm_state := { arm_state with resume_blocked := 1 }
      some (VCHIQ_SUCCESS, { state with arm_state := arm_state }, evs)
    | some out => some out
  | some out => some out

/-- The function `vchiq_arm_vcsuspend` (lines 842-892), called with the lock
held.  The `default` label covers the two values without a label of their own,
`VC_SUSPEND_FORCE_CANCELED` and `VC_SUSPEND_SUSPENDED`, and falls through. -/
def vchiq_arm_vcsuspend {n : Nat} (state : VCHIQ_STATE_T n) :
    VCHIQ_STATUS_T × VCHIQ_STATE_T n :=
  match vchiq_platform_get_arm_state state with
  | none => (VCHIQ_ERROR, state)
  | some arm_state =>
    match arm_state.vc_suspend_state with
    | VC_SUSPEND_REQUESTED => (VCHIQ_SUCCESS, state)
    | VC_SUSPEND_IN_PROGRESS => (VCHIQ_SUCCESS, state)
    | VC_SUSPEND_IDLE =>
      let arm_state := set_suspend_state arm_state VC_SUSPEND_REQUESTED
      (VCHIQ_SUCCESS, request_poll { state with arm_state := arm_state })
    | _ =>
      let arm_state := set_suspend_state arm_state VC_SUSPEND_IDLE
      let arm_state := set_suspend_state arm_state VC_SUSPEND_REQUESTED
      (VCHIQ_SUCCESS, request_poll { state with arm_state := arm_state })

/-- The function `vchiq_check_resume` (lines 1144-1165), called with the lock
held; the C truth value `resume` as a `Bool`. -/
def vchiq_check_resume {n : Nat} (P : platform_ops n) (state : VCHIQ_STATE_T n) :
    Bool × VCHIQ_STATE_T n :=
  match vchiq_platform_get_arm_state state with
  | none => (false, state)
  | some arm_state =>
    if need_resume P state then
      let arm_state := set_resume_state arm_state VC_RESUME_REQUESTED
      (true, request_poll { state with arm_state := arm_state })
    else (false, state)

/-- The function `vchiq_arm_init_state` (lines 574-614) on a state whose other
fields are as allocated. -/
def vchiq_arm_init_state (arm_state : VCHIQ_ARM_STATE_T) : VCHIQ_ARM_STATE_T :=
  let arm_state := { arm_state with ka_use_ack_count := 0 }
  let arm_state := { arm_state with vc_suspend_complete := init_completion }
  let arm_state := { arm_state with vc_resume_complete := init_completion }
  let arm_state := set_resume_state arm_state VC_RESUME_RESUMED
  let arm_state := { arm_state with resume_blocker := init_completion }
  let arm_state := { arm_state with resume_blocker := complete_all arm_state.resume_blocker }
  let arm_state := { arm_state with blocked_blocker := init_completion }
  let arm_state :=
    { arm_state with blocked_blocker := complete_all arm_state.blocked_blocker }
  let arm_state := { arm_state with suspend_timer_timeout := SUSPEND_TIMER_TIMEOUT_MS }
  let arm_state := { arm_state with suspend_timer_running := 0 }
  let arm_state := { arm_state with suspend_timer := ⟨false⟩ }
  { arm_state with first_connect := 0 }

/-! ## `vchiq_use_internal` -/

/-- The counter that the C local `entity_uc` points at: `none` stands for
`&arm_state->peer_use_count`, `some service` for `&service->service_use_count`. -/
def entity_uc {n : Nat} (state : VCHIQ_STATE_T n) (entity : Option (Fin n)) : Int :=
  match entity with
  | none => state.arm_state.peer_use_count
  | some service => (state.services service).service_use_count

/-- A write through the pointer `entity_uc`. -/
def set_entity_uc {n : Nat} (state : VCHIQ_STATE_T n) (entity : Option (Fin n)) (v : Int) :
    VCHIQ_STATE_T n :=
  match entity with
  | none => { state with arm_state := { state.arm_state with peer_use_count := v } }
  | some service =>
    let entry : VCHIQ_SERVICE_T := { (state.services service) with service_use_count := v }
    { state with services := Function.update state.services service entry }

/-- The choice of the entity in `vchiq_use_internal` (lines 1228-1241).  The
outer `none` is the exit "null service ptr". -/
def vchiq_use_internal_entity {n : Nat} (service : Option (Fin n)) (use_type : USE_TYPE_E) :
    Option (Option (Fin n)) :=
  if use_type = USE_TYPE_VCHIQ then some none
  else
    match service with
    | some service => some (some service)
    | none => none

/-- The loop `while (arm_state->resume_blocked)` of `vchiq_use_internal` (lines
1244-1283), entered with the lock held.  `VCHIQ_SUCCESS` means that the loop was
left with the lock held; `VCHIQ_ERROR` is the `goto out` of the interrupted sleep
(lines 1271-1275), taken with the lock released.  When resume is blocked, the
suspend state is not idle and the resume blocker is signaled, an iteration
changes nothing and the loop spins for ever: `none`. -/
def vchiq_use_internal_blocked {n : Nat} :
    List (wait_event n) → VCHIQ_STATE_T n →
      Option (VCHIQ_STATUS_T × VCHIQ_STATE_T n × List (wait_event n))
  | evs, state =>
    if state.arm_state.resume_blocked ≠ 0 then
      if state.arm_state.resume_blocked ≠ 0 ∧
          state.arm_state.vc_suspend_state = VC_SUSPEND_IDLE then
        some (VCHIQ_SUCCESS,
          { state with
            arm_state := set_suspend_state state.arm_state VC_SUSPEND_FORCE_CANCELED }, evs)
      else if !try_wait_for_completion state.arm_state.resume_blocker then
        let state := { state with arm_state :=
          { state.arm_state with blocked_count := state.arm_state.blocked_count + 1 } }
        match evs with
        | [] => none
        | ev :: rest =>
          let state := ev.others state
          match wait_for_completion_killable ev.result with
          | none => none
          | some rc =>
            if rc ≠ 0 then
              some (VCHIQ_ERROR,
                { state with arm_state :=
                  { state.arm_state with
                    blocked_count := state.arm_state.blocked_count - 1 } }, rest)
            else
              let state := { state with arm_state :=
                { state.arm_state with blocked_count := state.arm_state.blocked_count - 1 } }
              let state :=
                if state.arm_state.blocked_count = 0 then
                  { state with arm_state :=
                    { state.arm_state with
                      blocked_blocker := complete_all state.arm_state.blocked_blocker } }
                else state
              vchiq_use_internal_blocked rest state
      else none
    else some (VCHIQ_SUCCESS, state, evs)

/-- The stretch of `vchiq_use_internal` from `stop_suspend_timer` to
`write_unlock_bh` (lines 1285-1309), run with the lock held: the result is the
state in which the lock is released. -/
def vchiq_use_internal_locked {n : Nat} (P : platform_ops n) (state : VCHIQ_STATE_T n)
    (entity : Option (Fin n)) (use_type : USE_TYPE_E) : VCHIQ_STATE_T n :=
  let state := { state with arm_state := stop_suspend_timer state.arm_state }
  let state := { state with arm_state :=
    { state.arm_state with videocore_use_count := state.arm_state.videocore_use_count + 1 } }
  let state := set_entity_uc state entity (entity_uc state entity + 1)
  let state :=
    if state.arm_state.vc_suspend_state.toInt ≤ VC_SUSPEND_REQUESTED.toInt then
      { state with arm_state := set_suspend_state state.arm_state VC_SUSPEND_IDLE }
    else state
  if use_type ≠ USE_TYPE_SERVICE_NO_RESUME ∧ need_resume P state = true then
    request_poll
      { state with arm_state := set_resume_state state.arm_state VC_RESUME_REQUESTED }
  else state

/-- The loop that sends the pending use notifications (lines 1330-1338), for
`ack_cnt` notifications still to send. -/
def vchiq_use_internal_ack {n : Nat} (P : platform_ops n) :
    Nat → VCHIQ_STATE_T n → VCHIQ_STATE_T n
  | 0, state => state
  | ack_cnt + 1, state =>
    if P.vchiq_send_remote_use_active state = VCHIQ_SUCCESS then
      vchiq_use_internal_ack P ack_cnt
        { state with remote_use_active_sent := state.remote_use_active_sent + 1 }
    else
      { state with arm_state :=
        { state.arm_state with
          ka_use_ack_count := state.arm_state.ka_use_ack_count + (ack_cnt + 1) } }

/-- The end of `vchiq_use_internal` (lines 1311-1343), run without the lock: the
wait for resume-complete, then the use notifications. -/
def vchiq_use_internal_wait_resume {n : Nat} (P : platform_ops n)
    (evs : List (wait_event n)) (state : VCHIQ_STATE_T n) :
    Option (VCHIQ_STATUS_T × VCHIQ_STATE_T n) :=
  let waited : Option (VCHIQ_STATUS_T × VCHIQ_STATE_T n) :=
    if !try_wait_for_completion state.arm_state.vc_resume_complete then
      match evs with
      | [] => none
      | ev :: _ =>
        let state := ev.others state
        match wait_for_completion_killable ev.result with
        | none => none
        | some rc => if rc ≠ 0 then some (VCHIQ_ERROR, state) else some (VCHIQ_SUCCESS, state)
    else some (VCHIQ_SUCCESS, state)
  match waited with
  | some (VCHIQ_SUCCESS, state) =>
    let ack_cnt := state.arm_state.ka_use_ack_count
    let state := { state with arm_state := { state.arm_state with ka_use_ack_count := 0 } }
    some (VCHIQ_SUCCESS, vchiq_use_internal_ack P ack_cnt state)
  | out => out

/-- The function `vchiq_use_internal` (lines 1213-1344). -/
def vchiq_use_internal {n : Nat} (P : platform_ops n) (evs : List (wait_event n))
    (state : VCHIQ_STATE_T n) (service : Option (Fin n)) (use_type : USE_TYPE_E) :
    Option (VCHIQ_STATUS_T × VCHIQ_STATE_T n) :=
  match vchiq_platform_get_arm_state state with
  | none => some (VCHIQ_SUCCESS, state)
  | some _ =>
    match vchiq_use_internal_entity service use_type with
    | none => some (VCHIQ_ERROR, state)
    | some entity =>
      match vchiq_use_internal_blocked evs state with
      | none => none
      | some (VCHIQ_SUCCESS, state, evs) =>
        vchiq_use_internal_wait_resume P evs
          (vchiq_use_internal_locked P state entity use_type)
      | some (ret, state, _) => some (ret, state)

/-- The statement `arm_state->blocked_count++` of `vchiq_use_internal` (line
1262), made with the lock held right before the sleep on the resume blocker. -/
def vchiq_use_internal_block (arm_state : VCHIQ_ARM_STATE_T) : VCHIQ_ARM_STATE_T :=
  { arm_state with blocked_count := arm_state.blocked_count + 1 }

/-- The statements of `vchiq_use_internal` after a caller has been released from
the resume blocker (lines 1280-1281):
`if (--arm_state->blocked_count == 0) complete_all(&arm_state->blocked_blocker)`.
The `Bool` tells whether `complete_all` was called. -/
def vchiq_use_internal_unblock (arm_state : VCHIQ_ARM_STATE_T) :
    Bool × VCHIQ_ARM_STATE_T :=
  let arm_state := { arm_state with blocked_count := arm_state.blocked_count - 1 }
  if arm_state.blocked_count = 0 then
    (true, { arm_state with blocked_blocker := complete_all arm_state.blocked_blocker })
  else (false, arm_state)

/-! ## `vchiq_release_internal` -/

/-- The function `vchiq_release_internal` (lines 1346-1406); it never sleeps. -/
def vchiq_release_internal {n : Nat} (P : platform_ops n) (state : VCHIQ_STATE_T n)
    (service : Option (Fin n)) : VCHIQ_STATUS_T × VCHIQ_STATE_T n :=
  match vchiq_platform_get_arm_state state with
  | none => (VCHIQ_SUCCESS, state)
  | some arm_state =>
    if arm_state.videocore_use_count = 0 ∨ entity_uc state service = 0 then
      (VCHIQ_ERROR, state)
    else
      let state := { state with arm_state :=
        { state.arm_state with
          videocore_use_count := state.arm_state.videocore_use_count - 1 } }
      let state := set_entity_uc state service (entity_uc state service - 1)
      if vchiq_videocore_wanted P state = 0 then
        if P.vchiq_platform_use_suspend_timer ≠ 0 ∧ state.arm_state.resume_blocked = 0 then
          (VCHIQ_SUCCESS, { state with arm_state := start_suspend_timer state.arm_state })
        else (VCHIQ_SUCCESS, (vchiq_arm_vcsuspend state).2)
      else (VCHIQ_SUCCESS, state)

/-- The two decrements of `vchiq_release_internal` (lines 1378-1379):
`--arm_state->videocore_use_count` and `--(*entity_uc)`. -/
def vchiq_release_internal_counts {n : Nat} (state : VCHIQ_STATE_T n)
    (service : Option (Fin n)) : VCHIQ_STATE_T n :=
  let state := { state with arm_state :=
    { state.arm_state with
      videocore_use_count := state.arm_state.videocore_use_count - 1 } }
  set_entity_uc state service (entity_uc state service - 1)

/-! ## `vchiq_arm_force_suspend`, `vchiq_arm_allow_resume` -/

/-- The `do ... while (0 < (repeat--))` loop of `vchiq_arm_force_suspend` (lines
1018-1045); `rpt` is the C local `repeat`.  A status in the result is a
`goto unblock_resume` with that status; no status means that the loop ended. -/
def vchiq_arm_force_suspend_wait {n : Nat} :
    Int → List (wait_event n) → VCHIQ_STATE_T n →
      Option (Option VCHIQ_STATUS_T × VCHIQ_STATE_T n × List (wait_event n))
  | rpt, evs, state =>
    match evs with
    | [] => none
    | ev :: rest =>
      let state := ev.others state
      let rc := wait_for_completion_interruptible_timeout ev.result
      if rc < 0 then some (some VCHIQ_ERROR, state, rest)
      else if rc = 0 then
        if state.arm_state.vc_suspend_state.toInt > VC_SUSPEND_IDLE.toInt ∧ rpt < 0 then
          -- repeat = 1; continue: the test 0 < (repeat--) holds and leaves repeat = 0
          vchiq_arm_force_suspend_wait 0 rest state
        else
          some (some VCHIQ_RETRY,
            { state with arm_state :=
              { state.arm_state with
                autosuspend_override := state.arm_state.autosuspend_override + 1 } }, rest)
      else if 0 < rpt then vchiq_arm_force_suspend_wait (rpt - 1) rest state
      else some (none, state, rest)

/-- The branches of `vchiq_arm_force_suspend` for a link that is not yet suspended
(lines 990-1012), run with the lock held: the status with which the function goes
on, and the state. -/
def vchiq_arm_force_suspend_start {n : Nat} (P : platform_ops n) (state : VCHIQ_STATE_T n) :
    VCHIQ_STATUS_T × VCHIQ_STATE_T n :=
  if state.arm_state.vc_suspend_state.toInt ≤ VC_SUSPEND_IDLE.toInt then
    let state := { state with arm_state := stop_suspend_timer state.arm_state }
    if vchiq_videocore_wanted P state = 0 then vchiq_arm_vcsuspend state
    else if state.arm_state.autosuspend_override < FORCE_SUSPEND_FAIL_MAX then
      (VCHIQ_SUCCESS, state)
    else vchiq_arm_vcsuspend state
  else (VCHIQ_SUCCESS, state)

/-- The function `vchiq_arm_force_suspend` (lines 957-1075). -/
def vchiq_arm_force_suspend {n : Nat} (P : platform_ops n) (evs : List (wait_event n))
    (state : VCHIQ_STATE_T n) : Option (VCHIQ_STATUS_T × VCHIQ_STATE_T n) :=
  match vchiq_platform_get_arm_state state with
  | none => some (VCHIQ_ERROR, state)
  | some _ =>
    match block_resume evs state with
    | none => none
    | some (VCHIQ_SUCCESS, state, evs) =>
      if state.arm_state.vc_suspend_state = VC_SUSPEND_SUSPENDED then
        some (VCHIQ_SUCCESS, state)
      else
        let started := vchiq_arm_force_suspend_start P state
        if started.1 ≠ VCHIQ_SUCCESS then
          some (started.1, { started.2 with arm_state := unblock_resume started.2.arm_state })
        else
          match vchiq_arm_force_suspend_wait (-1) evs started.2 with
          | none => none
          | some (some status, state, _) =>
            some (status, { state with arm_state := unblock_resume state.arm_state })
          | some (none, state, _) =>
            if state.arm_state.vc_suspend_state ≠ VC_SUSPEND_SUSPENDED then
              let state :=
                if state.arm_state.vc_suspend_state.toInt < VC_SUSPEND_IDLE.toInt then
                  { state with arm_state := set_suspend_state state.arm_state VC_SUSPEND_IDLE }
                else state
              some (VCHIQ_RETRY, { state with arm_state := unblock_resume state.arm_state })
            else some (VCHIQ_SUCCESS, state)
    | some (status, state, _) => some (status, state)

/-- The function `vchiq_arm_allow_resume` (lines 1101-1142); the result is the C
`int` that it returns (0: resumed, -1: remains suspended or interrupted). -/
def vchiq_arm_allow_resume {n : Nat} (P : platform_ops n) (evs : List (wait_event n))
    (state : VCHIQ_STATE_T n) : Option (Int × VCHIQ_STATE_T n) :=
  match vchiq_platform_get_arm_state state with
  | none => some (-1, state)
  | some arm_state =>
    let state := { state with arm_state := unblock_resume arm_state }
    let checked := vchiq_check_resume P state
    let waited : Option (Bool × VCHIQ_STATE_T n) :=
      if checked.1 = true then
        match evs with
        | [] => none
        | ev :: _ =>
          let state := ev.others checked.2
          match wait_for_completion_interruptible ev.result with
          | none => none
          | some rc => some (decide (rc < 0), state)
      else some (false, checked.2)
    match waited with
    | none => none
    | some (true, state) => some (-1, state)
    | some (false, state) =>
      if state.arm_state.vc_suspend_state = VC_SUSPEND_SUSPENDED then some (-1, state)
      else some (0, state)

/-! ## Properties of states and sequences of calls -/

/-- Agreement of two states on every use counter and on `suspend_timer_running`. -/
def same_use_counts {n : Nat} (s t : VCHIQ_STATE_T n) : Prop :=
  t.arm_state.videocore_use_count = s.arm_state.videocore_use_count ∧
  t.arm_state.peer_use_count = s.arm_state.peer_use_count ∧
  (∀ i, (t.services i).service_use_count = (s.services i).service_use_count) ∧
  t.arm_state.suspend_timer_running = s.arm_state.suspend_timer_running

/-- The balance of the use counts: `videocore_use_count` is `peer_use_count` plus
the sum of `service_use_count` over all services. -/
def use_counts_balanced {n : Nat} (s : VCHIQ_STATE_T n) : Prop :=
  s.arm_state.videocore_use_count =
    s.arm_state.peer_use_count + ∑ i : Fin n, (s.services i).service_use_count

/-- No use count is negative. -/
def use_counts_nonneg {n : Nat} (s : VCHIQ_STATE_T n) : Prop :=
  0 ≤ s.arm_state.videocore_use_count ∧ 0 ≤ s.arm_state.peer_use_count ∧
    ∀ i : Fin n, 0 ≤ (s.services i).service_use_count

instance {n : Nat} (s t : VCHIQ_STATE_T n) : Decidable (same_use_counts s t) := by
  unfold same_use_counts; infer_instance

instance {n : Nat} (s : VCHIQ_STATE_T n) : Decidable (use_counts_balanced s) := by
  unfold use_counts_balanced; infer_instance

instance {n : Nat} (s : VCHIQ_STATE_T n) : Decidable (use_counts_nonneg s) := by
  unfold use_counts_nonneg; infer_instance

/-- One call of the use / release interface: a `vchiq_use_internal` with the
events of its sleeps, or a `vchiq_release_internal`. -/
inductive use_release_call (n : Nat)
  | use (evs : List (wait_event n)) (service : Option (Fin n)) (use_type : USE_TYPE_E)
  | release (service : Option (Fin n))

/-- A sequence of calls, one after the other; the status that a call returns is
dropped.  `none` when one of the calls never returns. -/
def run_calls {n : Nat} (P : platform_ops n) :
    List (use_release_call n) → VCHIQ_STATE_T n → Option (VCHIQ_STATE_T n)
  | [], state => some state
  | use_release_call.use evs service use_type :: calls, state =>
    match vchiq_use_internal P evs state service use_type with
    | none => none
    | some out => run_calls P calls out.2
  | use_release_call.release service :: calls, state =>
    run_calls P calls (vchiq_release_internal P state service).2

/-- What the other parties do during the sleeps of a call keeps the property `I`. -/
def call_others_keep {n : Nat} (I : VCHIQ_STATE_T n → Prop) : use_release_call n → Prop
  | use_release_call.use evs _ _ => ∀ ev ∈ evs, ∀ t, I t → I (ev.others t)
  | use_release_call.release _ => True

/-- Resume is blocked: `resume_blocked` is 1 and the resume blocker is unsignaled. -/
def resume_is_blocked {n : Nat} (s : VCHIQ_STATE_T n) : Prop :=
  s.arm_state.resume_blocked = 1 ∧ s.arm_state.resume_blocker.done = false

/-- Resume is not blocked: `resume_blocked` is 0 and the resume blocker is
signaled. -/
def resume_is_unblocked {n : Nat} (s : VCHIQ_STATE_T n) : Prop :=
  s.arm_state.resume_blocked = 0 ∧ s.arm_state.resume_blocker.done = true

instance {n : Nat} (s : VCHIQ_STATE_T n) : Decidable (resume_is_blocked s) := by
  unfold resume_is_blocked; infer_instance

instance {n : Nat} (s : VCHIQ_STATE_T n) : Decidable (resume_is_unblocked s) := by
  unfold resume_is_unblocked; infer_instance

/-- One of two callers of `vchiq_use_internal`. -/
inductive blocked_caller
  | first
  | second
  deriving DecidableEq, Repr

/-- A step that a caller makes with the lock held around its sleep on the resume
blocker: `block` before the sleep, `unblock` after its release. -/
inductive blocked_step
  | block (c : blocked_caller)
  | unblock (c : blocked_caller)
  deriving DecidableEq, Repr

/-- A schedule of such steps, run one after the other: the values of
`blocked_count` after each step, the callers that have called `complete_all` on
`blocked_blocker`, in this order, and the final state. -/
def run_blocked_steps :
    List blocked_step → VCHIQ_ARM_STATE_T → List Int × List blocked_caller × VCHIQ_ARM_STATE_T
  | [], arm_state => ([], [], arm_state)
  | blocked_step.block _ :: steps, arm_state =>
    let arm_state := vchiq_use_internal_block arm_state
    let out := run_blocked_steps steps arm_state
    (arm_state.blocked_count :: out.1, out.2.1, out.2.2)
  | blocked_step.unblock c :: steps, arm_state =>
    let done := vchiq_use_internal_unblock arm_state
    let out := run_blocked_steps steps done.2
    (done.2.blocked_count :: out.1, (if done.1 then c :: out.2.1 else out.2.1), out.2.2)

/-- The schedules of two callers that are both blocked during one resume-block:
both have made their `block` step before the resume blocker is signaled, so
before either makes its `unblock` step; `a` blocks first, `c` is released
first. -/
def two_blocked_schedule (a c : blocked_caller) : List blocked_step :=
  [blocked_step.block a,
   blocked_step.block (if a = blocked_caller.first then blocked_caller.second
     else blocked_caller.first),
   blocked_step.unblock c,
   blocked_step.unblock (if c = blocked_caller.first then blocked_caller.second
     else blocked_caller.first)]

/-! ## The checks of suspend and resume, and the calls of the platform layer -/

/-- The function `vchiq_check_suspend` (lines 1077-1097). -/
def vchiq_check_suspend {n : Nat} (P : platform_ops n) (state : VCHIQ_STATE_T n) :
    VCHIQ_STATE_T n :=
  match vchiq_platform_get_arm_state state with
  | none => state
  | some arm_state =>
    if arm_state.vc_suspend_state ≠ VC_SUSPEND_SUSPENDED ∧ arm_state.first_connect ≠ 0 ∧
        vchiq_videocore_wanted P state = 0 then
      (vchiq_arm_vcsuspend state).2
    else state

/-- Modelled from the spec: a call that the platform layer, which is not part of
the sources at hand, makes on the state variables once the remote side has
answered: `set_suspend_state` to SUSPENDED, REJECTED or FAILED, or
`set_resume_state` to RESUMED (the end states that the comment of lines 616-665
describes). -/
inductive platform_call
  | suspended
  | rejected
  | failed
  | resumed
  deriving DecidableEq, Repr

/-- The call of `set_suspend_state` or `set_resume_state` that a platform call
is. -/
def platform_call.run (c : platform_call) (arm_state : VCHIQ_ARM_STATE_T) :
    VCHIQ_ARM_STATE_T :=
  match c with
  | platform_call.suspended => set_suspend_state arm_state VC_SUSPEND_SUSPENDED
  | platform_call.rejected => set_suspend_state arm_state VC_SUSPEND_REJECTED
  | platform_call.failed => set_suspend_state arm_state VC_SUSPEND_FAILED
  | platform_call.resumed => set_resume_state arm_state VC_RESUME_RESUMED

/-- Modelled from the spec: the platform functions `vchiq_platform_suspend` and
`vchiq_platform_resume` are not part of the sources at hand; what they do to the
power state is a list of platform calls (none when the answer of the remote side
comes later). -/
def run_platform_calls {n : Nat} :
    List platform_call → VCHIQ_STATE_T n → VCHIQ_STATE_T n
  | [], state => state
  | c :: calls, state =>
    run_platform_calls calls { state with arm_state := c.run state.arm_state }

/-- The function `vchiq_platform_check_suspend` (lines 894-919); `calls` is what
`vchiq_platform_suspend` does. -/
def vchiq_platform_check_suspend {n : Nat} (calls : List platform_call)
    (state : VCHIQ_STATE_T n) : VCHIQ_STATE_T n :=
  match vchiq_platform_get_arm_state state with
  | none => state
  | some arm_state =>
    if arm_state.vc_suspend_state = VC_SUSPEND_REQUESTED ∧
        arm_state.vc_resume_state = VC_RESUME_RESUMED then
      run_platform_calls calls
        { state with arm_state := set_suspend_state arm_state VC_SUSPEND_IN_PROGRESS }
    else state

/-- The function `vchiq_platform_check_resume` (lines 1167-1209); `calls` is what
`vchiq_platform_resume` does. -/
def vchiq_platform_check_resume {n : Nat} (calls : List platform_call)
    (state : VCHIQ_STATE_T n) : VCHIQ_STATE_T n :=
  match vchiq_platform_get_arm_state state with
  | none => state
  | some arm_state =>
    if arm_state.wake_address = 0 then state
    else if arm_state.vc_resume_state = VC_RESUME_IN_PROGRESS then state
    else if arm_state.vc_resume_state = VC_RESUME_REQUESTED then
      run_platform_calls calls
        { state with arm_state := set_resume_state arm_state VC_RESUME_IN_PROGRESS }
    else state

/-- The events mirror the states: resume-complete is signaled exactly when the
resume state is RESUMED, and suspend-complete is signaled exactly when the
suspend state is FORCE_CANCELED, REJECTED, FAILED or SUSPENDED. -/
def events_mirror_states (arm_state : VCHIQ_ARM_STATE_T) : Prop :=
  (arm_state.vc_resume_complete.done = true ↔
    arm_state.vc_resume_state = VC_RESUME_RESUMED) ∧
  (arm_state.vc_suspend_complete.done = true ↔
    (arm_state.vc_suspend_state = VC_SUSPEND_FORCE_CANCELED ∨
      arm_state.vc_suspend_state = VC_SUSPEND_REJECTED ∨
      arm_state.vc_suspend_state = VC_SUSPEND_FAILED ∨
      arm_state.vc_suspend_state = VC_SUSPEND_SUSPENDED))

instance (arm_state : VCHIQ_ARM_STATE_T) : Decidable (events_mirror_states arm_state) := by
  unfold events_mirror_states; infer_instance

/-- One operation on the power state: a function of `vchiq_arm.c` with the events
of its sleeps, or a call of the platform layer. -/
inductive arm_operation (n : Nat)
  | use (evs : List (wait_event n)) (service : Option (Fin n)) (use_type : USE_TYPE_E)
  | release (service : Option (Fin n))
  | check_suspend
  | platform_check_suspend (calls : List platform_call)
  | check_resume
  | platform_check_resume (calls : List platform_call)
  | force_suspend (evs : List (wait_event n))
  | allow_resume (evs : List (wait_event n))
  | platform (c : platform_call)

/-- A sequence of operations, one after the other; what an operation returns is
dropped.  `none` when one of the operations never returns. -/
def run_operations {n : Nat} (P : platform_ops n) :
    List (arm_operation n) → VCHIQ_STATE_T n → Option (VCHIQ_STATE_T n)
  | [], state => some state
  | arm_operation.use evs service use_type :: ops, state =>
    match vchiq_use_internal P evs state service use_type with
    | none => none
    | some out => run_operations P ops out.2
  | arm_operation.release service :: ops, state =>
    run_operations P ops (vchiq_release_internal P state service).2
  | arm_operation.check_suspend :: ops, state =>
    run_operations P ops (vchiq_check_suspend P state)
  | arm_operation.platform_check_suspend calls :: ops, state =>
    run_operations P ops (vchiq_platform_check_suspend calls state)
  | arm_operation.check_resume :: ops, state =>
    run_operations P ops (vchiq_check_resume P state).2
  | arm_operation.platform_check_resume calls :: ops, state =>
    run_operations P ops (vchiq_platform_check_resume calls state)
  | arm_operation.force_suspend evs :: ops, state =>
    match vchiq_arm_force_suspend P evs state with
    | none => none
    | some out => run_operations P ops out.2
  | arm_operation.allow_resume evs :: ops, state =>
    match vchiq_arm_allow_resume P evs state with
    | none => none
    | some out => run_operations P ops out.2
  | arm_operation.platform c :: ops, state =>
    run_operations P ops { state with arm_state := c.run state.arm_state }

/-- The events of the sleeps of an operation. -/
def arm_operation.events {n : Nat} : arm_operation n → List (wait_event n)
  | arm_operation.use evs _ _ => evs
  | arm_operation.force_suspend evs => evs
  | arm_operation.allow_resume evs => evs
  | _ => []

/-! ## The completion dispatcher: `add_completion`, `service_callback` -/

/-- The capacity `MAX_COMPLETIONS` of the completion queue (line 64). -/
def MAX_COMPLETIONS : Int := 16

/-- The capacity `MSG_QUEUE_SIZE` of a message queue (line 67). -/
def MSG_QUEUE_SIZE : Int := 64

/-- Modelled from the spec: kernel `struct semaphore`, one of the spec's "counting
semaphores"; only its count of tokens. -/
structure semaphore where
  count : Nat
  deriving DecidableEq, Repr

/-- Modelled from the spec: kernel `up`, one more token. -/
def up (sem : semaphore) : semaphore := ⟨sem.count + 1⟩

/-- Modelled from the spec: what kernel `down_interruptible` returns after a sleep:
0 when an `up` has passed a token to the sleeper, `-EINTR` when the sleep was
interrupted; it has no timeout, so with a `timed_out` event it does not return. -/
def down_interruptible_sleep (r : wait_result) : Option Int :=
  match r with
  | wait_result.completed => some 0
  | wait_result.interrupted => some (-4)
  | wait_result.timed_out => none

/-- Modelled from the spec: `VCHIQ_REASON_T` of `vchiq_if.h`, the reason of a
callback. -/
inductive VCHIQ_REASON_T where
  | VCHIQ_SERVICE_OPENED
  | VCHIQ_SERVICE_CLOSED
  | VCHIQ_MESSAGE_AVAILABLE
  | VCHIQ_BULK_TRANSMIT_DONE
  | VCHIQ_BULK_RECEIVE_DONE
  | VCHIQ_BULK_TRANSMIT_ABORTED
  | VCHIQ_BULK_RECEIVE_ABORTED
  deriving DecidableEq, Repr

open VCHIQ_REASON_T

/-- The client instance `struct vchiq_instance_struct` (lines 131-146), with the
fields that the dispatcher reads or writes. -/
structure vchiq_instance_struct where
  completion_insert : Int
  completion_remove : Int
  insert_event : semaphore
  remove_event : semaphore
  closing : Int
  deriving DecidableEq, Repr

/-- The record `USER_SERVICE_T` (lines 111-123).  `instance_present` is the
pointer `instance`: `false` is NULL, `true` points to the instance of the
memory.  A header pointer is an address; NULL is `none`.  The pointer `service`
always points to the endpoint of the memory, and `userdata` is left out. -/
structure USER_SERVICE_T where
  instance_present : Bool
  is_vchi : Int
  dequeue_pending : Int
  message_available_pos : Int
  msg_insert : Int
  msg_remove : Int
  insert_event : semaphore
  remove_event : semaphore
  msg_queue : Fin 64 → Option Nat

/-- The memory that one call of `service_callback` works on: the record
`user_service` of the endpoint, the client instance `inst` (the C `instance`),
and the reference count of the endpoint `user_service->service`. -/
structure dispatcher_memory where
  inst : vchiq_instance_struct
  user_service : USER_SERVICE_T
  service_ref_count : Nat

/-- One sleep of the dispatcher in `down_interruptible`: how it ended, and what
the other parties (the consumer of the queues, other producers, a close of the
instance) did to the memory until the sleeper ran again. -/
structure dispatcher_event where
  result : wait_result
  others : dispatcher_memory → dispatcher_memory

/-- Modelled from the spec: `lock_service` of `vchiq_core.c`, the "extra reference"
on the endpoint. -/
def lock_service (mem : dispatcher_memory) : dispatcher_memory :=
  { mem with service_ref_count := mem.service_ref_count + 1 }

/-- Modelled from the spec: kernel `down_interruptible` on the semaphore that `get`
reads and `set` writes.  With a token at hand it takes the token and returns 0
at once; without one it sleeps, which takes one event. -/
def down_interruptible (get : dispatcher_memory → semaphore)
    (set : dispatcher_memory → semaphore → dispatcher_memory)
    (evs : List dispatcher_event) (mem : dispatcher_memory) :
    Option (Int × dispatcher_memory × List dispatcher_event) :=
  if 0 < (get mem).count then some (0, set mem ⟨(get mem).count - 1⟩, evs)
  else
    match evs with
    | [] => none
    | ev :: rest =>
      match down_interruptible_sleep ev.result with
      | none => none
      | some rc => some (rc, ev.others mem, rest)

/-- Write `instance->remove_event`. -/
def set_instance_remove_event (mem : dispatcher_memory) (sem : semaphore) :
    dispatcher_memory :=
  { mem with inst := { mem.inst with remove_event := sem } }

/-- Write `user_service->remove_event`. -/
def set_user_remove_event (mem : dispatcher_memory) (sem : semaphore) :
    dispatcher_memory :=
  { mem with user_service := { mem.user_service with remove_event := sem } }

/-- The wait loop of `add_completion` (lines 171-188) for as long as
`down_interruptible` finds a token in `instance->remove_event` and so returns 0
without a sleep; `tokens` is the count of that semaphore, the argument of the
recursion (`add_completion_wait` passes the count, so the case of a token at
hand with `tokens` = 0 is never met).  `sleep` is the rest of the loop from a
`down_interruptible` that finds no token.  A status in the result is a `return`
with that status; no status means that the loop ended. -/
def add_completion_wait_tokens (evs : List dispatcher_event)
    (sleep : dispatcher_memory →
      Option (Option VCHIQ_STATUS_T × dispatcher_memory × List dispatcher_event)) :
    Nat → dispatcher_memory →
      Option (Option VCHIQ_STATUS_T × dispatcher_memory × List dispatcher_event)
  | tokens, mem =>
    if mem.inst.completion_insert = mem.inst.completion_remove + MAX_COMPLETIONS then
      if 0 < mem.inst.remove_event.count then
        match tokens with
        | 0 => none
        | tokens + 1 =>
          let mem := set_instance_remove_event mem ⟨mem.inst.remove_event.count - 1⟩
          if mem.inst.closing ≠ 0 then some (some VCHIQ_ERROR, mem, evs)
          else add_completion_wait_tokens evs sleep tokens mem
      else sleep mem
    else some (none, mem, evs)

/-- The wait loop of `add_completion` (lines 171-188): while the completion queue
is full, `down_interruptible(&instance->remove_event)`; a sleep takes one event. -/
def add_completion_wait :
    List dispatcher_event → dispatcher_memory →
      Option (Option VCHIQ_STATUS_T × dispatcher_memory × List dispatcher_event)
  | [], mem =>
    add_completion_wait_tokens [] (fun _ => none) mem.inst.remove_event.count mem
  | ev :: rest, mem =>
    add_completion_wait_tokens (ev :: rest)
      (fun mem =>
        let mem := ev.others mem
        match down_interruptible_sleep ev.result with
        | none => none
        | some rc =>
          if rc ≠ 0 then some (some VCHIQ_RETRY, mem, rest)
          else if mem.inst.closing ≠ 0 then some (some VCHIQ_ERROR, mem, rest)
          else add_completion_wait rest mem)
      mem.inst.remove_event.count mem

/-- The function `add_completion` past its wait loop (lines 190-206): the extra
reference, `message_available_pos`, `completion_insert++` and
`up(&instance->insert_event)`.  This version of the source writes no completion
record, so `header` and `bulk_userdata` are not used. -/
def add_completion_insert (reason : VCHIQ_REASON_T) (mem : dispatcher_memory) :
    dispatcher_memory :=
  let mem := if reason = VCHIQ_SERVICE_CLOSED then lock_service mem else mem
  let mem :=
    if reason = VCHIQ_MESSAGE_AVAILABLE then
      { mem with user_service :=
        { mem.user_service with message_available_pos := mem.inst.completion_insert } }
    else mem
  let mem := { mem with inst :=
    { mem.inst with completion_insert := mem.inst.completion_insert + 1 } }
  { mem with inst := { mem.inst with insert_event := up mem.inst.insert_event } }

/-- The function `add_completion` (lines 163-207).  The result holds the events
that are left. -/
def add_completion (reason : VCHIQ_REASON_T) (_header : Option Nat)
    (evs : List dispatcher_event) (mem : dispatcher_memory) :
    Option (VCHIQ_STATUS_T × dispatcher_memory × List dispatcher_event) :=
  match add_completion_wait evs mem with
  | none => none
  | some (some status, mem, evs) => some (status, mem, evs)
  | some (none, mem, evs) => some (VCHIQ_SUCCESS, add_completion_insert reason mem, evs)

/-- The loop of `service_callback` on a full message queue (lines 247-283).  Each
pass takes one unit of `fuel`; without fuel there is no result.  A status in
the result is a `return` with that status; no status means that the loop
ended. -/
def service_callback_wait :
    Nat → VCHIQ_REASON_T → List dispatcher_event → dispatcher_memory →
      Option (Option VCHIQ_STATUS_T × dispatcher_memory × List dispatcher_event)
  | 0, _, _, _ => none
  | fuel + 1, reason, evs, mem =>
    if mem.user_service.msg_insert = mem.user_service.msg_remove + MSG_QUEUE_SIZE then
      let added :=
        if mem.user_service.message_available_pos - mem.inst.completion_remove < 0 then
          add_completion reason none evs mem
        else some (VCHIQ_SUCCESS, mem, evs)
      match added with
      | none => none
      | some (status, mem, evs) =>
        if status ≠ VCHIQ_SUCCESS then some (some status, mem, evs)
        else
          match down_interruptible (fun m => m.user_service.remove_event)
              set_user_remove_event evs mem with
          | none => none
          | some (rc, mem, evs) =>
            if rc ≠ 0 then some (some VCHIQ_RETRY, mem, evs)
            else if mem.inst.closing ≠ 0 then some (some VCHIQ_ERROR, mem, evs)
            else service_callback_wait fuel reason evs mem
    else some (none, mem, evs)

/-- The stores of `service_callback` that queue a message (lines 285-290):
`msg_queue[msg_insert & (MSG_QUEUE_SIZE - 1)] = header`, `msg_insert++` and
`up(&user_service->insert_event)`. -/
def service_callback_queue (header : Option Nat) (mem : dispatcher_memory) :
    dispatcher_memory :=
  let us := mem.user_service
  let slot : Fin 64 := Fin.ofNat (Int.land us.msg_insert (MSG_QUEUE_SIZE - 1)).toNat
  let us := { us with msg_queue := Function.update us.msg_queue slot header }
  let us := { us with msg_insert := us.msg_insert + 1 }
  let us := { us with insert_event := up us.insert_event }
  { mem with user_service := us }

/-- The function `service_callback` (lines 215-315) on the memory of the endpoint
that `handle` stands for.  `fuel` bounds the passes through the loop on a full
message queue; the result holds the events that are left. -/
def service_callback (fuel : Nat) (reason : VCHIQ_REASON_T) (header : Option Nat)
    (evs : List dispatcher_event) (mem : dispatcher_memory) :
    Option (VCHIQ_STATUS_T × dispatcher_memory × List dispatcher_event) :=
  if mem.user_service.instance_present = false ∨ mem.inst.closing ≠ 0 then
    some (VCHIQ_SUCCESS, mem, evs)
  else if header.isSome = true ∧ mem.user_service.is_vchi ≠ 0 then
    match service_callback_wait fuel reason evs mem with
    | none => none
    | some (some status, mem, evs) => some (status, mem, evs)
    | some (none, mem, evs) =>
      let mem := service_callback_queue header mem
      if mem.user_service.message_available_pos - mem.inst.completion_remove ≥ 0 ∨
          mem.user_service.dequeue_pending ≠ 0 then
        some (VCHIQ_SUCCESS,
          { mem with user_service := { mem.user_service with dequeue_pending := 0 } }, evs)
      else add_completion reason none evs mem
  else add_completion reason header evs mem

/-- The test of the wait loop of `add_completion` (lines 171-172): the completion
queue is full. -/
def completion_queue_full (mem : dispatcher_memory) : Prop :=
  mem.inst.completion_insert = mem.inst.completion_remove + MAX_COMPLETIONS

instance (mem : dispatcher_memory) : Decidable (completion_queue_full mem) := by
  unfold completion_queue_full; infer_instance

/-- The invariant of the completion queue:
0 ≤ `completion_insert` − `completion_remove` ≤ `MAX_COMPLETIONS`. -/
def completion_ring_invariant (mem : dispatcher_memory) : Prop :=
  0 ≤ mem.inst.completion_insert - mem.inst.completion_remove ∧
  mem.inst.completion_insert - mem.inst.completion_remove ≤ MAX_COMPLETIONS

instance (mem : dispatcher_memory) : Decidable (completion_ring_invariant mem) := by
  unfold completion_ring_invariant; infer_instance

/-- Consecutive calls of `add_completion`, one for each reason of the list, with
nothing else running between two calls (no dequeue in between): the statuses
that the calls return, the memory and the events that are left. -/
def add_completion_calls :
    List VCHIQ_REASON_T → List dispatcher_event → dispatcher_memory →
      Option (List VCHIQ_STATUS_T × dispatcher_memory × List dispatcher_event)
  | [], evs, mem => some ([], mem, evs)
  | reason :: reasons, evs, mem =>
    match add_completion reason none evs mem with
    | none => none
    | some (status, mem, evs) =>
      match add_completion_calls reasons evs mem with
      | none => none
      | some (statuses, mem, evs) => some (status :: statuses, mem, evs)

/-! ## The mailbox interrupt handler `bcm2835_mbox_irq` (`drivers/mailbox/bcm2835-ipc.c`) -/

/-- The number of channels `MBOX_CHAN_COUNT` (line 46). -/
def MBOX_CHAN_COUNT : Nat := 9

/-- The macro `MBOX_CHAN(msg)` (line 56): `((msg) & 0xf)`. -/
def MBOX_CHAN (msg : Nat) : Nat := msg &&& 0xf

/-- Modelled from the spec: kernel `complete`, the signal of the spec's Event
Primitive. -/
def complete (_x : completion) : completion := ⟨true⟩

/-- One entry of the array `chan[]` of `struct bcm2835_mbox` (lines 62-66), without
its mutex. -/
structure bcm2835_mbox_chan where
  msg : Nat
  comp : completion
  deriving DecidableEq, Repr

/-- The record `struct bcm2835_mbox` (lines 59-67): the array `chan`, which has
`MBOX_CHAN_COUNT` entries, as a list. -/
structure bcm2835_mbox where
  chan : List bcm2835_mbox_chan
  deriving DecidableEq, Repr

/-- The body of the loop of `bcm2835_mbox_irq` for one message read from the FIFO
(lines 78-93).  `ret` is the C local, `true` for `IRQ_HANDLED`.  An access
`mbox->chan[chan]` outside the array is the error, which carries the index. -/
def bcm2835_mbox_irq_message (mbox : bcm2835_mbox) (ret : Bool) (msg : Nat) :
    Except Nat (Bool × bcm2835_mbox) :=
  let chan := MBOX_CHAN msg
  if chan > MBOX_CHAN_COUNT then Except.ok (ret, mbox)
  else
    match mbox.chan.get? chan with
    | none => Except.error chan
    | some entry =>
      if entry.msg ≠ 0 then Except.ok (ret, mbox)
      else
        Except.ok (true,
          { mbox with chan := mbox.chan.set chan { msg := msg, comp := complete entry.comp } })

/-- The loop of `bcm2835_mbox_irq` (lines 76-94) over the messages that the FIFO
hands out until the status register reads empty. -/
def bcm2835_mbox_irq_loop :
    List Nat → bcm2835_mbox → Bool → Except Nat (Bool × bcm2835_mbox)
  | [], mbox, ret => Except.ok (ret, mbox)
  | msg :: fifo, mbox, ret =>
    match bcm2835_mbox_irq_message mbox ret msg with
    | Except.error index => Except.error index
    | Except.ok (ret, mbox) => bcm2835_mbox_irq_loop fifo mbox ret

/-- The function `bcm2835_mbox_irq` (lines 69-97); `fifo` holds the messages in the
mailbox FIFO.  The result is `true` for `IRQ_HANDLED` and `false` for
`IRQ_NONE`. -/
def bcm2835_mbox_irq (fifo : List Nat) (mbox : bcm2835_mbox) :
    Except Nat (Bool × bcm2835_mbox) :=
  bcm2835_mbox_irq_loop fifo mbox false

/-- The slot of the message ring for the counter value `x`:
`x & (MSG_QUEUE_SIZE - 1)`, as `service_callback` computes it from `msg_insert`
(line 290). -/
def msg_queue_slot (x : Int) : Fin 64 :=
  Fin.ofNat (Int.land x (MSG_QUEUE_SIZE - 1)).toNat

/-- The test of the loop of `service_callback` (lines 249-250): the message queue
of the endpoint is full. -/
def msg_queue_full (mem : dispatcher_memory) : Prop :=
  mem.user_service.msg_insert = mem.user_service.msg_remove + MSG_QUEUE_SIZE

instance (mem : dispatcher_memory) : Decidable (msg_queue_full mem) := by
  unfold msg_queue_full; infer_instance

/-- The test of `service_callback` after it has queued a message (lines 301-303):
a message-available notice is outstanding
(`message_available_pos` − `completion_remove` ≥ 0) or a consumer waits
(`dequeue_pending`), so the completion queue is bypassed. -/
def completion_bypassed (mem : dispatcher_memory) : Prop :=
  mem.user_service.message_available_pos - mem.inst.completion_remove ≥ 0 ∨
    mem.user_service.dequeue_pending ≠ 0

instance (mem : dispatcher_memory) : Decidable (completion_bypassed mem) := by
  unfold completion_bypassed; infer_instance

/-- The message ring of an endpoint holds the headers `pending`, the oldest first:
`msg_insert` − `msg_remove` is their number, at most `MSG_QUEUE_SIZE`, and the
slot of `msg_remove + i` holds the `i`-th of them. -/
def msg_queue_holds (us : USER_SERVICE_T) (pending : List Nat) : Prop :=
  us.msg_insert - us.msg_remove = pending.length ∧
  (pending.length : Int) ≤ MSG_QUEUE_SIZE ∧
  ∀ i : Fin pending.length,
    us.msg_queue (msg_queue_slot (us.msg_remove + i.val)) = some (pending.get i)

instance (us : USER_SERVICE_T) (pending : List Nat) : Decidable (msg_queue_holds us pending) := by
  unfold msg_queue_holds; infer_instance

/-! ## Concrete states and platforms -/

/-- The arm state as allocated: every field zero. -/
def arm_state_zero : VCHIQ_ARM_STATE_T :=
  { ka_use_ack_count := 0
    vc_suspend_state := VC_SUSPEND_IDLE
    vc_resume_state := VC_RESUME_IDLE
    vc_suspend_complete := ⟨false⟩
    vc_resume_complete := ⟨false⟩
    resume_blocker := ⟨false⟩
    blocked_blocker := ⟨false⟩
    resume_blocked := 0
    blocked_count := 0
    videocore_use_count := 0
    peer_use_count := 0
    suspend_timer := ⟨false⟩
    suspend_timer_timeout := 0
    suspend_timer_running := 0
    autosuspend_override := 0
    first_connect := 0
    wake_address := 0 }

/-- The link state right after `vchiq_arm_init_state`, with `n` services and all
use counts zero. -/
def state_at_init (n : Nat) : VCHIQ_STATE_T n :=
  { arm_state := vchiq_arm_init_state arm_state_zero
    services := fun _ => ⟨0⟩
    poll_requests := 0
    remote_use_active_sent := 0 }

/-- A platform that always wants the coprocessor, has no suspend timer, and whose
use notifications always go through. -/
def platform_wanted (n : Nat) : platform_ops n :=
  { vchiq_platform_videocore_wanted := fun _ => 1
    vchiq_platform_use_suspend_timer := 0
    vchiq_send_remote_use_active := fun _ => VCHIQ_SUCCESS }

/-- A platform that leaves the choice to the use counts (it never asks for the
coprocessor itself) and uses the suspend timer. -/
def platform_unwanted (n : Nat) : platform_ops n :=
  { vchiq_platform_videocore_wanted := fun _ => 0
    vchiq_platform_use_suspend_timer := 1
    vchiq_send_remote_use_active := fun _ => VCHIQ_SUCCESS }

/-- The state of the spec's scenario: suspend state IDLE, resume state IDLE (with
resume-complete unsignaled), resume not blocked, all use counts zero. -/
def state_idle_idle : VCHIQ_STATE_T 2 :=
  { state_at_init 2 with
    arm_state := set_resume_state (state_at_init 2).arm_state VC_RESUME_IDLE }

/-- A suspended link: from the initial state the suspend state went to
IN_PROGRESS and then to SUSPENDED; all use counts are zero. -/
def state_suspended : VCHIQ_STATE_T 2 :=
  { state_at_init 2 with
    arm_state := set_suspend_state
      (set_suspend_state (state_at_init 2).arm_state VC_SUSPEND_IN_PROGRESS)
      VC_SUSPEND_SUSPENDED }

/-- A sleep that ends because the remote side has completed the resume: the
platform code calls `set_resume_state(arm_state, VC_RESUME_RESUMED)`. -/
def remote_resumes : wait_event 2 :=
  { result := wait_result.completed
    others := fun t =>
      { t with arm_state := set_resume_state t.arm_state VC_RESUME_RESUMED } }

/-- A sleep that ends because the remote side has suspended: the suspend state
went to IN_PROGRESS and then to SUSPENDED. -/
def remote_suspends : wait_event 2 :=
  { result := wait_result.completed
    others := fun t =>
      { t with
        arm_state := set_suspend_state
          (set_suspend_state t.arm_state VC_SUSPEND_IN_PROGRESS) VC_SUSPEND_SUSPENDED } }

/-- The state in which `vchiq_arm_force_suspend`, called in the initial state on a
platform that does not ask for the coprocessor, returns once the remote side has
suspended. -/
def state_force_suspended : VCHIQ_STATE_T 2 :=
  ((vchiq_arm_force_suspend (platform_unwanted 2) [remote_suspends]
    (state_at_init 2)).map (fun r => r.2)).getD (state_at_init 2)

/-- The state after `vchiq_arm_allow_resume` in `state_force_suspended`. -/
def state_allowed : VCHIQ_STATE_T 2 :=
  ((vchiq_arm_allow_resume (platform_unwanted 2) [remote_resumes]
    state_force_suspended).map (fun r => r.2)).getD state_force_suspended

/-- One service in use: the state after a use of service 0 in the initial state. -/
def state_in_use : VCHIQ_STATE_T 2 :=
  ((vchiq_use_internal (platform_wanted 2) [] (state_at_init 2) (some 0)
    USE_TYPE_SERVICE).map (fun r => r.2)).getD (state_at_init 2)

/-- The state in which `vchiq_arm_force_suspend`, called in `state_in_use`, starts
to sleep on suspend-complete: resume is blocked, the suspend state is IDLE (the
coprocessor is wanted, so the call lets it go idle). -/
def state_force_waiting : VCHIQ_STATE_T 2 :=
  ((block_resume [] state_in_use).map (fun r => r.2.1)).getD state_in_use

/-- Four calls: a use of service 0, a use of the link, a release of service 0
and a release of service 1 (which has no use to give back). -/
def calls_example : List (use_release_call 2) :=
  [use_release_call.use [] (some 0) USE_TYPE_SERVICE,
   use_release_call.use [] none USE_TYPE_VCHIQ,
   use_release_call.release (some 0),
   use_release_call.release (some 1)]

/-- Four calls on a suspended link: a use of the link, which asks for the resume
and sleeps until the remote side has completed it, a use of service 0, a release
of service 0 and a release of service 1 (which has no use to give back). -/
def calls_with_sleep : List (use_release_call 2) :=
  [use_release_call.use [remote_resumes] none USE_TYPE_VCHIQ,
   use_release_call.use [] (some 0) USE_TYPE_SERVICE,
   use_release_call.release (some 0),
   use_release_call.release (some 1)]

/-- The state after `calls_with_sleep` in `state_suspended`. -/
def state_after_sleep : VCHIQ_STATE_T 2 :=
  (run_calls (platform_wanted 2) calls_with_sleep state_suspended).getD state_suspended

/-- The state after `calls_example` in the initial state. -/
def state_after_calls : VCHIQ_STATE_T 2 :=
  (run_calls (platform_wanted 2) calls_example (state_at_init 2)).getD (state_at_init 2)

/-- A sleep that ends by timeout while the other parties do nothing. -/
def quiet_timeout : wait_event 2 :=
  { result := wait_result.timed_out
    others := fun t => t }

/-- The link is suspended by a force suspend (`state_force_suspended`, resume
blocked) and one caller of `vchiq_use_internal` sleeps on the resume blocker:
`blocked_count` is 1, as line 1262 leaves it. -/
def state_caller_blocked : VCHIQ_STATE_T 2 :=
  { state_force_suspended with
    arm_state := { state_force_suspended.arm_state with blocked_count := 1 } }

/-- The state after `vchiq_arm_allow_resume` in `state_caller_blocked`, once the
remote side has resumed: resume is unblocked, but the blocked caller has not run
yet, so `blocked_count` is still 1. -/
def state_caller_released : VCHIQ_STATE_T 2 :=
  ((vchiq_arm_allow_resume (platform_wanted 2) [remote_resumes]
    state_caller_blocked).map (fun r => r.2)).getD state_caller_blocked

/-- The state after a `vchiq_arm_force_suspend` that has failed once: called in
`state_in_use`, its wait on suspend-complete timed out (`autosuspend_override` is
now 1, resume is unblocked again). -/
def state_failed_once : VCHIQ_STATE_T 2 :=
  ((vchiq_arm_force_suspend (platform_wanted 2) [quiet_timeout]
    state_in_use).map (fun r => r.2)).getD state_in_use

/-- The suspended link with resume blocked: the state in which
`vchiq_arm_force_suspend`, called in `state_suspended`, returns. -/
def state_suspended_blocked : VCHIQ_STATE_T 2 :=
  ((block_resume [] state_suspended).map (fun r => r.2.1)).getD state_suspended

/-- A client instance with an empty completion queue and no tokens. -/
def instance_empty : vchiq_instance_struct :=
  { completion_insert := 0
    completion_remove := 0
    insert_event := ⟨0⟩
    remove_event := ⟨0⟩
    closing := 0 }

/-- An endpoint in the message queue mode with an empty message queue, no
message-available notice outstanding and no consumer waiting. -/
def user_service_empty : USER_SERVICE_T :=
  { instance_present := true
    is_vchi := 1
    dequeue_pending := 0
    message_available_pos := -1
    msg_insert := 0
    msg_remove := 0
    insert_event := ⟨0⟩
    remove_event := ⟨0⟩
    msg_queue := fun _ => none }

/-- The memory of an endpoint with one reference, right after its client has
opened it: both queues are empty. -/
def memory_empty : dispatcher_memory :=
  { inst := instance_empty
    user_service := user_service_empty
    service_ref_count := 1 }

/-- The memory `memory_empty` after sixteen completions have been added and none
removed: the completion queue is full. -/
def memory_full : dispatcher_memory :=
  { memory_empty with
    inst := { instance_empty with completion_insert := 16, insert_event := ⟨16⟩ } }

/-- A sleep in `down_interruptible` that a signal ends, while nobody else runs. -/
def sleep_interrupted : dispatcher_event :=
  { result := wait_result.interrupted
    others := fun t => t }

/-- A sleep in `down_interruptible` during which the client closes the instance:
`closing` is set and the sleeper is woken through `remove_event`. -/
def sleep_closing : dispatcher_event :=
  { result := wait_result.completed
    others := fun t => { t with inst := { t.inst with closing := 1 } } }

/-- A sleep in `down_interruptible` during which the consumer takes one completion
off the queue, if there is one: `completion_remove++`, and its
`up(&instance->remove_event)` passes the token to the sleeper. -/
def sleep_dequeued : dispatcher_event :=
  { result := wait_result.completed
    others := fun t =>
      if 0 < t.inst.completion_insert - t.inst.completion_remove then
        { t with inst := { t.inst with completion_remove := t.inst.completion_remove + 1 } }
      else t }

/-- The memory `memory_empty` of an endpoint whose client is closing the
instance. -/
def memory_closing : dispatcher_memory :=
  { memory_empty with inst := { instance_empty with closing := 1 } }

/-- The memory after a call of `add_completion` in `memory_full` that slept until
the consumer had taken one completion off the queue. -/
def memory_refilled : dispatcher_memory :=
  ((add_completion VCHIQ_MESSAGE_AVAILABLE none [sleep_dequeued] memory_full).map
    (fun r => r.2.1)).getD memory_full

/-- A sleep that a signal ends while the other parties do nothing. -/
def quiet_interrupt : wait_event 2 :=
  { result := wait_result.interrupted
    others := fun t => t }

/-- The initial state after a `vchiq_arm_vcsuspend`: the suspend state is
REQUESTED and one poll has been requested. -/
def state_suspend_requested : VCHIQ_STATE_T 2 :=
  (vchiq_arm_vcsuspend (state_at_init 2)).2

/-- A sleep of a first caller on the resume blocker during which a second caller
makes its `block` step and `vchiq_arm_allow_resume` then unblocks resume. -/
def second_blocks_then_release : wait_event 2 :=
  { result := wait_result.completed
    others := fun t =>
      { t with arm_state := unblock_resume (vchiq_use_internal_block t.arm_state) } }

/-- The state of the second caller when it runs again, after the first caller
has left the loop on the resume blocker. -/
def state_first_drained : VCHIQ_STATE_T 2 :=
  ((vchiq_use_internal_blocked [second_blocks_then_release] state_force_suspended).map
    (fun r => r.2.1)).getD state_force_suspended

/-- The state in which a use of service 0 on the suspended link returns when its
wait on resume-complete is interrupted. -/
def state_use_interrupted : VCHIQ_STATE_T 2 :=
  ((vchiq_use_internal (platform_wanted 2) [quiet_interrupt] state_suspended (some 0)
    USE_TYPE_SERVICE).map (fun r => r.2)).getD state_suspended

/-- A mailbox with its nine channels, none of which holds a message. -/
def mbox_idle : bcm2835_mbox :=
  { chan := List.replicate 9 { msg := 0, comp := ⟨false⟩ } }

/-- A run of the power state: a use and a release of service 0, a check of
suspend, a force suspend during which the remote side suspends, an allow-resume,
the resume reported by the platform layer, and a second use of service 0. -/
def operations_example : List (arm_operation 2) :=
  [arm_operation.use [] (some 0) USE_TYPE_SERVICE,
   arm_operation.release (some 0),
   arm_operation.check_suspend,
   arm_operation.force_suspend [remote_suspends],
   arm_operation.allow_resume [remote_resumes],
   arm_operation.platform platform_call.resumed,
   arm_operation.use [] (some 0) USE_TYPE_SERVICE]

/-- The state after `operations_example` in the initial state. -/
def state_after_operations : VCHIQ_STATE_T 2 :=
  (run_operations (platform_unwanted 2) operations_example (state_at_init 2)).getD
    (state_at_init 2)

/-- The memory `memory_empty` after one message (header 5) has been delivered:
the message is in the ring and one message-available completion is in the
completion queue. -/
def memory_one_message : dispatcher_memory :=
  ((service_callback 1 VCHIQ_MESSAGE_AVAILABLE (some 5) [] memory_empty).map
    (fun r => r.2.1)).getD memory_empty

/-- The memory `memory_empty` of an endpoint whose consumer waits for the next
message: `dequeue_pending` is set. -/
def memory_consumer_waiting : dispatcher_memory :=
  { memory_empty with user_service := { user_service_empty with dequeue_pending := 1 } }

/-- The memory after a delivery of the header 5 in `memory_full` that has stored
the message and then failed with `VCHIQ_RETRY` in `add_completion`. -/
def memory_after_retry : dispatcher_memory :=
  ((service_callback 1 VCHIQ_MESSAGE_AVAILABLE (some 5) [sleep_interrupted]
    memory_full).map (fun r => r.2.1)).getD memory_full

/-! ## Theorems -/

/-- The call that `set_resume_state` makes at line 729 is `set_suspend_state` at
`VC_SUSPEND_IDLE`. -/
theorem set_suspend_state_IDLE_eq (arm_state : VCHIQ_ARM_STATE_T) :
    set_suspend_state arm_state VC_SUSPEND_IDLE = set_suspend_state_IDLE arm_state := rfl

/-- C6 (coupling rule): from any state, `set_suspend_state(VC_SUSPEND_IN_PROGRESS)`
leaves the suspend state IN_PROGRESS, the resume state IDLE and resume-complete
unsignaled; and from any state, `set_resume_state(VC_RESUME_RESUMED)` leaves the
resume state RESUMED, resume-complete signaled, the suspend state IDLE and
suspend-complete unsignaled. -/
theorem set_state_coupling (arm_state : VCHIQ_ARM_STATE_T) :
    ((set_suspend_state arm_state VC_SUSPEND_IN_PROGRESS).vc_suspend_state
        = VC_SUSPEND_IN_PROGRESS ∧
      (set_suspend_state arm_state VC_SUSPEND_IN_PROGRESS).vc_resume_state = VC_RESUME_IDLE ∧
      (set_suspend_state arm_state VC_SUSPEND_IN_PROGRESS).vc_resume_complete.done = false) ∧
    ((set_resume_state arm_state VC_RESUME_RESUMED).vc_resume_state = VC_RESUME_RESUMED ∧
      (set_resume_state arm_state VC_RESUME_RESUMED).vc_resume_complete.done = true ∧
      (set_resume_state arm_state VC_RESUME_RESUMED).vc_suspend_state = VC_SUSPEND_IDLE ∧
      (set_resume_state arm_state VC_RESUME_RESUMED).vc_suspend_complete.done = false) := by
  refine ⟨⟨rfl, rfl, rfl⟩, rfl, rfl, rfl, rfl⟩

/-- C7: from any state, `set_suspend_state(VC_SUSPEND_FAILED)` leaves the suspend
state FAILED with suspend-complete signaled, and the resume state RESUMED with
resume-complete signaled. -/
theorem set_suspend_state_failed (arm_state : VCHIQ_ARM_STATE_T) :
    (set_suspend_state arm_state VC_SUSPEND_FAILED).vc_suspend_state = VC_SUSPEND_FAILED ∧
    (set_suspend_state arm_state VC_SUSPEND_FAILED).vc_suspend_complete.done = true ∧
    (set_suspend_state arm_state VC_SUSPEND_FAILED).vc_resume_state = VC_RESUME_RESUMED ∧
    (set_suspend_state arm_state VC_SUSPEND_FAILED).vc_resume_complete.done = true := by
  refine ⟨rfl, rfl, rfl, rfl⟩

/-! ### The loop on the resume blocker -/

/-- The loop is skipped when resume is not blocked. -/
theorem blocked_not_blocked {n : Nat} (evs : List (wait_event n)) (state : VCHIQ_STATE_T n)
    (h : state.arm_state.resume_blocked = 0) :
    vchiq_use_internal_blocked evs state = some (VCHIQ_SUCCESS, state, evs) := by
  rw [vchiq_use_internal_blocked]; simp [h]

/-- Resume blocked and suspend state IDLE: FORCE_CANCELED is set and the loop is left. -/
theorem blocked_idle {n : Nat} (evs : List (wait_event n)) (state : VCHIQ_STATE_T n)
    (h : state.arm_state.resume_blocked ≠ 0)
    (hi : state.arm_state.vc_suspend_state = VC_SUSPEND_IDLE) :
    vchiq_use_internal_blocked evs state = some (VCHIQ_SUCCESS,
      { state with
        arm_state := set_suspend_state state.arm_state VC_SUSPEND_FORCE_CANCELED }, evs) := by
  rw [vchiq_use_internal_blocked]; simp [h, hi]

/-- Resume blocked, suspend state not IDLE, resume blocker signaled: the loop spins. -/
theorem blocked_spin {n : Nat} (evs : List (wait_event n)) (state : VCHIQ_STATE_T n)
    (h : state.arm_state.resume_blocked ≠ 0)
    (hi : state.arm_state.vc_suspend_state ≠ VC_SUSPEND_IDLE)
    (hd : state.arm_state.resume_blocker.done = true) :
    vchiq_use_internal_blocked evs state = none := by
  rw [vchiq_use_internal_blocked]; simp [h, hi, hd, try_wait_for_completion]

/-- Resume blocked and suspend state not IDLE, with no event left: no return. -/
theorem blocked_nil {n : Nat} (state : VCHIQ_STATE_T n)
    (h : state.arm_state.resume_blocked ≠ 0)
    (hi : state.arm_state.vc_suspend_state ≠ VC_SUSPEND_IDLE) :
    vchiq_use_internal_blocked [] state = none := by
  rw [vchiq_use_internal_blocked]; simp [h, hi]

/-- One iteration of the loop that sleeps on the resume blocker. -/
theorem blocked_cons {n : Nat} (ev : wait_event n) (rest : List (wait_event n))
    (state : VCHIQ_STATE_T n)
    (h : state.arm_state.resume_blocked ≠ 0)
    (hi : state.arm_state.vc_suspend_state ≠ VC_SUSPEND_IDLE)
    (hd : state.arm_state.resume_blocker.done = false) :
    vchiq_use_internal_blocked (ev :: rest) state =
      (let state := { state with arm_state :=
          { state.arm_state with blocked_count := state.arm_state.blocked_count + 1 } }
        let state := ev.others state
        match wait_for_completion_killable ev.result with
        | none => none
        | some rc =>
          if rc ≠ 0 then
            some (VCHIQ_ERROR,
              { state with arm_state :=
                { state.arm_state with
                  blocked_count := state.arm_state.blocked_count - 1 } }, rest)
          else
            let state := { state with arm_state :=
              { state.arm_state with blocked_count := state.arm_state.blocked_count - 1 } }
            let state :=
              if state.arm_state.blocked_count = 0 then
                { state with arm_state :=
                  { state.arm_state with
                    blocked_blocker := complete_all state.arm_state.blocked_blocker } }
              else state
            vchiq_use_internal_blocked rest state) := by
  rw [vchiq_use_internal_blocked]; simp [h, hi, hd, try_wait_for_completion]

/-- The loop on the resume blocker keeps every property of the use counts and the
timer flag that the other parties keep; it leaves the events that it has not
consumed; and when it ends with an error, one of its sleeps was interrupted. -/
theorem blocked_loop_outcome {n : Nat} (I : VCHIQ_STATE_T n → Prop)
    (hI : ∀ s t, same_use_counts s t → I s → I t)
    (evs : List (wait_event n)) :
    ∀ (state : VCHIQ_STATE_T n) (ret : VCHIQ_STATUS_T) (s' : VCHIQ_STATE_T n)
      (rest : List (wait_event n)),
      (∀ ev ∈ evs, ∀ t, I t → I (ev.others t)) → I state →
      vchiq_use_internal_blocked evs state = some (ret, s', rest) →
      I s' ∧ rest <:+ evs ∧
        (ret = VCHIQ_SUCCESS ∨
          (ret = VCHIQ_ERROR ∧ ∃ ev ∈ evs, ev.result = wait_result.interrupted)) := by
  have key : ∀ {s t : VCHIQ_STATE_T n}, I s → same_use_counts s t → I t :=
    fun hs h => hI _ _ h hs
  induction evs with
  | nil =>
    intro state ret s' rest _ hs h
    by_cases hb : state.arm_state.resume_blocked = 0
    · rw [blocked_not_blocked _ _ hb] at h
      simp only [Option.some.injEq, Prod.mk.injEq] at h
      obtain ⟨rfl, rfl, rfl⟩ := h
      exact ⟨hs, List.suffix_refl _, Or.inl rfl⟩
    · by_cases hi : state.arm_state.vc_suspend_state = VC_SUSPEND_IDLE
      · rw [blocked_idle _ _ hb hi] at h
        simp only [Option.some.injEq, Prod.mk.injEq] at h
        obtain ⟨rfl, rfl, rfl⟩ := h
        exact ⟨hI state _ ⟨rfl, rfl, fun _ => rfl, rfl⟩ hs, List.suffix_refl _, Or.inl rfl⟩
      · rw [blocked_nil _ hb hi] at h
        exact absurd h (by simp)
  | cons ev evs ih =>
    intro state ret s' rest hev hs h
    by_cases hb : state.arm_state.resume_blocked = 0
    · rw [blocked_not_blocked _ _ hb] at h
      simp only [Option.some.injEq, Prod.mk.injEq] at h
      obtain ⟨rfl, rfl, rfl⟩ := h
      exact ⟨hs, List.suffix_refl _, Or.inl rfl⟩
    · by_cases hi : state.arm_state.vc_suspend_state = VC_SUSPEND_IDLE
      · rw [blocked_idle _ _ hb hi] at h
        simp only [Option.some.injEq, Prod.mk.injEq] at h
        obtain ⟨rfl, rfl, rfl⟩ := h
        exact ⟨hI state _ ⟨rfl, rfl, fun _ => rfl, rfl⟩ hs, List.suffix_refl _, Or.inl rfl⟩
      · cases hd : state.arm_state.resume_blocker.done with
        | true =>
          rw [blocked_spin _ _ hb hi hd] at h
          exact absurd h (by simp)
        | false =>
          rw [blocked_cons _ _ _ hb hi hd] at h
          have hs1 : I (ev.others { state with arm_state :=
              { state.arm_state with blocked_count := state.arm_state.blocked_count + 1 } }) :=
            hev ev (List.mem_cons_self _ _) _ (hI state _ ⟨rfl, rfl, fun _ => rfl, rfl⟩ hs)
          cases hr : ev.result with
          | completed =>
            simp only [hr, wait_for_completion_killable, ne_eq, not_true_eq_false,
              ↓reduceIte] at h
            obtain ⟨h1, h2, h3⟩ := ih _ ret s' rest
              (fun e he => hev e (List.mem_cons_of_mem _ he))
              (by split_ifs <;> exact key hs1 ⟨rfl, rfl, fun _ => rfl, rfl⟩) h
            refine ⟨h1, h2.trans (List.suffix_cons _ _), ?_⟩
            rcases h3 with h3 | ⟨h3, e, he, hi⟩
            · exact Or.inl h3
            · exact Or.inr ⟨h3, e, List.mem_cons_of_mem _ he, hi⟩
          | timed_out =>
            simp only [hr, wait_for_completion_killable] at h
            exact absurd h (by simp)
          | interrupted =>
            simp only [hr, wait_for_completion_killable] at h
            simp only [ne_eq, Int.reduceNeg, neg_eq_zero, OfNat.ofNat_ne_zero, not_false_eq_true,
              ↓reduceIte, Option.some.injEq, Prod.mk.injEq] at h
            obtain ⟨rfl, rfl, rfl⟩ := h
            exact ⟨key hs1 ⟨rfl, rfl, fun _ => rfl, rfl⟩, List.suffix_cons _ _,
              Or.inr ⟨rfl, ev, List.mem_cons_self _ _, hr⟩⟩

/-! ### The locked stretch and the end of `vchiq_use_internal` -/

/-- The locked stretch adds one to `videocore_use_count`. -/
theorem locked_videocore_use_count {n : Nat} (P : platform_ops n) (state : VCHIQ_STATE_T n)
    (entity : Option (Fin n)) (use_type : USE_TYPE_E) :
    (vchiq_use_internal_locked P state entity use_type).arm_state.videocore_use_count =
      state.arm_state.videocore_use_count + 1 := by
  obtain ⟨arm, svcs, pr, sent⟩ := state
  cases entity <;>
    simp only [vchiq_use_internal_locked, set_entity_uc, entity_uc, stop_suspend_timer,
      set_suspend_state, set_resume_state, request_poll] <;>
    split_ifs <;> rfl

/-- The locked stretch adds one to the counter of its entity and to no other. -/
theorem locked_entity_uc {n : Nat} (P : platform_ops n) (state : VCHIQ_STATE_T n)
    (entity : Option (Fin n)) (use_type : USE_TYPE_E) (other : Option (Fin n)) :
    entity_uc (vchiq_use_internal_locked P state entity use_type) other =
      if other = entity then entity_uc state entity + 1 else entity_uc state other := by
  obtain ⟨arm, svcs, pr, sent⟩ := state
  cases entity <;> cases other <;>
    simp only [vchiq_use_internal_locked, set_entity_uc, entity_uc, stop_suspend_timer,
      set_suspend_state, set_resume_state, request_poll] <;>
    split_ifs <;> simp_all [Function.update_apply] 

/-- The locked stretch leaves the suspend timer stopped. -/
theorem locked_suspend_timer_running {n : Nat} (P : platform_ops n) (state : VCHIQ_STATE_T n)
    (entity : Option (Fin n)) (use_type : USE_TYPE_E) :
    (vchiq_use_internal_locked P state entity use_type).arm_state.suspend_timer_running = 0 := by
  obtain ⟨arm, svcs, pr, sent⟩ := state
  cases entity <;>
    simp only [vchiq_use_internal_locked, set_entity_uc, entity_uc, stop_suspend_timer,
      set_suspend_state, set_resume_state, request_poll] <;>
    split_ifs <;> simp_all

/-- The use notifications touch neither a use counter nor the timer flag. -/
theorem ack_frame {n : Nat} (P : platform_ops n) (ack_cnt : Nat) :
    ∀ state : VCHIQ_STATE_T n,
      same_use_counts state (vchiq_use_internal_ack P ack_cnt state) := by
  induction ack_cnt with
  | zero => intro state; exact ⟨rfl, rfl, fun _ => rfl, rfl⟩
  | succ k ih =>
    intro state
    rw [vchiq_use_internal_ack]
    split_ifs
    · exact ih _
    · exact ⟨rfl, rfl, fun _ => rfl, rfl⟩

/-- The end of `vchiq_use_internal` keeps every property of the use counts and the
timer flag that the other parties keep, and ends with an error only when its sleep
was interrupted. -/
theorem wait_resume_outcome {n : Nat} (P : platform_ops n) (I : VCHIQ_STATE_T n → Prop)
    (hI : ∀ s t, same_use_counts s t → I s → I t)
    (evs : List (wait_event n)) (state : VCHIQ_STATE_T n) (ret : VCHIQ_STATUS_T)
    (s' : VCHIQ_STATE_T n)
    (hev : ∀ ev ∈ evs, ∀ t, I t → I (ev.others t)) (hs : I state)
    (h : vchiq_use_internal_wait_resume P evs state = some (ret, s')) :
    I s' ∧ (ret = VCHIQ_SUCCESS ∨
      (ret = VCHIQ_ERROR ∧ ∃ ev ∈ evs, ev.result = wait_result.interrupted)) := by
  have key : ∀ {s t : VCHIQ_STATE_T n}, I s → same_use_counts s t → I t :=
    fun hs h => hI _ _ h hs
  have hack : ∀ t : VCHIQ_STATE_T n, I t →
      I (vchiq_use_internal_ack P t.arm_state.ka_use_ack_count
        { t with arm_state := { t.arm_state with ka_use_ack_count := 0 } }) := by
    intro t ht
    exact key (key ht (t := { t with arm_state := { t.arm_state with ka_use_ack_count := 0 } })
      ⟨rfl, rfl, fun _ => rfl, rfl⟩) (ack_frame P _ _)
  unfold vchiq_use_internal_wait_resume at h
  cases hd : state.arm_state.vc_resume_complete.done with
  | true =>
    simp only [try_wait_for_completion, hd, Bool.not_true, Bool.false_eq_true, ↓reduceIte,
      Option.some.injEq, Prod.mk.injEq] at h
    obtain ⟨rfl, rfl⟩ := h
    exact ⟨hack _ hs, Or.inl rfl⟩
  | false =>
    cases evs with
    | nil => simp [try_wait_for_completion, hd] at h
    | cons ev rest =>
      have hs1 : I (ev.others state) := hev ev (List.mem_cons_self _ _) _ hs
      cases hr : ev.result with
      | completed =>
        simp only [try_wait_for_completion, hd, hr, wait_for_completion_killable, Bool.not_false,
          ↓reduceIte, ne_eq, not_true_eq_false, Option.some.injEq, Prod.mk.injEq] at h
        obtain ⟨rfl, rfl⟩ := h
        exact ⟨hack _ hs1, Or.inl rfl⟩
      | timed_out => simp [try_wait_for_completion, hd, hr, wait_for_completion_killable] at h
      | interrupted =>
        simp only [try_wait_for_completion, hd, hr, wait_for_completion_killable, Bool.not_false,
          ↓reduceIte, ne_eq, Int.reduceNeg, neg_eq_zero, OfNat.ofNat_ne_zero,
          not_false_eq_true, Option.some.injEq, Prod.mk.injEq] at h
        obtain ⟨rfl, rfl⟩ := h
        exact ⟨hs1, Or.inr ⟨rfl, ev, List.mem_cons_self _ _, hr⟩⟩

/-- A call of `vchiq_use_internal` keeps every property of the use counts and the
timer flag that its locked stretch and the other parties keep; it returns
`VCHIQ_SUCCESS` or `VCHIQ_ERROR`, the latter only for a null target or after an
interrupted sleep. -/
theorem use_internal_outcome {n : Nat} (P : platform_ops n) (I : VCHIQ_STATE_T n → Prop)
    (hI : ∀ s t, same_use_counts s t → I s → I t)
    (hlocked : ∀ s entity use_type, I s → I (vchiq_use_internal_locked P s entity use_type))
    (evs : List (wait_event n)) (state : VCHIQ_STATE_T n) (service : Option (Fin n))
    (use_type : USE_TYPE_E) (ret : VCHIQ_STATUS_T) (s' : VCHIQ_STATE_T n)
    (hev : ∀ ev ∈ evs, ∀ t, I t → I (ev.others t)) (hs : I state)
    (h : vchiq_use_internal P evs state service use_type = some (ret, s')) :
    I s' ∧ (ret = VCHIQ_SUCCESS ∨ (ret = VCHIQ_ERROR ∧
      ((service = none ∧ use_type ≠ USE_TYPE_VCHIQ) ∨
        ∃ ev ∈ evs, ev.result = wait_result.interrupted))) := by
  unfold vchiq_use_internal at h
  simp only [vchiq_platform_get_arm_state] at h
  cases he : vchiq_use_internal_entity service use_type with
  | none =>
    simp only [he, Option.some.injEq, Prod.mk.injEq] at h
    obtain ⟨rfl, rfl⟩ := h
    refine ⟨hs, Or.inr ⟨rfl, Or.inl ?_⟩⟩
    unfold vchiq_use_internal_entity at he
    split_ifs at he with hu
    cases service with
    | none => exact ⟨rfl, hu⟩
    | some i => simp at he
  | some entity =>
    simp only [he] at h
    cases hb : vchiq_use_internal_blocked evs state with
    | none => simp [hb] at h
    | some r =>
      obtain ⟨bret, bstate, brest⟩ := r
      obtain ⟨hb1, hb2, hb3⟩ := blocked_loop_outcome I hI evs state bret bstate brest hev hs hb
      rcases hb3 with rfl | ⟨rfl, hint⟩
      · simp only [hb] at h
        obtain ⟨h1, h2⟩ := wait_resume_outcome P I hI brest _ ret s'
          (fun e he => hev e (hb2.subset he)) (hlocked _ entity use_type hb1) h
        refine ⟨h1, ?_⟩
        rcases h2 with h2 | ⟨h2, e, he, hi⟩
        · exact Or.inl h2
        · exact Or.inr ⟨h2, Or.inr ⟨e, hb2.subset he, hi⟩⟩
      · simp only [hb, Option.some.injEq, Prod.mk.injEq] at h
        obtain ⟨rfl, rfl⟩ := h
        exact ⟨hb1, Or.inr ⟨rfl, Or.inr hint⟩⟩

/-! ### Use counts -/

/-- States with the same use counts agree on every entity counter. -/
theorem entity_uc_of_same {n : Nat} {s t : VCHIQ_STATE_T n} (h : same_use_counts s t)
    (e : Option (Fin n)) : entity_uc t e = entity_uc s e := by
  cases e with
  | none => exact h.2.1
  | some i => exact h.2.2.1 i

/-- The sum of the service use counts after the write of one entry. -/
theorem sum_service_update {n : Nat} (f : Fin n → VCHIQ_SERVICE_T) (i : Fin n)
    (v : VCHIQ_SERVICE_T) :
    ∑ j : Fin n, (Function.update f i v j).service_use_count =
      ∑ j : Fin n, (f j).service_use_count + (v.service_use_count - (f i).service_use_count) := by
  have h1 : (fun j => (Function.update f i v j).service_use_count) =
      Function.update (fun j => (f j).service_use_count) i v.service_use_count := by
    funext j
    by_cases hj : j = i
    · subst hj; simp
    · simp [Function.update_noteq hj]
  have h2 := Finset.sum_update_of_mem (Finset.mem_univ i)
    (fun j => (f j).service_use_count) v.service_use_count
  have h3 := Finset.sum_eq_add_sum_diff_singleton (Finset.mem_univ i)
    (fun j => (f j).service_use_count)
  simp only [h1]
  rw [h2, h3]
  ring

/-- The balance survives a step that adds `d` to `videocore_use_count` and to
exactly one entity counter. -/
theorem balanced_of_entity_step {n : Nat} (s t : VCHIQ_STATE_T n) (entity : Option (Fin n))
    (d : Int)
    (hvc : t.arm_state.videocore_use_count = s.arm_state.videocore_use_count + d)
    (hent : ∀ other, entity_uc t other =
      if other = entity then entity_uc s entity + d else entity_uc s other)
    (hs : use_counts_balanced s) : use_counts_balanced t := by
  unfold use_counts_balanced at *
  cases entity with
  | none =>
    have hp : t.arm_state.peer_use_count = s.arm_state.peer_use_count + d := by
      simpa [entity_uc] using hent none
    have hsum : ∑ i : Fin n, (t.services i).service_use_count =
        ∑ i : Fin n, (s.services i).service_use_count := by
      refine Finset.sum_congr rfl fun i _ => ?_
      simpa [entity_uc] using hent (some i)
    rw [hvc, hp, hsum, hs]; ring
  | some i =>
    have hp : t.arm_state.peer_use_count = s.arm_state.peer_use_count := by
      simpa [entity_uc] using hent none
    have hsum : ∑ j : Fin n, (t.services j).service_use_count =
        ∑ j : Fin n, (Function.update s.services i
          ⟨(s.services i).service_use_count + d⟩ j).service_use_count := by
      refine Finset.sum_congr rfl fun j _ => ?_
      have := hent (some j)
      by_cases hj : j = i
      · subst hj; simpa [entity_uc] using this
      · simpa [entity_uc, hj, Function.update_noteq hj] using this
    rw [hvc, hp, hsum, sum_service_update, hs]; simp; ring

/-- Such a step keeps the counts non-negative when its two results are. -/
theorem nonneg_of_entity_step {n : Nat} (s t : VCHIQ_STATE_T n) (entity : Option (Fin n))
    (d : Int)
    (hvc : t.arm_state.videocore_use_count = s.arm_state.videocore_use_count + d)
    (hent : ∀ other, entity_uc t other =
      if other = entity then entity_uc s entity + d else entity_uc s other)
    (hd1 : 0 ≤ s.arm_state.videocore_use_count + d) (hd2 : 0 ≤ entity_uc s entity + d)
    (hs : use_counts_nonneg s) : use_counts_nonneg t := by
  obtain ⟨_, h2, h3⟩ := hs
  refine ⟨by rw [hvc]; exact hd1, ?_, fun i => ?_⟩
  · have := hent none
    simp only [entity_uc] at this
    rw [this]; split_ifs with h
    · subst h; exact hd2
    · exact h2
  · have := hent (some i)
    simp only [entity_uc] at this
    rw [this]; split_ifs with h
    · subst h; exact hd2
    · exact h3 i

/-- The function `vchiq_arm_vcsuspend` touches neither a use counter nor the timer flag. -/
theorem vcsuspend_same_counts {n : Nat} (state : VCHIQ_STATE_T n) :
    same_use_counts state (vchiq_arm_vcsuspend state).2 := by
  obtain ⟨arm, svcs, pr, sent⟩ := state
  obtain ⟨a1, ss, rs, a4, a5, a6, a7, a8, a9, a10, a11, a12, a13, a14, a15, a16, a17⟩ := arm
  cases ss <;> exact ⟨rfl, rfl, fun _ => rfl, rfl⟩

/-- The error exit of `vchiq_release_internal`. -/
theorem release_error {n : Nat} (P : platform_ops n) (state : VCHIQ_STATE_T n)
    (service : Option (Fin n))
    (h : state.arm_state.videocore_use_count = 0 ∨ entity_uc state service = 0) :
    vchiq_release_internal P state service = (VCHIQ_ERROR, state) := by
  simp [vchiq_release_internal, vchiq_platform_get_arm_state, h]

/-- The other exit of `vchiq_release_internal`: one off `videocore_use_count` and
off the counter of the target. -/
theorem release_success {n : Nat} (P : platform_ops n) (state : VCHIQ_STATE_T n)
    (service : Option (Fin n))
    (h : ¬(state.arm_state.videocore_use_count = 0 ∨ entity_uc state service = 0)) :
    (vchiq_release_internal P state service).1 = VCHIQ_SUCCESS ∧
    (vchiq_release_internal P state service).2.arm_state.videocore_use_count =
      state.arm_state.videocore_use_count + -1 ∧
    ∀ other, entity_uc (vchiq_release_internal P state service).2 other =
      if other = service then entity_uc state service + -1 else entity_uc state other := by
  have hdec : ∀ other : Option (Fin n),
      entity_uc (set_entity_uc { state with arm_state :=
          { state.arm_state with
            videocore_use_count := state.arm_state.videocore_use_count - 1 } } service
        (entity_uc { state with arm_state :=
          { state.arm_state with
            videocore_use_count := state.arm_state.videocore_use_count - 1 } } service - 1))
        other = if other = service then entity_uc state service + -1
          else entity_uc state other := by
    intro other
    cases service <;> cases other <;>
      simp [set_entity_uc, entity_uc, Function.update_apply, sub_eq_add_neg] 
    split_ifs with h1
    · subst h1; rfl
    · rfl
  unfold vchiq_release_internal
  simp only [vchiq_platform_get_arm_state, h, ↓reduceIte]
  split_ifs
  · refine ⟨rfl, ?_, fun other => ?_⟩
    · cases service <;> simp [set_entity_uc, start_suspend_timer, sub_eq_add_neg]
    · rw [← hdec other]
      cases other <;> rfl
  · have hsame := vcsuspend_same_counts (set_entity_uc { state with arm_state :=
          { state.arm_state with
            videocore_use_count := state.arm_state.videocore_use_count - 1 } } service
        (entity_uc { state with arm_state :=
          { state.arm_state with
            videocore_use_count := state.arm_state.videocore_use_count - 1 } } service - 1))
    refine ⟨rfl, ?_, fun other => ?_⟩
    · rw [hsame.1]; cases service <;> simp [set_entity_uc, sub_eq_add_neg]
    · rw [entity_uc_of_same hsame, hdec other]
  · refine ⟨rfl, ?_, fun other => hdec other⟩
    cases service <;> simp [set_entity_uc, sub_eq_add_neg]

/-- The balance depends on the use counts only. -/
theorem balanced_of_same {n : Nat} (s t : VCHIQ_STATE_T n) (h : same_use_counts s t)
    (hs : use_counts_balanced s) : use_counts_balanced t := by
  refine balanced_of_entity_step s t none 0 (by simpa using h.1) (fun other => ?_) hs
  rw [entity_uc_of_same h]; split_ifs with ho
  · subst ho; simp
  · rfl

/-- Non-negativity depends on the use counts only. -/
theorem nonneg_of_same {n : Nat} (s t : VCHIQ_STATE_T n) (h : same_use_counts s t)
    (hs : use_counts_nonneg s) : use_counts_nonneg t := by
  obtain ⟨h1, h2, h3, _⟩ := h
  exact ⟨h1 ▸ hs.1, h2 ▸ hs.2.1, fun i => (h3 i) ▸ hs.2.2 i⟩

/-- The locked stretch of a use keeps the balance. -/
theorem balanced_locked {n : Nat} (P : platform_ops n) (s : VCHIQ_STATE_T n)
    (entity : Option (Fin n)) (use_type : USE_TYPE_E) (hs : use_counts_balanced s) :
    use_counts_balanced (vchiq_use_internal_locked P s entity use_type) :=
  balanced_of_entity_step s _ entity 1 (locked_videocore_use_count P s entity use_type)
    (locked_entity_uc P s entity use_type) hs

/-- With no negative use count, no entity counter is negative. -/
theorem nonneg_entity_uc {n : Nat} (s : VCHIQ_STATE_T n) (hs : use_counts_nonneg s)
    (e : Option (Fin n)) : 0 ≤ entity_uc s e := by
  cases e with
  | none => exact hs.2.1
  | some i => exact hs.2.2 i

/-- The locked stretch of a use keeps the counts non-negative. -/
theorem nonneg_locked {n : Nat} (P : platform_ops n) (s : VCHIQ_STATE_T n)
    (entity : Option (Fin n)) (use_type : USE_TYPE_E) (hs : use_counts_nonneg s) :
    use_counts_nonneg (vchiq_use_internal_locked P s entity use_type) :=
  nonneg_of_entity_step s _ entity 1 (locked_videocore_use_count P s entity use_type)
    (locked_entity_uc P s entity use_type) (by have := hs.1; omega)
    (by have := nonneg_entity_uc s hs entity; omega) hs

/-- A release keeps the balance. -/
theorem balanced_release {n : Nat} (P : platform_ops n) (s : VCHIQ_STATE_T n)
    (service : Option (Fin n)) (hs : use_counts_balanced s) :
    use_counts_balanced (vchiq_release_internal P s service).2 := by
  by_cases h : s.arm_state.videocore_use_count = 0 ∨ entity_uc s service = 0
  · rw [release_error P s service h]; exact hs
  · obtain ⟨_, h2, h3⟩ := release_success P s service h
    exact balanced_of_entity_step s _ service (-1) h2 h3 hs

/-- A release keeps the counts non-negative. -/
theorem nonneg_release {n : Nat} (P : platform_ops n) (s : VCHIQ_STATE_T n)
    (service : Option (Fin n)) (hs : use_counts_nonneg s) :
    use_counts_nonneg (vchiq_release_internal P s service).2 := by
  by_cases h : s.arm_state.videocore_use_count = 0 ∨ entity_uc s service = 0
  · rw [release_error P s service h]; exact hs
  · obtain ⟨_, h2, h3⟩ := release_success P s service h
    have h1 := hs.1
    have h4 := nonneg_entity_uc s hs service
    exact nonneg_of_entity_step s _ service (-1) h2 h3 (by omega) (by omega) hs

/-- A property of the use counts that the locked stretch of a use, a release and
the other parties keep holds after every sequence of calls. -/
theorem run_calls_invariant {n : Nat} (P : platform_ops n) (I : VCHIQ_STATE_T n → Prop)
    (hI : ∀ s t, same_use_counts s t → I s → I t)
    (hlocked : ∀ s entity use_type, I s → I (vchiq_use_internal_locked P s entity use_type))
    (hrelease : ∀ s service, I s → I (vchiq_release_internal P s service).2)
    (calls : List (use_release_call n)) :
    ∀ s0 s : VCHIQ_STATE_T n, I s0 → (∀ c ∈ calls, call_others_keep I c) →
      run_calls P calls s0 = some s → I s := by
  induction calls with
  | nil =>
    intro s0 s h0 _ hrun
    simp only [run_calls, Option.some.injEq] at hrun
    exact hrun ▸ h0
  | cons c calls ih =>
    intro s0 s h0 hothers hrun
    have htail : ∀ c ∈ calls, call_others_keep I c :=
      fun c hc => hothers c (List.mem_cons_of_mem _ hc)
    cases c with
    | use evs service use_type =>
      have hev : ∀ ev ∈ evs, ∀ t, I t → I (ev.others t) :=
        hothers _ (List.mem_cons_self _ _)
      simp only [run_calls] at hrun
      cases hu : vchiq_use_internal P evs s0 service use_type with
      | none => simp [hu] at hrun
      | some out =>
        simp only [hu] at hrun
        obtain ⟨ret, s1⟩ := out
        exact ih s1 s
          (use_internal_outcome P I hI hlocked evs s0 service use_type ret s1 hev h0 hu).1
          htail hrun
    | release service =>
      simp only [run_calls] at hrun
      exact ih _ s (hrelease s0 service h0) htail hrun

/-- C1: in every state reached from a state with all use counts zero by any
sequence of `vchiq_use_internal` and `vchiq_release_internal` calls on the
services and on the link itself, whatever status each call returned,
`videocore_use_count` is `peer_use_count` plus the sum of `service_use_count`
over all services.  What other parties do while a call sleeps is arbitrary,
provided that it keeps this balance itself. -/
theorem use_counts_balanced_invariant {n : Nat} (P : platform_ops n)
    (calls : List (use_release_call n)) (s0 s : VCHIQ_STATE_T n)
    (h0 : s0.arm_state.videocore_use_count = 0 ∧ s0.arm_state.peer_use_count = 0 ∧
      ∀ i, (s0.services i).service_use_count = 0)
    (hothers : ∀ c ∈ calls, call_others_keep use_counts_balanced c)
    (hrun : run_calls P calls s0 = some s) :
    use_counts_balanced s := by
  refine run_calls_invariant P use_counts_balanced balanced_of_same (balanced_locked P)
    (balanced_release P) calls s0 s ?_ hothers hrun
  obtain ⟨h1, h2, h3⟩ := h0
  simp [use_counts_balanced, h1, h2, h3]

/-- C2: `vchiq_release_internal` called when `videocore_use_count` is 0 or the
use count of its target is 0 returns `VCHIQ_ERROR` and leaves the whole state as
it was; in every other case it returns `VCHIQ_SUCCESS` and takes exactly one off
`videocore_use_count` and off the count of its target, and off no other count.
Hence, from a state with no negative use count, no sequence of use and release
calls reaches a negative use count. -/
theorem release_internal_use_counts {n : Nat} (P : platform_ops n) (state : VCHIQ_STATE_T n)
    (service : Option (Fin n)) :
    ((state.arm_state.videocore_use_count = 0 ∨ entity_uc state service = 0) →
      vchiq_release_internal P state service = (VCHIQ_ERROR, state)) ∧
    (¬(state.arm_state.videocore_use_count = 0 ∨ entity_uc state service = 0) →
      (vchiq_release_internal P state service).1 = VCHIQ_SUCCESS ∧
      (vchiq_release_internal P state service).2.arm_state.videocore_use_count =
        state.arm_state.videocore_use_count - 1 ∧
      entity_uc (vchiq_release_internal P state service).2 service =
        entity_uc state service - 1 ∧
      ∀ other, other ≠ service →
        entity_uc (vchiq_release_internal P state service).2 other = entity_uc state other) ∧
    (use_counts_nonneg state →
      ∀ (calls : List (use_release_call n)) (s' : VCHIQ_STATE_T n),
        (∀ c ∈ calls, call_others_keep use_counts_nonneg c) →
        run_calls P calls state = some s' → use_counts_nonneg s') := by
  refine ⟨release_error P state service, fun h => ?_, fun h calls s' hothers hrun => ?_⟩
  · obtain ⟨h1, h2, h3⟩ := release_success P state service h
    refine ⟨h1, by rw [h2]; ring, by rw [h3]; simp; ring, fun other ho => ?_⟩
    rw [h3]; simp [ho]
  · exact run_calls_invariant P use_counts_nonneg nonneg_of_same (nonneg_locked P)
      (nonneg_release P) calls state s' h hothers hrun

/-- C8: in `vchiq_use_internal`, after the counters are incremented, every suspend
state at or below REQUESTED (FORCE_CANCELED, REJECTED, FAILED, IDLE, REQUESTED)
becomes IDLE with suspend-complete unsignaled again, while IN_PROGRESS and
SUSPENDED are left as they are, with suspend-complete as it was: this is the state
in which the lock is released. -/
theorem use_internal_suspend_rollback {n : Nat} (P : platform_ops n) (state : VCHIQ_STATE_T n)
    (entity : Option (Fin n)) (use_type : USE_TYPE_E) :
    (vchiq_use_internal_locked P state entity use_type).arm_state.vc_suspend_state =
      (match state.arm_state.vc_suspend_state with
        | VC_SUSPEND_IN_PROGRESS => VC_SUSPEND_IN_PROGRESS
        | VC_SUSPEND_SUSPENDED => VC_SUSPEND_SUSPENDED
        | _ => VC_SUSPEND_IDLE) ∧
    (vchiq_use_internal_locked P state entity use_type).arm_state.vc_suspend_complete =
      (match state.arm_state.vc_suspend_state with
        | VC_SUSPEND_IN_PROGRESS => state.arm_state.vc_suspend_complete
        | VC_SUSPEND_SUSPENDED => state.arm_state.vc_suspend_complete
        | _ => ⟨false⟩) := by
  obtain ⟨arm, svcs, pr, sent⟩ := state
  obtain ⟨a1, ss, rs, a4, a5, a6, a7, a8, a9, a10, a11, a12, a13, a14, a15, a16, a17⟩ := arm
  cases entity <;> cases ss <;>
    simp [vchiq_use_internal_locked, set_entity_uc, entity_uc, stop_suspend_timer,
      vc_suspend_status.toInt, set_suspend_state, set_resume_state, request_poll,
      INIT_COMPLETION, apply_ite, set_suspend_state_IDLE]

/-- C3: for every call of `vchiq_use_internal` with a valid target (`use_type`
`USE_TYPE_VCHIQ`, or a service that is not null) made while resume is not blocked:
the call takes the lock in the state of the call and releases it in a state in
which `videocore_use_count` and the counter of its target (`peer_use_count` for
`USE_TYPE_VCHIQ`, else the `service_use_count` of the service) are each one
higher, no other entity's count has changed and `suspend_timer_running` is 0; and
whenever the call returns, with whatever status, the state then has these same
counts and timer flag, if the other parties have left them alone during the
sleep on resume-complete. -/
theorem use_internal_increments {n : Nat} (P : platform_ops n) (evs : List (wait_event n))
    (state : VCHIQ_STATE_T n) (service : Option (Fin n)) (use_type : USE_TYPE_E)
    (htarget : use_type = USE_TYPE_VCHIQ ∨ service ≠ none)
    (hnb : state.arm_state.resume_blocked = 0) :
    vchiq_use_internal P evs state service use_type =
      vchiq_use_internal_wait_resume P evs
        (vchiq_use_internal_locked P state
          (if use_type = USE_TYPE_VCHIQ then none else service) use_type) ∧
    (vchiq_use_internal_locked P state
        (if use_type = USE_TYPE_VCHIQ then none else service)
        use_type).arm_state.videocore_use_count = state.arm_state.videocore_use_count + 1 ∧
    entity_uc (vchiq_use_internal_locked P state
        (if use_type = USE_TYPE_VCHIQ then none else service) use_type)
        (if use_type = USE_TYPE_VCHIQ then none else service) =
      entity_uc state (if use_type = USE_TYPE_VCHIQ then none else service) + 1 ∧
    (∀ other, other ≠ (if use_type = USE_TYPE_VCHIQ then none else service) →
      entity_uc (vchiq_use_internal_locked P state
        (if use_type = USE_TYPE_VCHIQ then none else service) use_type) other =
      entity_uc state other) ∧
    (vchiq_use_internal_locked P state
        (if use_type = USE_TYPE_VCHIQ then none else service)
        use_type).arm_state.suspend_timer_running = 0 ∧
    (∀ ret s', (∀ ev ∈ evs, ∀ t, same_use_counts t (ev.others t)) →
      vchiq_use_internal P evs state service use_type = some (ret, s') →
      same_use_counts (vchiq_use_internal_locked P state
        (if use_type = USE_TYPE_VCHIQ then none else service) use_type) s') := by
  have hent : vchiq_use_internal_entity service use_type =
      some (if use_type = USE_TYPE_VCHIQ then none else service) := by
    unfold vchiq_use_internal_entity
    split_ifs with hu
    · rfl
    · cases service with
      | none => rcases htarget with h | h
                · exact absurd h hu
                · exact absurd rfl h
      | some i => rfl
  have hcall : vchiq_use_internal P evs state service use_type =
      vchiq_use_internal_wait_resume P evs
        (vchiq_use_internal_locked P state
          (if use_type = USE_TYPE_VCHIQ then none else service) use_type) := by
    unfold vchiq_use_internal
    simp only [vchiq_platform_get_arm_state, hent, blocked_not_blocked evs state hnb]
  refine ⟨hcall, locked_videocore_use_count P state _ use_type, ?_, fun other ho => ?_,
    locked_suspend_timer_running P state _ use_type, fun ret s' hothers hret => ?_⟩
  · rw [locked_entity_uc]; simp
  · rw [locked_entity_uc]; simp [ho]
  · rw [hcall] at hret
    refine (wait_resume_outcome P (fun t => same_use_counts (vchiq_use_internal_locked P state
        (if use_type = USE_TYPE_VCHIQ then none else service) use_type) t) ?_ evs _ ret s'
      (fun ev hev t ht => ?_) ⟨rfl, rfl, fun _ => rfl, rfl⟩ hret).1
    · intro s t hst hs
      exact ⟨hst.1.trans hs.1, hst.2.1.trans hs.2.1, fun i => (hst.2.2.1 i).trans (hs.2.2.1 i),
        hst.2.2.2.trans hs.2.2.2⟩
    · have hst := hothers ev hev t
      exact ⟨hst.1.trans ht.1, hst.2.1.trans ht.2.1, fun i => (hst.2.2.1 i).trans (ht.2.2.1 i),
        hst.2.2.2.trans ht.2.2.2⟩

/-- C10: `vchiq_use_internal` called with a null service and a `use_type` other
than `USE_TYPE_VCHIQ` returns `VCHIQ_ERROR` and leaves the whole state as it was;
and whenever a call returns `VCHIQ_ERROR` although none of its sleeps was
interrupted, it was such a call. -/
theorem use_internal_null_service {n : Nat} (P : platform_ops n) (evs : List (wait_event n))
    (state : VCHIQ_STATE_T n) (service : Option (Fin n)) (use_type : USE_TYPE_E) :
    (service = none ∧ use_type ≠ USE_TYPE_VCHIQ →
      vchiq_use_internal P evs state service use_type = some (VCHIQ_ERROR, state)) ∧
    (∀ s', vchiq_use_internal P evs state service use_type = some (VCHIQ_ERROR, s') →
      (∀ ev ∈ evs, ev.result ≠ wait_result.interrupted) →
      service = none ∧ use_type ≠ USE_TYPE_VCHIQ) := by
  constructor
  · rintro ⟨rfl, hu⟩
    simp [vchiq_use_internal, vchiq_platform_get_arm_state, vchiq_use_internal_entity, hu]
  · intro s' h hev
    obtain ⟨_, hret⟩ := use_internal_outcome P (fun _ => True) (fun _ _ _ _ => trivial)
      (fun _ _ _ _ => trivial) evs state service use_type VCHIQ_ERROR s'
      (fun _ _ _ _ => trivial) trivial h
    rcases hret with hret | ⟨_, hnull | ⟨ev, hmem, hint⟩⟩
    · exact absurd hret (by decide)
    · exact hnull
    · exact absurd hint (hev ev hmem)


/-- The wait loop of `vchiq_arm_force_suspend` jumps to `unblock_resume` only with
a status other than `VCHIQ_SUCCESS`. -/
theorem force_suspend_wait_status {n : Nat} (evs : List (wait_event n)) :
    ∀ (rpt : Int) (state : VCHIQ_STATE_T n) (status : VCHIQ_STATUS_T) (s' : VCHIQ_STATE_T n)
      (rest : List (wait_event n)),
      vchiq_arm_force_suspend_wait rpt evs state = some (some status, s', rest) →
      status ≠ VCHIQ_SUCCESS := by
  induction evs with
  | nil => intro rpt state status s' rest h; simp [vchiq_arm_force_suspend_wait] at h
  | cons ev evs ih =>
    intro rpt state status s' rest h
    rw [vchiq_arm_force_suspend_wait] at h
    simp only at h
    split_ifs at h
    · simp only [Option.some.injEq, Prod.mk.injEq] at h
      rw [← h.1]; decide
    · exact ih _ _ _ _ _ h
    · simp only [Option.some.injEq, Prod.mk.injEq] at h
      rw [← h.1]; decide
    · exact ih _ _ _ _ _ h
    · simp at h

/-- With an arm state, `vchiq_arm_vcsuspend` returns `VCHIQ_SUCCESS`. -/
theorem vcsuspend_status {n : Nat} (state : VCHIQ_STATE_T n) :
    (vchiq_arm_vcsuspend state).1 = VCHIQ_SUCCESS := by
  unfold vchiq_arm_vcsuspend
  simp only [vchiq_platform_get_arm_state]
  split <;> rfl

/-- The branches before the wait loop all go on with `VCHIQ_SUCCESS`. -/
theorem force_suspend_start_status {n : Nat} (P : platform_ops n) (state : VCHIQ_STATE_T n) :
    (vchiq_arm_force_suspend_start P state).1 = VCHIQ_SUCCESS := by
  unfold vchiq_arm_force_suspend_start
  split_ifs
  · simp only
    split_ifs <;> first | rfl | exact vcsuspend_status _
  · rfl

/-- When `vchiq_arm_force_suspend` returns `VCHIQ_SUCCESS`, the suspend state is
SUSPENDED. -/
theorem force_suspend_success_suspended {n : Nat} (P : platform_ops n)
    (evs : List (wait_event n)) (state s1 : VCHIQ_STATE_T n)
    (h : vchiq_arm_force_suspend P evs state = some (VCHIQ_SUCCESS, s1)) :
    s1.arm_state.vc_suspend_state = VC_SUSPEND_SUSPENDED := by
  unfold vchiq_arm_force_suspend at h
  simp only [vchiq_platform_get_arm_state] at h
  cases hb : block_resume evs state with
  | none => simp [hb] at h
  | some r =>
    obtain ⟨bst, bs, brest⟩ := r
    cases bst with
    | VCHIQ_ERROR => simp [hb] at h
    | VCHIQ_RETRY => simp [hb] at h
    | VCHIQ_SUCCESS =>
      simp only [hb, force_suspend_start_status, ne_eq, not_true_eq_false, ↓reduceIte] at h
      split_ifs at h with h1
      · simp only [Option.some.injEq, Prod.mk.injEq] at h
        rw [← h.2]; exact h1
      · split at h
        · simp at h
        · next status s2 rest2 hw =>
          simp only [Option.some.injEq, Prod.mk.injEq] at h
          exact absurd h.1 (force_suspend_wait_status _ _ _ _ _ _ hw)
        · next s2 rest2 hw =>
          by_cases h3 : s2.arm_state.vc_suspend_state = VC_SUSPEND_SUSPENDED
          · simp only [h3, ne_eq, not_true_eq_false, ↓reduceIte, Option.some.injEq,
              Prod.mk.injEq, true_and] at h
            rw [← h]; exact h3
          · simp [h3] at h

/-- C4, as stated, fails: in a state with suspend state IDLE, resume state IDLE
and resume not blocked, a use of service 0 releases the lock with the resume
state still IDLE and with no `request_poll` made, and goes on to sleep on the
unsignaled resume-complete. -/
theorem use_internal_idle_idle_no_request :
    state_idle_idle.arm_state.vc_suspend_state = VC_SUSPEND_IDLE ∧
    state_idle_idle.arm_state.vc_resume_state = VC_RESUME_IDLE ∧
    state_idle_idle.arm_state.resume_blocked = 0 ∧
    vchiq_use_internal (platform_wanted 2) [] state_idle_idle (some 0) USE_TYPE_SERVICE =
      vchiq_use_internal_wait_resume (platform_wanted 2) []
        (vchiq_use_internal_locked (platform_wanted 2) state_idle_idle (some 0)
          USE_TYPE_SERVICE) ∧
    (vchiq_use_internal_locked (platform_wanted 2) state_idle_idle (some 0)
      USE_TYPE_SERVICE).arm_state.vc_resume_state = VC_RESUME_IDLE ∧
    (vchiq_use_internal_locked (platform_wanted 2) state_idle_idle (some 0)
      USE_TYPE_SERVICE).arm_state.vc_resume_state ≠ VC_RESUME_REQUESTED ∧
    (vchiq_use_internal_locked (platform_wanted 2) state_idle_idle (some 0)
      USE_TYPE_SERVICE).poll_requests = state_idle_idle.poll_requests ∧
    (vchiq_use_internal_locked (platform_wanted 2) state_idle_idle (some 0)
      USE_TYPE_SERVICE).arm_state.vc_resume_complete.done = false := by
  refine ⟨rfl, rfl, rfl, rfl, rfl, by decide, rfl, rfl⟩

/-- C4, amended: from suspend state IN_PROGRESS or SUSPENDED and resume state
IDLE, with resume not blocked and `videocore_use_count` not negative, a call of
`vchiq_use_internal` with a valid target and a `use_type` other than
`USE_TYPE_SERVICE_NO_RESUME` releases the lock, before it waits on
resume-complete, with the resume state REQUESTED and one more `request_poll`
made. -/
theorem use_internal_requests_resume {n : Nat} (P : platform_ops n)
    (evs : List (wait_event n)) (state : VCHIQ_STATE_T n) (service : Option (Fin n))
    (use_type : USE_TYPE_E)
    (hs : state.arm_state.vc_suspend_state = VC_SUSPEND_IN_PROGRESS ∨
      state.arm_state.vc_suspend_state = VC_SUSPEND_SUSPENDED)
    (hr : state.arm_state.vc_resume_state = VC_RESUME_IDLE)
    (hnb : state.arm_state.resume_blocked = 0)
    (htarget : use_type = USE_TYPE_VCHIQ ∨ service ≠ none)
    (hut : use_type ≠ USE_TYPE_SERVICE_NO_RESUME)
    (hvc : 0 ≤ state.arm_state.videocore_use_count) :
    vchiq_use_internal P evs state service use_type =
      vchiq_use_internal_wait_resume P evs
        (vchiq_use_internal_locked P state
          (if use_type = USE_TYPE_VCHIQ then none else service) use_type) ∧
    (vchiq_use_internal_locked P state
      (if use_type = USE_TYPE_VCHIQ then none else service)
      use_type).arm_state.vc_resume_state = VC_RESUME_REQUESTED ∧
    (vchiq_use_internal_locked P state
      (if use_type = USE_TYPE_VCHIQ then none else service)
      use_type).poll_requests = state.poll_requests + 1 := by
  have hent : vchiq_use_internal_entity service use_type =
      some (if use_type = USE_TYPE_VCHIQ then none else service) := by
    unfold vchiq_use_internal_entity
    split_ifs with hu
    · rfl
    · cases service with
      | none => rcases htarget with h | h
                · exact absurd h hu
                · exact absurd rfl h
      | some i => rfl
  have hcall : vchiq_use_internal P evs state service use_type =
      vchiq_use_internal_wait_resume P evs
        (vchiq_use_internal_locked P state
          (if use_type = USE_TYPE_VCHIQ then none else service) use_type) := by
    unfold vchiq_use_internal
    simp only [vchiq_platform_get_arm_state, hent, blocked_not_blocked evs state hnb]
  refine ⟨hcall, ?_⟩
  generalize (if use_type = USE_TYPE_VCHIQ then none else service) = entity
  obtain ⟨arm, svcs, pr, sent⟩ := state
  obtain ⟨a1, ss, rs, a4, a5, a6, a7, a8, bc, vc, a11, a12, a13, a14, a15, a16, a17⟩ := arm
  simp only at hs hr hnb hvc
  subst hr hnb
  have hvc1 : ¬ (vc + 1 = 0) := by omega
  rcases hs with rfl | rfl <;> cases entity <;>
    simp [vchiq_use_internal_locked, set_entity_uc, entity_uc, stop_suspend_timer,
      vc_suspend_status.toInt, vc_resume_status.toInt, set_suspend_state, set_resume_state,
      request_poll, need_resume, vchiq_videocore_wanted, vchiq_platform_get_arm_state, hut,
      hvc1, apply_ite]

/-- C5, as stated, fails: on a platform that does not ask for the coprocessor,
with all use counts zero, `vchiq_arm_force_suspend` returns `VCHIQ_SUCCESS` once
the remote side has suspended, and the `vchiq_arm_allow_resume` that follows
requests no resume, returns -1 and leaves the suspend state SUSPENDED and the
resume state IDLE. -/
theorem allow_resume_unwanted_stays_suspended :
    vchiq_arm_force_suspend (platform_unwanted 2) [remote_suspends] (state_at_init 2) =
      some (VCHIQ_SUCCESS, state_force_suspended) ∧
    vchiq_arm_allow_resume (platform_unwanted 2) [remote_resumes] state_force_suspended =
      some (-1, state_allowed) ∧
    state_allowed.arm_state.vc_suspend_state = VC_SUSPEND_SUSPENDED ∧
    state_allowed.arm_state.vc_resume_state = VC_RESUME_IDLE ∧
    ¬(state_allowed.arm_state.vc_resume_state = VC_RESUME_RESUMED ∧
      state_allowed.arm_state.vc_suspend_state = VC_SUSPEND_IDLE) := by
  refine ⟨rfl, rfl, rfl, rfl, by decide⟩

/-- The function `vchiq_arm_allow_resume` with `vchiq_check_resume` written out. -/
theorem allow_resume_unfold {n : Nat} (P : platform_ops n) (evs : List (wait_event n))
    (s1 : VCHIQ_STATE_T n) :
    vchiq_arm_allow_resume P evs s1 =
      (let state := { s1 with arm_state := unblock_resume s1.arm_state }
       if need_resume P state = true then
         match evs with
         | [] => none
         | ev :: _ =>
           let state := ev.others (request_poll
             { state with arm_state := set_resume_state state.arm_state VC_RESUME_REQUESTED })
           match wait_for_completion_interruptible ev.result with
           | none => none
           | some rc =>
             if rc < 0 then some (-1, state)
             else if state.arm_state.vc_suspend_state = VC_SUSPEND_SUSPENDED then
               some (-1, state)
             else some (0, state)
       else if state.arm_state.vc_suspend_state = VC_SUSPEND_SUSPENDED then some (-1, state)
       else some (0, state)) := by
  unfold vchiq_arm_allow_resume vchiq_check_resume
  simp only [vchiq_platform_get_arm_state]
  by_cases hn : need_resume P { s1 with arm_state := unblock_resume s1.arm_state } = true
  · simp only [hn, ↓reduceIte]
    cases evs with
    | nil => rfl
    | cons ev rest =>
      simp only
      cases hr : wait_for_completion_interruptible ev.result with
      | none => rfl
      | some rc =>
        simp only
        by_cases hrc : rc < 0
        · simp [hrc]
        · simp [hrc]
  · simp only [hn]
    simp

/-- C5, amended: after a `vchiq_arm_force_suspend` that returned `VCHIQ_SUCCESS`,
an immediately following `vchiq_arm_allow_resume` leaves the resume state RESUMED
and the suspend state IDLE (and returns 0) if, once resume is unblocked, the
coprocessor is wanted and no resume is under way (resume state below REQUESTED),
and the remote side completes the resume that is then requested; if the
coprocessor is not wanted, it requests no resume, returns -1 and leaves the
suspend state SUSPENDED and the resume state as it was. -/
theorem force_suspend_allow_resume {n : Nat} (P : platform_ops n)
    (evs : List (wait_event n)) (state s1 : VCHIQ_STATE_T n) (ev : wait_event n)
    (rest : List (wait_event n))
    (hfs : vchiq_arm_force_suspend P evs state = some (VCHIQ_SUCCESS, s1)) :
    (vchiq_videocore_wanted P { s1 with arm_state := unblock_resume s1.arm_state } ≠ 0 →
      s1.arm_state.vc_resume_state.toInt < VC_RESUME_REQUESTED.toInt →
      ev.result = wait_result.completed →
      (∀ t, (ev.others t).arm_state = set_resume_state t.arm_state VC_RESUME_RESUMED) →
      (vchiq_arm_allow_resume P (ev :: rest) s1).map
          (fun r => (r.1, r.2.arm_state.vc_resume_state, r.2.arm_state.vc_suspend_state)) =
        some (0, VC_RESUME_RESUMED, VC_SUSPEND_IDLE)) ∧
    (vchiq_videocore_wanted P { s1 with arm_state := unblock_resume s1.arm_state } = 0 →
      vchiq_arm_allow_resume P (ev :: rest) s1 =
          some (-1, { s1 with arm_state := unblock_resume s1.arm_state }) ∧
        (unblock_resume s1.arm_state).vc_suspend_state = VC_SUSPEND_SUSPENDED ∧
        (unblock_resume s1.arm_state).vc_resume_state = s1.arm_state.vc_resume_state) := by
  have hsusp := force_suspend_success_suspended P evs state s1 hfs
  constructor
  · intro hw hres hdone hremote
    have h1 : (unblock_resume s1.arm_state).vc_suspend_state = VC_SUSPEND_SUSPENDED := hsusp
    have h2 : (unblock_resume s1.arm_state).vc_resume_state = s1.arm_state.vc_resume_state :=
      rfl
    have hneed : need_resume P { s1 with arm_state := unblock_resume s1.arm_state } = true := by
      simp only [need_resume, vchiq_platform_get_arm_state, h1, h2,
        Bool.and_eq_true, decide_eq_true_eq]
      exact ⟨⟨by decide, hres⟩, hw⟩
    rw [allow_resume_unfold]
    simp only [hneed, ↓reduceIte, hdone, wait_for_completion_interruptible]
    simp [hremote, set_resume_state, set_suspend_state_IDLE]
  · intro hw
    have hneed : need_resume P { s1 with arm_state := unblock_resume s1.arm_state } = false := by
      simp only [need_resume, vchiq_platform_get_arm_state, hw]
      simp
    rw [allow_resume_unfold]
    simp only [hneed]
    refine ⟨?_, hsusp, rfl⟩
    have : (unblock_resume s1.arm_state).vc_suspend_state = VC_SUSPEND_SUSPENDED := hsusp
    simp [this]

/-- C9, the code at the failing input: service 0 is in use and
`vchiq_arm_force_suspend` has blocked resume and sleeps on suspend-complete with
the suspend state IDLE.  A use of service 1 does not wait on the resume blocker
(`blocked_count` is as before) and sets FORCE_CANCELED, but in the same stretch
under the lock the roll-back of line 1294 puts the suspend state back to IDLE and
resets suspend-complete: when the lock is released the suspend state is IDLE and
suspend-complete is unsignaled. -/
theorem use_internal_force_cancel_reset :
    block_resume [] state_in_use = some (VCHIQ_SUCCESS, state_force_waiting, []) ∧
    state_force_waiting.arm_state.resume_blocked = 1 ∧
    state_force_waiting.arm_state.vc_suspend_state = VC_SUSPEND_IDLE ∧
    vchiq_use_internal_blocked [] state_force_waiting =
      some (VCHIQ_SUCCESS,
        { state_force_waiting with
          arm_state :=
            set_suspend_state state_force_waiting.arm_state VC_SUSPEND_FORCE_CANCELED }, []) ∧
    vchiq_use_internal (platform_wanted 2) [] state_force_waiting (some 1) USE_TYPE_SERVICE =
      vchiq_use_internal_wait_resume (platform_wanted 2) []
        (vchiq_use_internal_locked (platform_wanted 2)
          { state_force_waiting with
            arm_state :=
              set_suspend_state state_force_waiting.arm_state VC_SUSPEND_FORCE_CANCELED }
          (some 1) USE_TYPE_SERVICE) ∧
    (vchiq_use_internal_locked (platform_wanted 2)
        { state_force_waiting with
          arm_state :=
            set_suspend_state state_force_waiting.arm_state VC_SUSPEND_FORCE_CANCELED }
        (some 1) USE_TYPE_SERVICE).arm_state.vc_suspend_state = VC_SUSPEND_IDLE ∧
    (vchiq_use_internal_locked (platform_wanted 2)
        { state_force_waiting with
          arm_state :=
            set_suspend_state state_force_waiting.arm_state VC_SUSPEND_FORCE_CANCELED }
        (some 1) USE_TYPE_SERVICE).arm_state.vc_suspend_complete.done = false ∧
    (vchiq_use_internal_locked (platform_wanted 2)
        { state_force_waiting with
          arm_state :=
            set_suspend_state state_force_waiting.arm_state VC_SUSPEND_FORCE_CANCELED }
        (some 1) USE_TYPE_SERVICE).arm_state.blocked_count =
      state_force_waiting.arm_state.blocked_count := by
  refine ⟨rfl, rfl, rfl, rfl, rfl, rfl, rfl, rfl⟩

/-- C1 at a concrete input: the four calls of `calls_with_sleep` on a suspended
link, the first of which sleeps until the remote side has resumed. -/
theorem use_counts_balanced_invariant_witness :
    run_calls (platform_wanted 2) calls_with_sleep state_suspended = some state_after_sleep ∧
    state_after_sleep.arm_state.vc_resume_state = VC_RESUME_RESUMED ∧
    use_counts_balanced state_after_sleep :=
  ⟨rfl, rfl, use_counts_balanced_invariant (platform_wanted 2) calls_with_sleep
    state_suspended state_after_sleep ⟨rfl, rfl, fun _ => rfl⟩
    (by
      intro c hc
      simp only [calls_with_sleep, List.mem_cons, List.mem_singleton, List.not_mem_nil,
        or_false] at hc
      rcases hc with rfl | rfl | rfl | rfl
      · intro ev hev t ht
        simp only [List.mem_singleton] at hev
        subst hev
        exact balanced_of_same t _ ⟨rfl, rfl, fun _ => rfl, rfl⟩ ht
      · intro ev hev; simp at hev
      · trivial
      · trivial) rfl⟩

/-- C2 at concrete inputs: a release in the initial state (error), a release of
the service in use in `state_in_use` (success), and the calls of `calls_example`. -/
theorem release_internal_use_counts_witness :
    vchiq_release_internal (platform_wanted 2) (state_at_init 2) (some 0) =
      (VCHIQ_ERROR, state_at_init 2) ∧
    ((vchiq_release_internal (platform_wanted 2) state_in_use (some 0)).1 = VCHIQ_SUCCESS ∧
      (vchiq_release_internal (platform_wanted 2) state_in_use
        (some 0)).2.arm_state.videocore_use_count =
        state_in_use.arm_state.videocore_use_count - 1 ∧
      entity_uc (vchiq_release_internal (platform_wanted 2) state_in_use (some 0)).2 (some 0) =
        entity_uc state_in_use (some 0) - 1 ∧
      ∀ other, other ≠ some 0 →
        entity_uc (vchiq_release_internal (platform_wanted 2) state_in_use (some 0)).2 other =
          entity_uc state_in_use other) ∧
    use_counts_nonneg state_after_calls :=
  ⟨(release_internal_use_counts (platform_wanted 2) (state_at_init 2) (some 0)).1
      (Or.inl rfl),
    (release_internal_use_counts (platform_wanted 2) state_in_use (some 0)).2.1 (by decide),
    (release_internal_use_counts (platform_wanted 2) (state_at_init 2) none).2.2
      ⟨by decide, by decide, fun _ => Int.le_refl 0⟩ calls_example state_after_calls
      (by simp [calls_example, call_others_keep]) rfl⟩

/-- C3 at a concrete input: a use of service 0 in the initial state. -/
theorem use_internal_increments_witness :
    (state_at_init 2).arm_state.resume_blocked = 0 ∧
    (vchiq_use_internal_locked (platform_wanted 2) (state_at_init 2) (some 0)
      USE_TYPE_SERVICE).arm_state.videocore_use_count = 1 ∧
    entity_uc (vchiq_use_internal_locked (platform_wanted 2) (state_at_init 2) (some 0)
      USE_TYPE_SERVICE) (some 0) = 1 ∧
    (vchiq_use_internal_locked (platform_wanted 2) (state_at_init 2) (some 0)
      USE_TYPE_SERVICE).arm_state.suspend_timer_running = 0 :=
  have h := use_internal_increments (platform_wanted 2) [] (state_at_init 2) (some 0)
    USE_TYPE_SERVICE (Or.inr (by simp)) rfl
  ⟨rfl, h.2.1, h.2.2.1, h.2.2.2.2.1⟩

/-- C10 at a concrete input: a use with a null service in the initial state. -/
theorem use_internal_null_service_witness :
    vchiq_use_internal (platform_wanted 2) [] (state_at_init 2) none USE_TYPE_SERVICE =
      some (VCHIQ_ERROR, state_at_init 2) ∧
    ((none : Option (Fin 2)) = none ∧ USE_TYPE_SERVICE ≠ USE_TYPE_VCHIQ) :=
  have h := use_internal_null_service (platform_wanted 2) [] (state_at_init 2) none
    USE_TYPE_SERVICE
  ⟨h.1 ⟨rfl, by decide⟩, h.2 (state_at_init 2) (h.1 ⟨rfl, by decide⟩) (by simp)⟩

/-- C4, amended, at a concrete input: a use of the link while it is suspended. -/
theorem use_internal_requests_resume_witness :
    state_suspended.arm_state.vc_suspend_state = VC_SUSPEND_SUSPENDED ∧
    state_suspended.arm_state.vc_resume_state = VC_RESUME_IDLE ∧
    (vchiq_use_internal_locked (platform_wanted 2) state_suspended none
      USE_TYPE_VCHIQ).arm_state.vc_resume_state = VC_RESUME_REQUESTED ∧
    (vchiq_use_internal_locked (platform_wanted 2) state_suspended none
      USE_TYPE_VCHIQ).poll_requests = state_suspended.poll_requests + 1 :=
  have h := use_internal_requests_resume (platform_wanted 2) [] state_suspended none
    USE_TYPE_VCHIQ (Or.inr rfl) rfl rfl (Or.inl rfl) (by decide) (by decide)
  ⟨rfl, rfl, h.2.1, h.2.2⟩

/-- C5, amended, at concrete inputs: the round trip from the initial state on a
platform that wants the coprocessor, and on one that does not. -/
theorem force_suspend_allow_resume_witness :
    vchiq_arm_force_suspend (platform_wanted 2) [remote_suspends] (state_at_init 2) =
      some (VCHIQ_SUCCESS, state_force_suspended) ∧
    (vchiq_arm_allow_resume (platform_wanted 2) [remote_resumes] state_force_suspended).map
        (fun r => (r.1, r.2.arm_state.vc_resume_state, r.2.arm_state.vc_suspend_state)) =
      some (0, VC_RESUME_RESUMED, VC_SUSPEND_IDLE) ∧
    vchiq_arm_allow_resume (platform_unwanted 2) [remote_resumes] state_force_suspended =
      some (-1, { state_force_suspended with
        arm_state := unblock_resume state_force_suspended.arm_state }) :=
  ⟨rfl,
    (force_suspend_allow_resume (platform_wanted 2) [remote_suspends] (state_at_init 2)
      state_force_suspended remote_resumes [] rfl).1 (by decide) (by decide) rfl
      (fun _ => rfl),
    ((force_suspend_allow_resume (platform_unwanted 2) [remote_suspends] (state_at_init 2)
      state_force_suspended remote_resumes [] rfl).2 (by decide)).1⟩

/-! ### Release: timer or immediate suspend -/

/-- The function `vchiq_release_internal` past its test of the counters, in terms
of the state after the two decrements. -/
theorem release_internal_unfold {n : Nat} (P : platform_ops n) (state : VCHIQ_STATE_T n)
    (service : Option (Fin n))
    (h : ¬(state.arm_state.videocore_use_count = 0 ∨ entity_uc state service = 0)) :
    vchiq_release_internal P state service =
      if vchiq_videocore_wanted P (vchiq_release_internal_counts state service) = 0 then
        if P.vchiq_platform_use_suspend_timer ≠ 0 ∧
            (vchiq_release_internal_counts state service).arm_state.resume_blocked = 0 then
          (VCHIQ_SUCCESS, { (vchiq_release_internal_counts state service) with
            arm_state :=
              start_suspend_timer (vchiq_release_internal_counts state service).arm_state })
        else (VCHIQ_SUCCESS, (vchiq_arm_vcsuspend (vchiq_release_internal_counts state service)).2)
      else (VCHIQ_SUCCESS, vchiq_release_internal_counts state service) := by
  unfold vchiq_release_internal vchiq_release_internal_counts
  simp only [vchiq_platform_get_arm_state, h, ↓reduceIte]

/-- The decrements of `vchiq_release_internal` write the use counters only. -/
theorem release_internal_counts_frame {n : Nat} (state : VCHIQ_STATE_T n)
    (service : Option (Fin n)) :
    (vchiq_release_internal_counts state service).arm_state.resume_blocked =
      state.arm_state.resume_blocked ∧
    (vchiq_release_internal_counts state service).arm_state.vc_suspend_state =
      state.arm_state.vc_suspend_state ∧
    (vchiq_release_internal_counts state service).arm_state.suspend_timer_running =
      state.arm_state.suspend_timer_running ∧
    (vchiq_release_internal_counts state service).arm_state.suspend_timer =
      state.arm_state.suspend_timer ∧
    (vchiq_release_internal_counts state service).poll_requests = state.poll_requests := by
  cases service <;> exact ⟨rfl, rfl, rfl, rfl, rfl⟩

/-- What `vchiq_arm_vcsuspend` does to the suspend state, the poll requests and the
suspend timer. -/
theorem vcsuspend_effect {n : Nat} (state : VCHIQ_STATE_T n) :
    (vchiq_arm_vcsuspend state).2.arm_state.vc_suspend_state =
      (if state.arm_state.vc_suspend_state = VC_SUSPEND_IN_PROGRESS then VC_SUSPEND_IN_PROGRESS
       else VC_SUSPEND_REQUESTED) ∧
    (vchiq_arm_vcsuspend state).2.poll_requests =
      (if state.arm_state.vc_suspend_state = VC_SUSPEND_IN_PROGRESS ∨
          state.arm_state.vc_suspend_state = VC_SUSPEND_REQUESTED then state.poll_requests
       else state.poll_requests + 1) ∧
    (vchiq_arm_vcsuspend state).2.arm_state.suspend_timer_running =
      state.arm_state.suspend_timer_running ∧
    (vchiq_arm_vcsuspend state).2.arm_state.suspend_timer = state.arm_state.suspend_timer := by
  obtain ⟨arm, svcs, pr, sent⟩ := state
  obtain ⟨a1, ss, rs, a4, a5, a6, a7, a8, a9, a10, a11, a12, a13, a14, a15, a16, a17⟩ := arm
  cases ss <;> exact ⟨rfl, rfl, rfl, rfl⟩

/-- C11: after a successful `vchiq_release_internal` (both counters were not zero;
the call then returns `VCHIQ_SUCCESS`), with "wanted" the value of
`vchiq_videocore_wanted` after the two decrements: if the coprocessor is not
wanted, the platform uses the suspend timer and resume is not blocked, the
suspend timer is armed (`suspend_timer_running` = 1) and the suspend state and
the poll requests are unchanged; if it is not wanted and the platform has no
suspend timer or resume is blocked, the timer is not armed by the call (the
timer and `suspend_timer_running` are as before) and the suspend state is
REQUESTED, or IN_PROGRESS if it was so already, with one `request_poll` made
unless it was REQUESTED or IN_PROGRESS already; if the coprocessor is still
wanted, the call changes the two counters only. -/
theorem release_internal_suspend_choice {n : Nat} (P : platform_ops n)
    (state : VCHIQ_STATE_T n) (service : Option (Fin n))
    (h : ¬(state.arm_state.videocore_use_count = 0 ∨ entity_uc state service = 0)) :
    (vchiq_release_internal P state service).1 = VCHIQ_SUCCESS ∧
    (vchiq_videocore_wanted P (vchiq_release_internal_counts state service) = 0 →
      P.vchiq_platform_use_suspend_timer ≠ 0 → state.arm_state.resume_blocked = 0 →
      (vchiq_release_internal P state service).2.arm_state.suspend_timer_running = 1 ∧
      (vchiq_release_internal P state service).2.arm_state.suspend_timer = add_timer (del_timer state.arm_state.suspend_timer) ∧
      (vchiq_release_internal P state service).2.arm_state.vc_suspend_state =
        state.arm_state.vc_suspend_state ∧
      (vchiq_release_internal P state service).2.poll_requests = state.poll_requests) ∧
    (vchiq_videocore_wanted P (vchiq_release_internal_counts state service) = 0 →
      ¬(P.vchiq_platform_use_suspend_timer ≠ 0 ∧ state.arm_state.resume_blocked = 0) →
      (vchiq_release_internal P state service).2.arm_state.suspend_timer_running =
        state.arm_state.suspend_timer_running ∧
      (vchiq_release_internal P state service).2.arm_state.suspend_timer =
        state.arm_state.suspend_timer ∧
      (vchiq_release_internal P state service).2.arm_state.vc_suspend_state =
        (if state.arm_state.vc_suspend_state = VC_SUSPEND_IN_PROGRESS then
          VC_SUSPEND_IN_PROGRESS
         else VC_SUSPEND_REQUESTED) ∧
      (vchiq_release_internal P state service).2.poll_requests =
        (if state.arm_state.vc_suspend_state = VC_SUSPEND_IN_PROGRESS ∨
            state.arm_state.vc_suspend_state = VC_SUSPEND_REQUESTED then state.poll_requests
         else state.poll_requests + 1)) ∧
    (vchiq_videocore_wanted P (vchiq_release_internal_counts state service) ≠ 0 →
      (vchiq_release_internal P state service).2 =
        vchiq_release_internal_counts state service ∧
      (vchiq_release_internal P state service).2.arm_state.suspend_timer_running =
        state.arm_state.suspend_timer_running ∧
      (vchiq_release_internal P state service).2.arm_state.suspend_timer =
        state.arm_state.suspend_timer ∧
      (vchiq_release_internal P state service).2.arm_state.vc_suspend_state =
        state.arm_state.vc_suspend_state ∧
      (vchiq_release_internal P state service).2.poll_requests = state.poll_requests) := by
  obtain ⟨hrb, hss, htr, ht, hpr⟩ := release_internal_counts_frame state service
  have hun := release_internal_unfold P state service h
  refine ⟨(release_success P state service h).1, fun hw hp hb => ?_, fun hw hnot => ?_,
    fun hw => ?_⟩
  · rw [hun]
    simp only [hw, hp, hrb, hb, ↓reduceIte, ne_eq, not_false_eq_true, and_self]
    refine ⟨rfl, ?_, ?_, hpr⟩
    · rw [← ht]; rfl
    · rw [← hss]; rfl
  · rw [hun]
    simp only [hw, hrb, hnot, ↓reduceIte]
    obtain ⟨e1, e2, e3, e4⟩ :=
      vcsuspend_effect (vchiq_release_internal_counts state service)
    rw [e1, e2, e3, e4, hss, htr, ht, hpr]
    exact ⟨rfl, rfl, rfl, rfl⟩
  · rw [hun]
    rw [if_neg hw]
    exact ⟨rfl, htr, ht, hss, hpr⟩

/-- C11 at a release of service 0 in `state_in_use` on a platform with a suspend
timer that does not ask for the coprocessor: the timer is armed. -/
theorem release_internal_suspend_choice_witness :
    ¬((state_in_use).arm_state.videocore_use_count = 0 ∨
      entity_uc state_in_use (some 0) = 0) ∧
    (vchiq_release_internal (platform_unwanted 2) state_in_use (some 0)).1 = VCHIQ_SUCCESS ∧
    (vchiq_release_internal (platform_unwanted 2) state_in_use
      (some 0)).2.arm_state.suspend_timer_running = 1 ∧
    (vchiq_release_internal (platform_unwanted 2) state_in_use
      (some 0)).2.arm_state.vc_suspend_state = state_in_use.arm_state.vc_suspend_state :=
  have h := release_internal_suspend_choice (platform_unwanted 2) state_in_use (some 0)
    (by decide)
  ⟨by decide, h.1, (h.2.1 rfl (by decide) rfl).1, (h.2.1 rfl (by decide) rfl).2.2.1⟩

/-! ### Force suspend: blocking of resume, failures and timeouts -/

/-- The loop of `block_resume` on a resume in flight keeps what the other parties
keep, leaves the events that it has not consumed, and ends with `VCHIQ_SUCCESS` or
`VCHIQ_ERROR`. -/
theorem block_resume_wait_resume_outcome {n : Nat} (I : VCHIQ_STATE_T n → Prop)
    (evs : List (wait_event n)) :
    ∀ (resume_count : Int) (state : VCHIQ_STATE_T n) (status : VCHIQ_STATUS_T)
      (s' : VCHIQ_STATE_T n) (rest : List (wait_event n)),
      (∀ ev ∈ evs, ∀ t, I t → I (ev.others t)) → I state →
      block_resume_wait_resume resume_count evs state = some (status, s', rest) →
      I s' ∧ rest <:+ evs ∧ (status = VCHIQ_SUCCESS ∨ status = VCHIQ_ERROR) := by
  induction evs with
  | nil =>
    intro rc state status s' rest _ hs h
    rw [block_resume_wait_resume] at h
    split_ifs at h <;> simp only [Option.some.injEq, Prod.mk.injEq, reduceCtorEq] at h
    · obtain ⟨rfl, rfl, rfl⟩ := h
      exact ⟨hs, List.suffix_refl _, Or.inr rfl⟩
    · obtain ⟨rfl, rfl, rfl⟩ := h
      exact ⟨hs, List.suffix_refl _, Or.inl rfl⟩
  | cons ev evs ih =>
    intro rc state status s' rest hev hs h
    rw [block_resume_wait_resume] at h
    have hs1 : I (ev.others state) := hev ev (List.mem_cons_self _ _) _ hs
    split_ifs at h
    · simp only [Option.some.injEq, Prod.mk.injEq] at h
      obtain ⟨rfl, rfl, rfl⟩ := h
      exact ⟨hs, List.suffix_refl _, Or.inr rfl⟩
    · simp only [Option.some.injEq, Prod.mk.injEq] at h
      obtain ⟨rfl, rfl, rfl⟩ := h
      exact ⟨hs1, List.suffix_cons _ _, Or.inr rfl⟩
    · obtain ⟨h1, h2, h3⟩ := ih _ _ _ _ _ (fun e he => hev e (List.mem_cons_of_mem _ he)) hs1 h
      exact ⟨h1, h2.trans (List.suffix_cons _ _), h3⟩
    · simp only [Option.some.injEq, Prod.mk.injEq] at h
      obtain ⟨rfl, rfl, rfl⟩ := h
      exact ⟨hs, List.suffix_refl _, Or.inl rfl⟩

/-- The function `block_resume` written by cases. -/
theorem block_resume_unfold {n : Nat} (evs : List (wait_event n)) (state : VCHIQ_STATE_T n) :
    block_resume evs state =
      if state.arm_state.blocked_count ≠ 0 then
        match evs with
        | [] => none
        | ev :: rest =>
          if wait_for_completion_interruptible_timeout ev.result ≤ 0 then
            some (VCHIQ_ERROR, ev.others { state with arm_state :=
              { state.arm_state with
                blocked_blocker := INIT_COMPLETION state.arm_state.blocked_blocker } }, rest)
          else
            match block_resume_wait_resume 0 rest (ev.others { state with arm_state :=
              { state.arm_state with
                blocked_blocker := INIT_COMPLETION state.arm_state.blocked_blocker } }) with
            | none => none
            | some (VCHIQ_SUCCESS, state, evs) =>
              some (VCHIQ_SUCCESS, { state with arm_state :=
                { state.arm_state with
                  resume_blocker := INIT_COMPLETION state.arm_state.resume_blocker,
                  resume_blocked := 1 } }, evs)
            | some out => some out
      else
        match block_resume_wait_resume 0 evs state with
        | none => none
        | some (VCHIQ_SUCCESS, state, evs) =>
          some (VCHIQ_SUCCESS, { state with arm_state :=
            { state.arm_state with
              resume_blocker := INIT_COMPLETION state.arm_state.resume_blocker,
              resume_blocked := 1 } }, evs)
        | some out => some out := by
  unfold block_resume
  by_cases hb : state.arm_state.blocked_count = 0
  · simp only [hb, ne_eq, not_true_eq_false, ↓reduceIte]
  · simp only [ne_eq, hb, not_false_eq_true, ↓reduceIte]
    cases evs with
    | nil => rfl
    | cons ev rest =>
      simp only
      split_ifs <;> rfl

/-- The function `block_resume` leaves the events that it has not consumed.  When
it succeeds, resume is blocked in a state that differs only by this from one that
has every property that the other parties and the reset of `blocked_blocker`
keep; when it fails, its status is `VCHIQ_ERROR` and the state has every such
property: resume has not been blocked by the call. -/
theorem block_resume_outcome {n : Nat} (I : VCHIQ_STATE_T n → Prop)
    (hreset : ∀ s : VCHIQ_STATE_T n, I s → I { s with arm_state :=
      { s.arm_state with blocked_blocker := INIT_COMPLETION s.arm_state.blocked_blocker } })
    (evs : List (wait_event n)) (state : VCHIQ_STATE_T n) (status : VCHIQ_STATUS_T)
    (s' : VCHIQ_STATE_T n) (rest : List (wait_event n))
    (hev : ∀ ev ∈ evs, ∀ t, I t → I (ev.others t)) (hs : I state)
    (h : block_resume evs state = some (status, s', rest)) :
    rest <:+ evs ∧
    ((status = VCHIQ_SUCCESS ∧ ∃ bs, I bs ∧ s' = { bs with arm_state :=
        { bs.arm_state with
          resume_blocker := INIT_COMPLETION bs.arm_state.resume_blocker,
          resume_blocked := 1 } }) ∨
      (status = VCHIQ_ERROR ∧ I s')) := by
  have tail : ∀ (evs1 : List (wait_event n)) (st : VCHIQ_STATE_T n),
      evs1 <:+ evs → I st →
      (match block_resume_wait_resume 0 evs1 st with
        | none => none
        | some (VCHIQ_SUCCESS, state, evs) =>
          some (VCHIQ_SUCCESS, { state with arm_state :=
            { state.arm_state with
              resume_blocker := INIT_COMPLETION state.arm_state.resume_blocker,
              resume_blocked := 1 } }, evs)
        | some out => some out) = some (status, s', rest) →
      rest <:+ evs ∧
      ((status = VCHIQ_SUCCESS ∧ ∃ bs, I bs ∧ s' = { bs with arm_state :=
          { bs.arm_state with
            resume_blocker := INIT_COMPLETION bs.arm_state.resume_blocker,
            resume_blocked := 1 } }) ∨
        (status = VCHIQ_ERROR ∧ I s')) := by
    intro evs1 st hsuf hst hm
    cases hw : block_resume_wait_resume 0 evs1 st with
    | none => simp [hw] at hm
    | some r =>
      obtain ⟨wst, ws, wrest⟩ := r
      obtain ⟨h1, h2, h3⟩ := block_resume_wait_resume_outcome I evs1 0 st wst ws wrest
        (fun e he => hev e (hsuf.subset he)) hst hw
      rcases h3 with rfl | rfl
      · simp only [hw, Option.some.injEq, Prod.mk.injEq] at hm
        obtain ⟨rfl, rfl, rfl⟩ := hm
        exact ⟨h2.trans hsuf, Or.inl ⟨rfl, ws, h1, rfl⟩⟩
      · simp only [hw, Option.some.injEq, Prod.mk.injEq] at hm
        obtain ⟨rfl, rfl, rfl⟩ := hm
        exact ⟨h2.trans hsuf, Or.inr ⟨rfl, h1⟩⟩
  rw [block_resume_unfold] at h
  split_ifs at h with hb
  · cases evs with
    | nil => simp at h
    | cons ev evs1 =>
      have hs1 := hev ev (List.mem_cons_self _ _) _ (hreset state hs)
      simp only at h
      split_ifs at h with hw
      · simp only [Option.some.injEq, Prod.mk.injEq] at h
        obtain ⟨rfl, rfl, rfl⟩ := h
        exact ⟨List.suffix_cons _ _, Or.inr ⟨rfl, hs1⟩⟩
      · exact tail evs1 _ (List.suffix_cons _ _) hs1 h
  · exact tail evs state (List.suffix_refl _) hs h

/-- The function `vchiq_arm_force_suspend` after a `block_resume` that succeeded. -/
theorem force_suspend_after_block {n : Nat} (P : platform_ops n) (evs : List (wait_event n))
    (state bs : VCHIQ_STATE_T n) (rest : List (wait_event n))
    (hb : block_resume evs state = some (VCHIQ_SUCCESS, bs, rest)) :
    vchiq_arm_force_suspend P evs state =
      if bs.arm_state.vc_suspend_state = VC_SUSPEND_SUSPENDED then some (VCHIQ_SUCCESS, bs)
      else
        match vchiq_arm_force_suspend_wait (-1) rest (vchiq_arm_force_suspend_start P bs).2 with
        | none => none
        | some (some status, s, _) =>
          some (status, { s with arm_state := unblock_resume s.arm_state })
        | some (none, s, _) =>
          if s.arm_state.vc_suspend_state ≠ VC_SUSPEND_SUSPENDED then
            some (VCHIQ_RETRY,
              { (if s.arm_state.vc_suspend_state.toInt < VC_SUSPEND_IDLE.toInt then
                  { s with arm_state := set_suspend_state s.arm_state VC_SUSPEND_IDLE }
                else s) with
                arm_state := unblock_resume
                  (if s.arm_state.vc_suspend_state.toInt < VC_SUSPEND_IDLE.toInt then
                    { s with arm_state := set_suspend_state s.arm_state VC_SUSPEND_IDLE }
                  else s).arm_state })
          else some (VCHIQ_SUCCESS, s) := by
  unfold vchiq_arm_force_suspend
  simp only [vchiq_platform_get_arm_state, hb, force_suspend_start_status, ne_eq,
    not_true_eq_false, ↓reduceIte]

/-- The function `vchiq_arm_force_suspend` after a `block_resume` that failed: the
`goto unlock` of line 983. -/
theorem force_suspend_block_failed {n : Nat} (P : platform_ops n) (evs : List (wait_event n))
    (state bs : VCHIQ_STATE_T n) (rest : List (wait_event n)) (status : VCHIQ_STATUS_T)
    (hb : block_resume evs state = some (status, bs, rest)) (hne : status ≠ VCHIQ_SUCCESS) :
    vchiq_arm_force_suspend P evs state = some (status, bs) := by
  unfold vchiq_arm_force_suspend
  cases status with
  | VCHIQ_SUCCESS => exact absurd rfl hne
  | VCHIQ_ERROR => simp only [vchiq_platform_get_arm_state, hb]
  | VCHIQ_RETRY => simp only [vchiq_platform_get_arm_state, hb]

/-- The wait loop of `vchiq_arm_force_suspend` keeps what the other parties and the
increment of `autosuspend_override` keep; it ends an iteration with
`VCHIQ_ERROR` only after an interrupted sleep. -/
theorem force_suspend_wait_outcome {n : Nat} (I : VCHIQ_STATE_T n → Prop)
    (hover : ∀ s : VCHIQ_STATE_T n, I s → I { s with arm_state :=
      { s.arm_state with autosuspend_override := s.arm_state.autosuspend_override + 1 } })
    (evs : List (wait_event n)) :
    ∀ (rpt : Int) (state : VCHIQ_STATE_T n) (r : Option VCHIQ_STATUS_T)
      (s' : VCHIQ_STATE_T n) (rest : List (wait_event n)),
      (∀ ev ∈ evs, ∀ t, I t → I (ev.others t)) → I state →
      vchiq_arm_force_suspend_wait rpt evs state = some (r, s', rest) →
      I s' ∧ (r = none ∨ r = some VCHIQ_RETRY ∨
        (r = some VCHIQ_ERROR ∧ ∃ ev ∈ evs, ev.result = wait_result.interrupted)) := by
  induction evs with
  | nil => intro rpt state r s' rest _ _ h; simp [vchiq_arm_force_suspend_wait] at h
  | cons ev evs ih =>
    intro rpt state r s' rest hev hs h
    have hs1 : I (ev.others state) := hev ev (List.mem_cons_self _ _) _ hs
    have hev' : ∀ e ∈ evs, ∀ t, I t → I (e.others t) :=
      fun e he => hev e (List.mem_cons_of_mem _ he)
    have lift : ∀ {r : Option VCHIQ_STATUS_T}, (r = none ∨ r = some VCHIQ_RETRY ∨
        (r = some VCHIQ_ERROR ∧ ∃ e ∈ evs, e.result = wait_result.interrupted)) →
        (r = none ∨ r = some VCHIQ_RETRY ∨
        (r = some VCHIQ_ERROR ∧ ∃ e ∈ ev :: evs, e.result = wait_result.interrupted)) := by
      rintro r (h | h | ⟨h, e, he, hi⟩)
      · exact Or.inl h
      · exact Or.inr (Or.inl h)
      · exact Or.inr (Or.inr ⟨h, e, List.mem_cons_of_mem _ he, hi⟩)
    rw [vchiq_arm_force_suspend_wait] at h
    simp only at h
    cases hr : ev.result with
    | completed =>
      simp only [hr, wait_for_completion_interruptible_timeout] at h
      norm_num at h
      split_ifs at h
      · obtain ⟨h1, h2⟩ := ih _ _ _ _ _ hev' hs1 h
        exact ⟨h1, lift h2⟩
      · simp only [Option.some.injEq, Prod.mk.injEq] at h
        obtain ⟨rfl, rfl, rfl⟩ := h
        exact ⟨hs1, Or.inl rfl⟩
    | timed_out =>
      simp only [hr, wait_for_completion_interruptible_timeout] at h
      norm_num at h
      split_ifs at h
      · obtain ⟨h1, h2⟩ := ih _ _ _ _ _ hev' hs1 h
        exact ⟨h1, lift h2⟩
      · simp only [Option.some.injEq, Prod.mk.injEq] at h
        obtain ⟨rfl, rfl, rfl⟩ := h
        exact ⟨hover _ hs1, Or.inr (Or.inl rfl)⟩
    | interrupted =>
      simp only [hr, wait_for_completion_interruptible_timeout] at h
      norm_num at h
      obtain ⟨rfl, rfl, rfl⟩ := h
      exact ⟨hs1, Or.inr (Or.inr ⟨rfl, ev, List.mem_cons_self _ _, hr⟩)⟩

/-- The function `vchiq_arm_vcsuspend` writes the suspend state and suspend-complete
only, besides its `request_poll`. -/
theorem vcsuspend_arm {n : Nat} (state : VCHIQ_STATE_T n) :
    ∃ ss sc, (vchiq_arm_vcsuspend state).2.arm_state =
      { state.arm_state with vc_suspend_state := ss, vc_suspend_complete := sc } := by
  obtain ⟨arm, svcs, pr, sent⟩ := state
  obtain ⟨a1, ss, rs, a4, a5, a6, a7, a8, a9, a10, a11, a12, a13, a14, a15, a16, a17⟩ := arm
  cases ss <;> exact ⟨_, _, rfl⟩

/-- The function `stop_suspend_timer` writes the timer and its flag only. -/
theorem stop_suspend_timer_arm (arm_state : VCHIQ_ARM_STATE_T) :
    ∃ t r, stop_suspend_timer arm_state =
      { arm_state with suspend_timer := t, suspend_timer_running := r } := by
  unfold stop_suspend_timer
  split_ifs
  · exact ⟨_, _, rfl⟩
  · exact ⟨_, _, rfl⟩

/-- The branches before the wait loop write the suspend state, suspend-complete,
the timer and its flag only, besides a `request_poll`. -/
theorem force_suspend_start_arm {n : Nat} (P : platform_ops n) (state : VCHIQ_STATE_T n) :
    ∃ ss sc t r, (vchiq_arm_force_suspend_start P state).2.arm_state =
      { state.arm_state with
        vc_suspend_state := ss, vc_suspend_complete := sc,
        suspend_timer := t, suspend_timer_running := r } := by
  obtain ⟨t, r, ht⟩ := stop_suspend_timer_arm state.arm_state
  obtain ⟨ss, sc, hv⟩ := vcsuspend_arm
    { state with arm_state := stop_suspend_timer state.arm_state }
  unfold vchiq_arm_force_suspend_start
  split_ifs
  · dsimp only
    split_ifs
    · exact ⟨ss, sc, t, r, by rw [hv]; simp only [ht]⟩
    · exact ⟨state.arm_state.vc_suspend_state, state.arm_state.vc_suspend_complete, t, r,
        by simp only [ht]⟩
    · exact ⟨ss, sc, t, r, by rw [hv]; simp only [ht]⟩
  · exact ⟨state.arm_state.vc_suspend_state, state.arm_state.vc_suspend_complete,
      state.arm_state.suspend_timer, state.arm_state.suspend_timer_running, rfl⟩

/-- The branches before the wait loop leave `resume_blocked`, the resume blocker
and `autosuspend_override` alone. -/
theorem force_suspend_start_frame {n : Nat} (P : platform_ops n) (state : VCHIQ_STATE_T n) :
    (vchiq_arm_force_suspend_start P state).2.arm_state.resume_blocked =
      state.arm_state.resume_blocked ∧
    (vchiq_arm_force_suspend_start P state).2.arm_state.resume_blocker =
      state.arm_state.resume_blocker ∧
    (vchiq_arm_force_suspend_start P state).2.arm_state.autosuspend_override =
      state.arm_state.autosuspend_override := by
  obtain ⟨ss, sc, t, r, h⟩ := force_suspend_start_arm P state
  rw [h]
  exact ⟨rfl, rfl, rfl⟩

/-- C12: `vchiq_arm_force_suspend` returns `VCHIQ_SUCCESS` only with the suspend
state SUSPENDED, and then resume is left blocked (`resume_blocked` is 1 and the
resume blocker is unsignaled), as long as no other party unblocks resume while the
call sleeps; and when the suspend state is SUSPENDED once `block_resume` has
blocked resume, the call returns `VCHIQ_SUCCESS` in the very state in which
`block_resume` ended: no sleep on suspend-complete, no write of the suspend
state. -/
theorem force_suspend_success_blocked {n : Nat} (P : platform_ops n)
    (evs : List (wait_event n)) (state : VCHIQ_STATE_T n) :
    (∀ s1, vchiq_arm_force_suspend P evs state = some (VCHIQ_SUCCESS, s1) →
      s1.arm_state.vc_suspend_state = VC_SUSPEND_SUSPENDED ∧
      ((∀ ev ∈ evs, ∀ t, resume_is_blocked t → resume_is_blocked (ev.others t)) →
        s1.arm_state.resume_blocked = 1 ∧ s1.arm_state.resume_blocker.done = false)) ∧
    (∀ bs rest, block_resume evs state = some (VCHIQ_SUCCESS, bs, rest) →
      bs.arm_state.vc_suspend_state = VC_SUSPEND_SUSPENDED →
      vchiq_arm_force_suspend P evs state = some (VCHIQ_SUCCESS, bs) ∧
      bs.arm_state.resume_blocked = 1 ∧ bs.arm_state.resume_blocker.done = false) := by
  have hblocked : ∀ bs rest, block_resume evs state = some (VCHIQ_SUCCESS, bs, rest) →
      rest <:+ evs ∧ resume_is_blocked bs := by
    intro bs rest hb
    obtain ⟨h1, h2⟩ := block_resume_outcome (fun _ => True) (fun _ _ => trivial) evs state
      VCHIQ_SUCCESS bs rest (fun _ _ _ _ => trivial) trivial hb
    rcases h2 with ⟨_, b0, _, rfl⟩ | ⟨h2, _⟩
    · exact ⟨h1, rfl, rfl⟩
    · exact absurd h2 (by decide)
  constructor
  · intro s1 h
    refine ⟨force_suspend_success_suspended P evs state s1 h, fun hothers => ?_⟩
    cases hb : block_resume evs state with
    | none => simp [vchiq_arm_force_suspend, vchiq_platform_get_arm_state, hb] at h
    | some r =>
      obtain ⟨bst, bs, rest⟩ := r
      by_cases hst : bst = VCHIQ_SUCCESS
      · subst hst
        obtain ⟨hsuf, hbl⟩ := hblocked bs rest hb
        rw [force_suspend_after_block P evs state bs rest hb] at h
        split_ifs at h with h1
        · simp only [Option.some.injEq, Prod.mk.injEq, true_and] at h
          exact h ▸ hbl
        · have hstart : resume_is_blocked (vchiq_arm_force_suspend_start P bs).2 := by
            obtain ⟨f1, f2, _⟩ := force_suspend_start_frame P bs
            exact ⟨f1.trans hbl.1, by rw [f2]; exact hbl.2⟩
          split at h
          · simp at h
          · next status s2 rest2 hw =>
            simp only [Option.some.injEq, Prod.mk.injEq] at h
            exact absurd h.1 (force_suspend_wait_status _ _ _ _ _ _ hw)
          · next s2 rest2 hw =>
            obtain ⟨hI, _⟩ := force_suspend_wait_outcome resume_is_blocked
              (fun s hs => hs) rest (-1) _ none s2 rest2
              (fun e he => hothers e (hsuf.subset he)) hstart hw
            by_cases h3 : s2.arm_state.vc_suspend_state = VC_SUSPEND_SUSPENDED
            · simp only [h3, ne_eq, not_true_eq_false, ↓reduceIte, Option.some.injEq,
                Prod.mk.injEq, true_and] at h
              exact h ▸ hI
            · simp [h3] at h
      · rw [force_suspend_block_failed P evs state bs rest bst hb hst] at h
        simp only [Option.some.injEq, Prod.mk.injEq] at h
        exact absurd h.1 hst
  · intro bs rest hb hs
    obtain ⟨_, hbl⟩ := hblocked bs rest hb
    rw [force_suspend_after_block P evs state bs rest hb]
    simp only [hs, ↓reduceIte]
    exact ⟨trivial, hbl⟩

/-- C12 at a force suspend of the initial state during which the remote side
suspends, and at a force suspend of a link that is suspended already. -/
theorem force_suspend_success_blocked_witness :
    vchiq_arm_force_suspend (platform_unwanted 2) [remote_suspends] (state_at_init 2) =
      some (VCHIQ_SUCCESS, state_force_suspended) ∧
    state_force_suspended.arm_state.vc_suspend_state = VC_SUSPEND_SUSPENDED ∧
    (state_force_suspended.arm_state.resume_blocked = 1 ∧
      state_force_suspended.arm_state.resume_blocker.done = false) ∧
    block_resume [] state_suspended =
      some (VCHIQ_SUCCESS, state_suspended_blocked, []) ∧
    vchiq_arm_force_suspend (platform_unwanted 2) [] state_suspended =
      some (VCHIQ_SUCCESS, state_suspended_blocked) :=
  ⟨rfl,
   ((force_suspend_success_blocked (platform_unwanted 2) [remote_suspends]
      (state_at_init 2)).1 state_force_suspended rfl).1,
   ((force_suspend_success_blocked (platform_unwanted 2) [remote_suspends]
      (state_at_init 2)).1 state_force_suspended rfl).2
      (fun ev hev t ht => by
        rw [List.mem_singleton.mp hev]
        exact ht),
   rfl,
   ((force_suspend_success_blocked (platform_unwanted 2) [] state_suspended).2
      state_suspended_blocked [] rfl rfl).1⟩

/-- C13, as stated, fails: the link is suspended by a force suspend, resume is
blocked and one caller of use sleeps on the resume blocker.  A second
`vchiq_arm_force_suspend` waits for this caller, the wait times out, `block_resume`
fails and the call returns `VCHIQ_ERROR` through the `goto unlock` of line 983:
resume is still blocked on return. -/
theorem force_suspend_error_leaves_blocked :
    state_caller_blocked.arm_state.blocked_count = 1 ∧
    (vchiq_arm_force_suspend (platform_wanted 2) [quiet_timeout] state_caller_blocked).map
        (fun r => (r.1, r.2.arm_state.resume_blocked, r.2.arm_state.resume_blocker.done)) =
      some (VCHIQ_ERROR, 1, false) := by
  exact ⟨rfl, rfl⟩

/-- C13, amended: whenever `vchiq_arm_force_suspend` returns a status other than
`VCHIQ_SUCCESS` after its `block_resume` has succeeded, resume is unblocked on
return (`resume_blocked` is 0 and the resume blocker is signaled); and the same
holds on every return with such a status when resume was not blocked at the call
and no other party blocks it while the call sleeps.  (When `block_resume` fails,
the call returns `VCHIQ_ERROR` in the state in which `block_resume` ended.) -/
theorem force_suspend_failure_unblocks {n : Nat} (P : platform_ops n)
    (evs : List (wait_event n)) (state : VCHIQ_STATE_T n) (status : VCHIQ_STATUS_T)
    (s1 : VCHIQ_STATE_T n)
    (h : vchiq_arm_force_suspend P evs state = some (status, s1))
    (hne : status ≠ VCHIQ_SUCCESS) :
    ((∃ bs rest, block_resume evs state = some (VCHIQ_SUCCESS, bs, rest)) →
      s1.arm_state.resume_blocked = 0 ∧ s1.arm_state.resume_blocker.done = true) ∧
    (resume_is_unblocked state →
      (∀ ev ∈ evs, ∀ t, resume_is_unblocked t → resume_is_unblocked (ev.others t)) →
      s1.arm_state.resume_blocked = 0 ∧ s1.arm_state.resume_blocker.done = true) ∧
    (∀ bs rest, block_resume evs state = some (VCHIQ_ERROR, bs, rest) →
      status = VCHIQ_ERROR ∧ s1 = bs) := by
  have after : ∀ bs rest, block_resume evs state = some (VCHIQ_SUCCESS, bs, rest) →
      s1.arm_state.resume_blocked = 0 ∧ s1.arm_state.resume_blocker.done = true := by
    intro bs rest hb
    rw [force_suspend_after_block P evs state bs rest hb] at h
    split_ifs at h with h1
    · simp only [Option.some.injEq, Prod.mk.injEq] at h
      exact absurd h.1.symm hne
    · split at h
      · simp at h
      · simp only [Option.some.injEq, Prod.mk.injEq] at h
        rw [← h.2]; exact ⟨rfl, rfl⟩
      · next s2 rest2 hw =>
        by_cases h3 : s2.arm_state.vc_suspend_state = VC_SUSPEND_SUSPENDED
        · simp only [h3, ne_eq, not_true_eq_false, ↓reduceIte, Option.some.injEq,
            Prod.mk.injEq] at h
          exact absurd h.1.symm hne
        · simp only [ne_eq, h3, not_false_eq_true, ↓reduceIte, Option.some.injEq,
            Prod.mk.injEq] at h
          rw [← h.2]; exact ⟨rfl, rfl⟩
  refine ⟨fun ⟨bs, rest, hb⟩ => after bs rest hb, fun hu hothers => ?_, fun bs rest hb => ?_⟩
  · cases hb : block_resume evs state with
    | none => simp [vchiq_arm_force_suspend, vchiq_platform_get_arm_state, hb] at h
    | some r =>
      obtain ⟨bst, bs, rest⟩ := r
      obtain ⟨_, hout⟩ := block_resume_outcome resume_is_unblocked (fun s hs => hs) evs state
        bst bs rest hothers hu hb
      rcases hout with ⟨rfl, _⟩ | ⟨rfl, hI⟩
      · exact after bs rest hb
      · rw [force_suspend_block_failed P evs state bs rest VCHIQ_ERROR hb (by decide)] at h
        simp only [Option.some.injEq, Prod.mk.injEq] at h
        exact h.2 ▸ hI
  · rw [force_suspend_block_failed P evs state bs rest VCHIQ_ERROR hb (by decide)] at h
    simp only [Option.some.injEq, Prod.mk.injEq] at h
    exact ⟨h.1.symm, h.2.symm⟩

/-- C13 at a force suspend of `state_in_use` whose wait on suspend-complete times
out: `VCHIQ_RETRY`, and resume is unblocked. -/
theorem force_suspend_failure_unblocks_witness :
    vchiq_arm_force_suspend (platform_wanted 2) [quiet_timeout] state_in_use =
      some (VCHIQ_RETRY, state_failed_once) ∧
    VCHIQ_RETRY ≠ VCHIQ_SUCCESS ∧
    state_failed_once.arm_state.resume_blocked = 0 ∧
    state_failed_once.arm_state.resume_blocker.done = true :=
  ⟨rfl, by decide,
   (force_suspend_failure_unblocks (platform_wanted 2) [quiet_timeout] state_in_use
      VCHIQ_RETRY state_failed_once rfl (by decide)).1
      ⟨state_force_waiting, [quiet_timeout], rfl⟩⟩

/-- C14, as stated, fails: after one failed attempt (`autosuspend_override` is 1),
with the suspend state IDLE and service 0 still in use, the next
`vchiq_arm_force_suspend` does not initiate suspend: before the wait the suspend
state is still IDLE and no `request_poll` was made, and when the wait times out
the call returns `VCHIQ_RETRY` with the suspend state IDLE. -/
theorem force_suspend_second_attempt_waits :
    state_failed_once.arm_state.autosuspend_override = 1 ∧
    state_failed_once.arm_state.vc_suspend_state = VC_SUSPEND_IDLE ∧
    state_failed_once.arm_state.videocore_use_count = 1 ∧
    (block_resume [quiet_timeout] state_failed_once).map
        (fun r => (r.1,
          (vchiq_arm_force_suspend_start (platform_wanted 2) r.2.1).2.arm_state.vc_suspend_state,
          (vchiq_arm_force_suspend_start (platform_wanted 2) r.2.1).2.poll_requests)) =
      some (VCHIQ_SUCCESS, VC_SUSPEND_IDLE, state_failed_once.poll_requests) ∧
    (vchiq_arm_force_suspend (platform_wanted 2) [quiet_timeout] state_failed_once).map
        (fun r => (r.1, r.2.arm_state.vc_suspend_state, r.2.poll_requests)) =
      some (VCHIQ_RETRY, VC_SUSPEND_IDLE, state_failed_once.poll_requests) := by
  exact ⟨rfl, rfl, rfl, rfl, rfl⟩

/-- With the suspend state at or below IDLE, `vchiq_arm_vcsuspend` leaves it
REQUESTED and makes one `request_poll`. -/
theorem vcsuspend_from_idle {n : Nat} (state : VCHIQ_STATE_T n)
    (hs : state.arm_state.vc_suspend_state.toInt ≤ VC_SUSPEND_IDLE.toInt) :
    (vchiq_arm_vcsuspend state).2.arm_state.vc_suspend_state = VC_SUSPEND_REQUESTED ∧
    (vchiq_arm_vcsuspend state).2.poll_requests = state.poll_requests + 1 := by
  obtain ⟨arm, svcs, pr, sent⟩ := state
  obtain ⟨a1, ss, rs, a4, a5, a6, a7, a8, a9, a10, a11, a12, a13, a14, a15, a16, a17⟩ := arm
  cases ss <;> first
    | exact ⟨rfl, rfl⟩
    | (dsimp only at hs; exact absurd hs (by decide))

/-- C14, amended: in `vchiq_arm_force_suspend`, with the suspend state at or below
IDLE and the coprocessor still wanted, the stretch before the wait only stops the
suspend timer as long as fewer than `FORCE_SUSPEND_FAIL_MAX` = 8 earlier attempts
have failed (`autosuspend_override` < 8); once `autosuspend_override` is 8 or
more it initiates suspend anyway: the suspend state is REQUESTED, with one
`request_poll` made, before the wait.  The wait on suspend-complete then starts
in the state that this stretch has left, and gives the status of the call. -/
theorem force_suspend_start_threshold {n : Nat} (P : platform_ops n)
    (state : VCHIQ_STATE_T n)
    (hs : state.arm_state.vc_suspend_state.toInt ≤ VC_SUSPEND_IDLE.toInt)
    (hw : vchiq_videocore_wanted P
      { state with arm_state := stop_suspend_timer state.arm_state } ≠ 0) :
    FORCE_SUSPEND_FAIL_MAX = 8 ∧
    (state.arm_state.autosuspend_override < FORCE_SUSPEND_FAIL_MAX →
      vchiq_arm_force_suspend_start P state =
        (VCHIQ_SUCCESS, { state with arm_state := stop_suspend_timer state.arm_state }) ∧
      (vchiq_arm_force_suspend_start P state).2.arm_state.vc_suspend_state =
        state.arm_state.vc_suspend_state ∧
      (vchiq_arm_force_suspend_start P state).2.poll_requests = state.poll_requests) ∧
    (FORCE_SUSPEND_FAIL_MAX ≤ state.arm_state.autosuspend_override →
      (vchiq_arm_force_suspend_start P state).1 = VCHIQ_SUCCESS ∧
      (vchiq_arm_force_suspend_start P state).2.arm_state.vc_suspend_state =
        VC_SUSPEND_REQUESTED ∧
      (vchiq_arm_force_suspend_start P state).2.poll_requests = state.poll_requests + 1) ∧
    (∀ (evs : List (wait_event n)) (entry : VCHIQ_STATE_T n) (rest : List (wait_event n)),
      block_resume evs entry = some (VCHIQ_SUCCESS, state, rest) →
      (vchiq_arm_force_suspend P evs entry).map (fun r => r.1) =
        match vchiq_arm_force_suspend_wait (-1) rest
            (vchiq_arm_force_suspend_start P state).2 with
        | none => none
        | some (some status, _, _) => some status
        | some (none, s, _) =>
          some (if s.arm_state.vc_suspend_state = VC_SUSPEND_SUSPENDED then VCHIQ_SUCCESS
            else VCHIQ_RETRY)) := by
  obtain ⟨t, r, ht⟩ := stop_suspend_timer_arm state.arm_state
  have hover : (stop_suspend_timer state.arm_state).autosuspend_override =
      state.arm_state.autosuspend_override := by rw [ht]
  have hsus : (stop_suspend_timer state.arm_state).vc_suspend_state =
      state.arm_state.vc_suspend_state := by rw [ht]
  refine ⟨rfl, fun hlt => ?_, fun hge => ?_, fun evs entry rest hb => ?_⟩
  rotate_left 2
  · have hns : state.arm_state.vc_suspend_state ≠ VC_SUSPEND_SUSPENDED := by
      intro h
      rw [h] at hs
      exact absurd hs (by decide)
    rw [force_suspend_after_block P evs entry state rest hb]
    simp only [hns, ↓reduceIte]
    cases vchiq_arm_force_suspend_wait (-1) rest (vchiq_arm_force_suspend_start P state).2 with
    | none => rfl
    | some res =>
      obtain ⟨r1, s, rest1⟩ := res
      cases r1 with
      | some status => rfl
      | none =>
        by_cases h3 : s.arm_state.vc_suspend_state = VC_SUSPEND_SUSPENDED
        · simp [h3]
        · simp [h3]
  · have hstart : vchiq_arm_force_suspend_start P state =
        (VCHIQ_SUCCESS, { state with arm_state := stop_suspend_timer state.arm_state }) := by
      unfold vchiq_arm_force_suspend_start
      simp only [hs, ↓reduceIte, hw, hover, hlt]
    rw [hstart]
    exact ⟨rfl, hsus, rfl⟩
  · have hstart : vchiq_arm_force_suspend_start P state =
        vchiq_arm_vcsuspend { state with arm_state := stop_suspend_timer state.arm_state } := by
      unfold vchiq_arm_force_suspend_start
      simp only [hs, ↓reduceIte, hw, hover, not_lt.mpr hge]
    rw [hstart]
    have hv := vcsuspend_from_idle
      { state with arm_state := stop_suspend_timer state.arm_state } (by rw [hsus]; exact hs)
    exact ⟨vcsuspend_status _, hv.1, hv.2⟩

/-- C14 at `state_force_waiting` (service 0 in use, no failure so far): the
stretch before the wait keeps the suspend state. -/
theorem force_suspend_start_threshold_witness :
    state_force_waiting.arm_state.vc_suspend_state.toInt ≤ VC_SUSPEND_IDLE.toInt ∧
    vchiq_videocore_wanted (platform_wanted 2)
      { state_force_waiting with
        arm_state := stop_suspend_timer state_force_waiting.arm_state } ≠ 0 ∧
    state_force_waiting.arm_state.autosuspend_override < FORCE_SUSPEND_FAIL_MAX ∧
    (vchiq_arm_force_suspend_start (platform_wanted 2)
      state_force_waiting).2.arm_state.vc_suspend_state = VC_SUSPEND_IDLE :=
  ⟨by decide, by decide, by decide,
   ((force_suspend_start_threshold (platform_wanted 2) state_force_waiting
      (by decide) (by decide)).2.1 (by decide)).2.1⟩

/-- C15, as stated, fails: resume is not blocked and one caller released by the
last force suspend has not run yet (`blocked_count` is 1).  The wait of
`vchiq_arm_force_suspend` for this caller times out and the call returns
`VCHIQ_ERROR` at that point: resume is not blocked (`resume_blocked` is 0), the
suspend state is as before and no `request_poll` was made. -/
theorem force_suspend_aborts_on_blocked_timeout :
    state_caller_released.arm_state.blocked_count = 1 ∧
    state_caller_released.arm_state.resume_blocked = 0 ∧
    (vchiq_arm_force_suspend (platform_wanted 2) [quiet_timeout] state_caller_released).map
        (fun r => (r.1, r.2.arm_state.resume_blocked, r.2.arm_state.vc_suspend_state,
          r.2.poll_requests)) =
      some (VCHIQ_ERROR, 0, state_caller_released.arm_state.vc_suspend_state,
        state_caller_released.poll_requests) := by
  exact ⟨rfl, rfl, rfl⟩

/-- C15, amended: if the wait of `vchiq_arm_force_suspend` for previously blocked
callers (`blocked_count` not 0 at the call) times out, the call is aborted: it
returns `VCHIQ_ERROR` at that point, in the state that the other parties left
during the wait, with `blocked_blocker` reset and nothing else written by the
call: resume is not blocked by it and no suspend is attempted or awaited. -/
theorem force_suspend_blocked_wait_timeout {n : Nat} (P : platform_ops n)
    (ev : wait_event n) (rest : List (wait_event n)) (state : VCHIQ_STATE_T n)
    (hb : state.arm_state.blocked_count ≠ 0)
    (ht : ev.result = wait_result.timed_out) :
    vchiq_arm_force_suspend P (ev :: rest) state =
      some (VCHIQ_ERROR, ev.others { state with arm_state :=
        { state.arm_state with
          blocked_blocker := INIT_COMPLETION state.arm_state.blocked_blocker } }) := by
  have hbr : block_resume (ev :: rest) state =
      some (VCHIQ_ERROR, ev.others { state with arm_state :=
        { state.arm_state with
          blocked_blocker := INIT_COMPLETION state.arm_state.blocked_blocker } }, rest) := by
    rw [block_resume_unfold]
    simp [hb, ht, wait_for_completion_interruptible_timeout]
  exact force_suspend_block_failed P _ state _ rest VCHIQ_ERROR hbr (by decide)

/-- C15 at `state_caller_released`, where one caller has not run yet, with a wait
that times out. -/
theorem force_suspend_blocked_wait_timeout_witness :
    state_caller_released.arm_state.blocked_count ≠ 0 ∧
    quiet_timeout.result = wait_result.timed_out ∧
    vchiq_arm_force_suspend (platform_wanted 2) [quiet_timeout] state_caller_released =
      some (VCHIQ_ERROR, quiet_timeout.others { state_caller_released with arm_state :=
        { state_caller_released.arm_state with
          blocked_blocker :=
            INIT_COMPLETION state_caller_released.arm_state.blocked_blocker } }) :=
  ⟨by decide, rfl,
   force_suspend_blocked_wait_timeout (platform_wanted 2) quiet_timeout []
     state_caller_released (by decide) rfl⟩

/-- C16, as stated, fails.  A first wait on suspend-complete that times out while
the suspend state is above IDLE is repeated once, and when the remote side
suspends during the second wait the call returns `VCHIQ_SUCCESS`; and a wait for
previously blocked callers that times out gives `VCHIQ_ERROR`, with no wait
interrupted. -/
theorem force_suspend_timeout_then_success :
    quiet_timeout.result = wait_result.timed_out ∧
    remote_suspends.result = wait_result.completed ∧
    (vchiq_arm_force_suspend (platform_unwanted 2) [quiet_timeout, remote_suspends]
        (state_at_init 2)).map (fun r => r.1) = some VCHIQ_SUCCESS ∧
    (vchiq_arm_force_suspend (platform_wanted 2) [quiet_timeout]
        state_caller_released).map (fun r => r.1) = some VCHIQ_ERROR := by
  exact ⟨rfl, rfl, rfl, rfl⟩

/-- C16, amended: once `block_resume` has succeeded and the link is not already
suspended, `vchiq_arm_force_suspend` returns `VCHIQ_ERROR` only when one of its
waits on suspend-complete was interrupted; when the first of these waits times
out with the suspend state at or below IDLE, or when it times out with the
suspend state above IDLE (it is then repeated once) and the second wait times
out as well, the result is `VCHIQ_RETRY`. -/
theorem force_suspend_wait_results {n : Nat} (P : platform_ops n)
    (evs : List (wait_event n)) (state bs : VCHIQ_STATE_T n) (rest : List (wait_event n))
    (hb : block_resume evs state = some (VCHIQ_SUCCESS, bs, rest))
    (hns : bs.arm_state.vc_suspend_state ≠ VC_SUSPEND_SUSPENDED) :
    (∀ s1, vchiq_arm_force_suspend P evs state = some (VCHIQ_ERROR, s1) →
      ∃ ev ∈ rest, ev.result = wait_result.interrupted) ∧
    (∀ e1 r1, rest = e1 :: r1 → e1.result = wait_result.timed_out →
      (e1.others (vchiq_arm_force_suspend_start P bs).2).arm_state.vc_suspend_state.toInt
        ≤ VC_SUSPEND_IDLE.toInt →
      ∃ s1, vchiq_arm_force_suspend P evs state = some (VCHIQ_RETRY, s1)) ∧
    (∀ e1 e2 r2, rest = e1 :: e2 :: r2 → e1.result = wait_result.timed_out →
      VC_SUSPEND_IDLE.toInt <
        (e1.others (vchiq_arm_force_suspend_start P bs).2).arm_state.vc_suspend_state.toInt →
      e2.result = wait_result.timed_out →
      ∃ s1, vchiq_arm_force_suspend P evs state = some (VCHIQ_RETRY, s1)) := by
  have hfs := force_suspend_after_block P evs state bs rest hb
  simp only [hns, ↓reduceIte] at hfs
  refine ⟨fun s1 h => ?_, fun e1 r1 hrest ht hle => ?_, fun e1 e2 r2 hrest ht1 hgt ht2 => ?_⟩
  · rw [hfs] at h
    cases hw : vchiq_arm_force_suspend_wait (-1) rest (vchiq_arm_force_suspend_start P bs).2 with
    | none => simp [hw] at h
    | some res =>
      obtain ⟨r, s2, rest2⟩ := res
      obtain ⟨-, hr⟩ := force_suspend_wait_outcome (fun _ => True) (fun _ _ => trivial) rest
        (-1) _ r s2 rest2 (fun _ _ _ _ => trivial) trivial hw
      rcases hr with rfl | rfl | ⟨-, hi⟩
      · simp only [hw] at h
        by_cases h3 : s2.arm_state.vc_suspend_state = VC_SUSPEND_SUSPENDED
        · simp [h3] at h
        · simp [h3] at h
      · simp [hw] at h
      · exact hi
  · subst hrest
    rw [hfs, vchiq_arm_force_suspend_wait]
    simp only [ht, wait_for_completion_interruptible_timeout]
    have hng : ¬ ((e1.others (vchiq_arm_force_suspend_start P bs).2).arm_state.vc_suspend_state.toInt
        > VC_SUSPEND_IDLE.toInt) := not_lt.mpr hle
    norm_num [hng]
  · subst hrest
    rw [hfs, vchiq_arm_force_suspend_wait]
    simp only [ht1, wait_for_completion_interruptible_timeout]
    norm_num [hgt]
    rw [vchiq_arm_force_suspend_wait]
    simp only [ht2, wait_for_completion_interruptible_timeout]
    norm_num

/-- C16 at a force suspend of `state_in_use` whose wait on suspend-complete times
out with the suspend state IDLE: `VCHIQ_RETRY`. -/
theorem force_suspend_wait_results_witness :
    block_resume [quiet_timeout] state_in_use =
      some (VCHIQ_SUCCESS, state_force_waiting, [quiet_timeout]) ∧
    state_force_waiting.arm_state.vc_suspend_state ≠ VC_SUSPEND_SUSPENDED ∧
    ∃ s1, vchiq_arm_force_suspend (platform_wanted 2) [quiet_timeout] state_in_use =
      some (VCHIQ_RETRY, s1) :=
  ⟨rfl, by decide,
   (force_suspend_wait_results (platform_wanted 2) [quiet_timeout] state_in_use
      state_force_waiting [quiet_timeout] rfl (by decide)).2.1 quiet_timeout [] rfl rfl
      (by decide)⟩

/-! ### The completion dispatcher -/

/-- The wait loop of `add_completion` as the source has it: one pass of the loop,
with `down_interruptible` on `instance->remove_event`, and the loop again. -/
theorem add_completion_wait_unfold (evs : List dispatcher_event) (mem : dispatcher_memory) :
    add_completion_wait evs mem =
      if mem.inst.completion_insert = mem.inst.completion_remove + MAX_COMPLETIONS then
        match down_interruptible (fun m => m.inst.remove_event) set_instance_remove_event
            evs mem with
        | none => none
        | some (rc, mem, evs) =>
          if rc ≠ 0 then some (some VCHIQ_RETRY, mem, evs)
          else if mem.inst.closing ≠ 0 then some (some VCHIQ_ERROR, mem, evs)
          else add_completion_wait evs mem
      else some (none, mem, evs) := by
  by_cases hfull : mem.inst.completion_insert = mem.inst.completion_remove + MAX_COMPLETIONS
  · by_cases htok : 0 < mem.inst.remove_event.count
    · obtain ⟨k, hk⟩ : ∃ k, mem.inst.remove_event.count = k + 1 :=
        ⟨mem.inst.remove_event.count - 1, by omega⟩
      cases evs with
      | nil =>
        rw [add_completion_wait, add_completion_wait_tokens.eq_def]
        simp only [hfull, htok, ↓reduceIte, down_interruptible]
        rw [hk]
        simp only [ne_eq, not_true_eq_false, ↓reduceIte]
        rfl
      | cons ev rest =>
        rw [add_completion_wait, add_completion_wait_tokens.eq_def]
        simp only [hfull, htok, ↓reduceIte, down_interruptible]
        rw [hk]
        simp only [ne_eq, not_true_eq_false, ↓reduceIte]
        rfl
    · cases evs with
      | nil =>
        rw [add_completion_wait, add_completion_wait_tokens.eq_def]
        simp only [hfull, htok, ↓reduceIte, down_interruptible]
      | cons ev rest =>
        rw [add_completion_wait, add_completion_wait_tokens.eq_def]
        simp only [hfull, htok, ↓reduceIte, down_interruptible]
        cases down_interruptible_sleep ev.result <;> rfl
  · cases evs with
    | nil =>
      rw [add_completion_wait, add_completion_wait_tokens.eq_def]
      simp only [hfull, ↓reduceIte]
    | cons ev rest =>
      rw [add_completion_wait, add_completion_wait_tokens.eq_def]
      simp only [hfull, ↓reduceIte]

/-- What the wait loop of `add_completion` returns: it keeps what the other
parties and the taking of a token keep; it ends only with the queue not full,
returns `VCHIQ_RETRY` only after an interrupted sleep and `VCHIQ_ERROR` only with
`closing` set. -/
theorem add_completion_wait_outcome (J : dispatcher_memory → Prop)
    (htok : ∀ m, J m → J (set_instance_remove_event m ⟨m.inst.remove_event.count - 1⟩))
    (evs : List dispatcher_event) :
    ∀ (mem : dispatcher_memory) (r : Option VCHIQ_STATUS_T) (m : dispatcher_memory)
      (rest : List dispatcher_event),
      (∀ ev ∈ evs, ∀ t, J t → J (ev.others t)) → J mem →
      add_completion_wait evs mem = some (r, m, rest) →
      J m ∧ rest <:+ evs ∧
        ((r = none ∧ ¬completion_queue_full m) ∨
         (r = some VCHIQ_RETRY ∧ ∃ ev ∈ evs, ev.result = wait_result.interrupted) ∨
         (r = some VCHIQ_ERROR ∧ m.inst.closing ≠ 0)) := by
  induction evs with
  | nil =>
    intro mem r m rest _
    have key : ∀ (n : Nat) (mem : dispatcher_memory), mem.inst.remove_event.count = n →
        J mem → add_completion_wait [] mem = some (r, m, rest) →
        J m ∧ rest <:+ [] ∧
          ((r = none ∧ ¬completion_queue_full m) ∨
           (r = some VCHIQ_RETRY ∧
              ∃ ev ∈ ([] : List dispatcher_event), ev.result = wait_result.interrupted) ∨
           (r = some VCHIQ_ERROR ∧ m.inst.closing ≠ 0)) := by
      intro n
      induction n with
      | zero =>
        intro mem hn hJ h
        rw [add_completion_wait_unfold] at h
        by_cases hfull : mem.inst.completion_insert = mem.inst.completion_remove + MAX_COMPLETIONS
        · simp [hfull, down_interruptible, hn] at h
        · simp only [hfull, ↓reduceIte, Option.some.injEq, Prod.mk.injEq] at h
          obtain ⟨rfl, rfl, rfl⟩ := h
          exact ⟨hJ, List.suffix_refl _, Or.inl ⟨rfl, hfull⟩⟩
      | succ k ihk =>
        intro mem hn hJ h
        rw [add_completion_wait_unfold] at h
        by_cases hfull : mem.inst.completion_insert = mem.inst.completion_remove + MAX_COMPLETIONS
        · have htk : 0 < mem.inst.remove_event.count := by omega
          simp only [hfull, ↓reduceIte, down_interruptible, htk, ne_eq, not_true_eq_false] at h
          by_cases hc : (set_instance_remove_event mem
              ⟨mem.inst.remove_event.count - 1⟩).inst.closing = 0
          · simp only [hc, not_true_eq_false, ↓reduceIte] at h
            exact ihk _ (by simp [set_instance_remove_event, hn]) (htok _ hJ) h
          · simp only [hc, not_false_eq_true, ↓reduceIte, Option.some.injEq,
              Prod.mk.injEq] at h
            obtain ⟨rfl, rfl, rfl⟩ := h
            exact ⟨htok _ hJ, List.suffix_refl _, Or.inr (Or.inr ⟨rfl, hc⟩)⟩
        · simp only [hfull, ↓reduceIte, Option.some.injEq, Prod.mk.injEq] at h
          obtain ⟨rfl, rfl, rfl⟩ := h
          exact ⟨hJ, List.suffix_refl _, Or.inl ⟨rfl, hfull⟩⟩
    intro hJ h
    exact key _ mem rfl hJ h
  | cons ev evs ih =>
    intro mem r m rest hev
    have hev' : ∀ e ∈ evs, ∀ t, J t → J (e.others t) :=
      fun e he => hev e (List.mem_cons_of_mem _ he)
    have key : ∀ (n : Nat) (mem : dispatcher_memory), mem.inst.remove_event.count = n →
        J mem → add_completion_wait (ev :: evs) mem = some (r, m, rest) →
        J m ∧ rest <:+ ev :: evs ∧
          ((r = none ∧ ¬completion_queue_full m) ∨
           (r = some VCHIQ_RETRY ∧ ∃ e ∈ ev :: evs, e.result = wait_result.interrupted) ∨
           (r = some VCHIQ_ERROR ∧ m.inst.closing ≠ 0)) := by
      intro n
      induction n with
      | zero =>
        intro mem hn hJ h
        rw [add_completion_wait_unfold] at h
        by_cases hfull : mem.inst.completion_insert = mem.inst.completion_remove + MAX_COMPLETIONS
        · simp only [hfull, ↓reduceIte, down_interruptible, hn, lt_self_iff_false] at h
          have hJ1 : J (ev.others mem) := hev ev (List.mem_cons_self _ _) _ hJ
          cases hr : ev.result with
          | completed =>
            simp only [hr, down_interruptible_sleep, ne_eq, not_true_eq_false,
              ↓reduceIte] at h
            by_cases hc : (ev.others mem).inst.closing = 0
            · simp only [hc, not_true_eq_false, ↓reduceIte] at h
              obtain ⟨h1, h2, h3⟩ := ih _ _ _ _ hev' hJ1 h
              refine ⟨h1, h2.trans (List.suffix_cons _ _), ?_⟩
              rcases h3 with h3 | ⟨h3, e, he, hi⟩ | h3
              · exact Or.inl h3
              · exact Or.inr (Or.inl ⟨h3, e, List.mem_cons_of_mem _ he, hi⟩)
              · exact Or.inr (Or.inr h3)
            · simp only [hc, not_false_eq_true, ↓reduceIte, Option.some.injEq,
                Prod.mk.injEq] at h
              obtain ⟨rfl, rfl, rfl⟩ := h
              exact ⟨hJ1, List.suffix_cons _ _, Or.inr (Or.inr ⟨rfl, hc⟩)⟩
          | timed_out => simp [hr, down_interruptible_sleep] at h
          | interrupted =>
            simp only [hr, down_interruptible_sleep, ne_eq] at h
            norm_num at h
            obtain ⟨rfl, rfl, rfl⟩ := h
            exact ⟨hJ1, List.suffix_cons _ _,
              Or.inr (Or.inl ⟨rfl, ev, List.mem_cons_self _ _, hr⟩)⟩
        · simp only [hfull, ↓reduceIte, Option.some.injEq, Prod.mk.injEq] at h
          obtain ⟨rfl, rfl, rfl⟩ := h
          exact ⟨hJ, List.suffix_refl _, Or.inl ⟨rfl, hfull⟩⟩
      | succ k ihk =>
        intro mem hn hJ h
        rw [add_completion_wait_unfold] at h
        by_cases hfull : mem.inst.completion_insert = mem.inst.completion_remove + MAX_COMPLETIONS
        · have htk : 0 < mem.inst.remove_event.count := by omega
          simp only [hfull, ↓reduceIte, down_interruptible, htk, ne_eq, not_true_eq_false] at h
          by_cases hc : (set_instance_remove_event mem
              ⟨mem.inst.remove_event.count - 1⟩).inst.closing = 0
          · simp only [hc, not_true_eq_false, ↓reduceIte] at h
            exact ihk _ (by simp [set_instance_remove_event, hn]) (htok _ hJ) h
          · simp only [hc, not_false_eq_true, ↓reduceIte, Option.some.injEq,
              Prod.mk.injEq] at h
            obtain ⟨rfl, rfl, rfl⟩ := h
            exact ⟨htok _ hJ, List.suffix_refl _, Or.inr (Or.inr ⟨rfl, hc⟩)⟩
        · simp only [hfull, ↓reduceIte, Option.some.injEq, Prod.mk.injEq] at h
          obtain ⟨rfl, rfl, rfl⟩ := h
          exact ⟨hJ, List.suffix_refl _, Or.inl ⟨rfl, hfull⟩⟩
    intro hJ h
    exact key _ mem rfl hJ h

/-- With the completion queue not full, `add_completion` does not wait: it inserts
at once and returns `VCHIQ_SUCCESS`, with all events left. -/
theorem add_completion_not_full (reason : VCHIQ_REASON_T) (header : Option Nat)
    (evs : List dispatcher_event) (mem : dispatcher_memory)
    (h : ¬completion_queue_full mem) :
    add_completion reason header evs mem =
      some (VCHIQ_SUCCESS, add_completion_insert reason mem, evs) := by
  unfold completion_queue_full at h
  unfold add_completion
  rw [add_completion_wait_unfold]
  simp only [h, ↓reduceIte]

/-- What the insertion of `add_completion` writes. -/
theorem add_completion_insert_fields (reason : VCHIQ_REASON_T) (m : dispatcher_memory) :
    (add_completion_insert reason m).inst.completion_insert = m.inst.completion_insert + 1 ∧
    (add_completion_insert reason m).inst.completion_remove = m.inst.completion_remove ∧
    (add_completion_insert reason m).inst.insert_event.count = m.inst.insert_event.count + 1 ∧
    (add_completion_insert reason m).inst.remove_event = m.inst.remove_event ∧
    (add_completion_insert reason m).inst.closing = m.inst.closing := by
  cases reason <;> exact ⟨rfl, rfl, rfl, rfl, rfl⟩

/-- What `add_completion` returns, in terms of its wait loop: on `VCHIQ_SUCCESS` the
insertion was made in a memory in which the queue was not full; on another
status the memory is as the loop left it. -/
theorem add_completion_outcome (J : dispatcher_memory → Prop)
    (htok : ∀ m, J m → J (set_instance_remove_event m ⟨m.inst.remove_event.count - 1⟩))
    (reason : VCHIQ_REASON_T) (header : Option Nat) (evs : List dispatcher_event)
    (mem : dispatcher_memory) (status : VCHIQ_STATUS_T) (mem1 : dispatcher_memory)
    (rest : List dispatcher_event)
    (hev : ∀ ev ∈ evs, ∀ t, J t → J (ev.others t)) (hJ : J mem)
    (h : add_completion reason header evs mem = some (status, mem1, rest)) :
    rest <:+ evs ∧
    ((status = VCHIQ_SUCCESS ∧ ∃ m, J m ∧ ¬completion_queue_full m ∧
        mem1 = add_completion_insert reason m) ∨
     (status = VCHIQ_RETRY ∧ J mem1 ∧ ∃ ev ∈ evs, ev.result = wait_result.interrupted) ∨
     (status = VCHIQ_ERROR ∧ J mem1 ∧ mem1.inst.closing ≠ 0)) := by
  unfold add_completion at h
  cases hw : add_completion_wait evs mem with
  | none => simp [hw] at h
  | some res =>
    obtain ⟨r, m, rest1⟩ := res
    obtain ⟨h1, h2, h3⟩ := add_completion_wait_outcome J htok evs mem r m rest1 hev hJ hw
    rcases h3 with ⟨rfl, hnf⟩ | ⟨rfl, hi⟩ | ⟨rfl, hc⟩
    · simp only [hw, Option.some.injEq, Prod.mk.injEq] at h
      obtain ⟨rfl, rfl, rfl⟩ := h
      exact ⟨h2, Or.inl ⟨rfl, m, h1, hnf, rfl⟩⟩
    · simp only [hw, Option.some.injEq, Prod.mk.injEq] at h
      obtain ⟨rfl, rfl, rfl⟩ := h
      exact ⟨h2, Or.inr (Or.inl ⟨rfl, h1, hi⟩)⟩
    · simp only [hw, Option.some.injEq, Prod.mk.injEq] at h
      obtain ⟨rfl, rfl, rfl⟩ := h
      exact ⟨h2, Or.inr (Or.inr ⟨rfl, h1, hc⟩)⟩

/-- As long as the completions fit, consecutive calls of `add_completion` all
return `VCHIQ_SUCCESS` and take no event and no token. -/
theorem add_completion_calls_fit (evs : List dispatcher_event) :
    ∀ (reasons : List VCHIQ_REASON_T) (mem : dispatcher_memory),
      mem.inst.completion_insert - mem.inst.completion_remove + reasons.length
        ≤ MAX_COMPLETIONS →
      ∃ mem1, add_completion_calls reasons evs mem =
          some (List.replicate reasons.length VCHIQ_SUCCESS, mem1, evs) ∧
        mem1.inst.completion_insert = mem.inst.completion_insert + reasons.length ∧
        mem1.inst.completion_remove = mem.inst.completion_remove ∧
        mem1.inst.remove_event = mem.inst.remove_event ∧
        mem1.inst.closing = mem.inst.closing := by
  intro reasons
  induction reasons with
  | nil =>
    intro mem _
    exact ⟨mem, rfl, by simp, rfl, rfl, rfl⟩
  | cons reason reasons ih =>
    intro mem hfit
    simp only [List.length_cons, Nat.cast_add, Nat.cast_one] at hfit
    have hnf : ¬completion_queue_full mem := by
      unfold completion_queue_full
      have : (0 : Int) ≤ (reasons.length : Int) := Int.natCast_nonneg _
      omega
    obtain ⟨e1, e2, -, e4, e5⟩ := add_completion_insert_fields reason mem
    obtain ⟨mem1, hc, h1, h2, h3, h4⟩ := ih (add_completion_insert reason mem)
      (by rw [e1, e2]; omega)
    refine ⟨mem1, ?_, ?_, ?_, ?_, ?_⟩
    · rw [add_completion_calls, add_completion_not_full reason none evs mem hnf]
      simp only [hc, List.length_cons, List.replicate_succ]
    · rw [h1, e1]; simp only [List.length_cons, Nat.cast_add, Nat.cast_one]; ring
    · rw [h2, e2]
    · rw [h3, e4]
    · rw [h4, e5]

/-- C17: `service_callback` for an endpoint whose client instance is absent
(`instance` is NULL) or has `closing` set returns `VCHIQ_SUCCESS` and touches
nothing, for every reason and header (and every fuel and list of events): the
memory and the events are as before, so `completion_insert`, `msg_insert`, the
message ring, `message_available_pos`, `dequeue_pending` and both events of the
endpoint and of the instance are unchanged. -/
theorem service_callback_dropped (fuel : Nat) (reason : VCHIQ_REASON_T)
    (header : Option Nat) (evs : List dispatcher_event) (mem : dispatcher_memory)
    (h : mem.user_service.instance_present = false ∨ mem.inst.closing ≠ 0) :
    service_callback fuel reason header evs mem = some (VCHIQ_SUCCESS, mem, evs) ∧
    ∀ status mem1 rest,
      service_callback fuel reason header evs mem = some (status, mem1, rest) →
      status = VCHIQ_SUCCESS ∧ rest = evs ∧
      mem1.inst.completion_insert = mem.inst.completion_insert ∧
      mem1.user_service.msg_insert = mem.user_service.msg_insert ∧
      mem1.user_service.msg_queue = mem.user_service.msg_queue ∧
      mem1.user_service.message_available_pos = mem.user_service.message_available_pos ∧
      mem1.user_service.dequeue_pending = mem.user_service.dequeue_pending ∧
      mem1.user_service.insert_event = mem.user_service.insert_event ∧
      mem1.user_service.remove_event = mem.user_service.remove_event ∧
      mem1.inst.insert_event = mem.inst.insert_event ∧
      mem1.inst.remove_event = mem.inst.remove_event := by
  have hres : service_callback fuel reason header evs mem = some (VCHIQ_SUCCESS, mem, evs) := by
    unfold service_callback
    rw [if_pos h]
  refine ⟨hres, fun status mem1 rest h1 => ?_⟩
  rw [hres] at h1
  simp only [Option.some.injEq, Prod.mk.injEq] at h1
  obtain ⟨rfl, rfl, rfl⟩ := h1
  exact ⟨rfl, rfl, rfl, rfl, rfl, rfl, rfl, rfl, rfl, rfl, rfl⟩

/-- C17 at a message for an endpoint whose client is closing the instance. -/
theorem service_callback_dropped_witness :
    (memory_closing.user_service.instance_present = false ∨
      memory_closing.inst.closing ≠ 0) ∧
    service_callback 1 VCHIQ_MESSAGE_AVAILABLE (some 5) [] memory_closing =
      some (VCHIQ_SUCCESS, memory_closing, []) :=
  ⟨Or.inr (by decide),
   (service_callback_dropped 1 VCHIQ_MESSAGE_AVAILABLE (some 5) [] memory_closing
      (Or.inr (by decide))).1⟩

/-- C18: from an empty completion queue (`completion_insert` =
`completion_remove`), `MAX_COMPLETIONS` = 16 consecutive calls of `add_completion`
with no dequeue in between each return `VCHIQ_SUCCESS` without a wait on
`remove_event` (no event and no token of `remove_event` is taken), and
`completion_insert` has advanced by 16.  The 17th call waits: as long as the
other parties leave `completion_remove` (and `completion_insert`) alone it does
not return `VCHIQ_SUCCESS` and does not advance `completion_insert`; with no
token in `remove_event` and nobody to wake it, it does not return; and once the
consumer has advanced `completion_remove` during the sleep, it inserts and
returns `VCHIQ_SUCCESS`. -/
theorem add_completion_capacity (reasons : List VCHIQ_REASON_T)
    (evs : List dispatcher_event) (mem : dispatcher_memory)
    (hlen : reasons.length = 16)
    (hempty : mem.inst.completion_insert = mem.inst.completion_remove) :
    MAX_COMPLETIONS = 16 ∧
    ∃ mem16, add_completion_calls reasons evs mem =
        some (List.replicate 16 VCHIQ_SUCCESS, mem16, evs) ∧
      mem16.inst.completion_insert = mem.inst.completion_insert + 16 ∧
      mem16.inst.completion_remove = mem.inst.completion_remove ∧
      mem16.inst.remove_event = mem.inst.remove_event ∧
      (∀ reason header evs17 status mem17 rest,
        (∀ ev ∈ evs17, ∀ t,
          (t.inst.completion_insert = mem16.inst.completion_insert ∧
            t.inst.completion_remove = mem16.inst.completion_remove) →
          ((ev.others t).inst.completion_insert = mem16.inst.completion_insert ∧
            (ev.others t).inst.completion_remove = mem16.inst.completion_remove)) →
        add_completion reason header evs17 mem16 = some (status, mem17, rest) →
        status ≠ VCHIQ_SUCCESS ∧
        mem17.inst.completion_insert = mem16.inst.completion_insert) ∧
      (mem.inst.remove_event.count = 0 →
        ∀ reason header, add_completion reason header [] mem16 = none) ∧
      (mem.inst.remove_event.count = 0 →
        ∀ reason header ev rest, ev.result = wait_result.completed →
          (ev.others mem16).inst.closing = 0 →
          (ev.others mem16).inst.completion_insert = mem16.inst.completion_insert →
          (ev.others mem16).inst.completion_remove = mem16.inst.completion_remove + 1 →
          add_completion reason header (ev :: rest) mem16 =
            some (VCHIQ_SUCCESS, add_completion_insert reason (ev.others mem16), rest) ∧
          (add_completion_insert reason (ev.others mem16)).inst.completion_insert =
            mem16.inst.completion_insert + 1) := by
  obtain ⟨mem16, hc, h1, h2, h3, -⟩ := add_completion_calls_fit evs reasons mem
    (by rw [hempty, hlen]; simp [MAX_COMPLETIONS])
  rw [hlen] at hc h1
  have hfull : mem16.inst.completion_insert = mem16.inst.completion_remove + MAX_COMPLETIONS := by
    rw [h1, h2, hempty]; rfl
  refine ⟨rfl, mem16, hc, h1, h2, h3, ?_, ?_, ?_⟩
  · intro reason header evs17 status mem17 rest hev h
    obtain ⟨-, hout⟩ := add_completion_outcome
      (fun t => t.inst.completion_insert = mem16.inst.completion_insert ∧
        t.inst.completion_remove = mem16.inst.completion_remove)
      (fun m hm => hm) reason header evs17 mem16 status mem17 rest hev ⟨rfl, rfl⟩ h
    rcases hout with ⟨-, m, ⟨hm1, hm2⟩, hnf, -⟩ | ⟨rfl, ⟨hm1, -⟩, -⟩ | ⟨rfl, ⟨hm1, -⟩, -⟩
    · exact absurd (by unfold completion_queue_full; rw [hm1, hm2]; exact hfull) hnf
    · exact ⟨by decide, hm1⟩
    · exact ⟨by decide, hm1⟩
  · intro hcount reason header
    unfold add_completion
    rw [add_completion_wait_unfold]
    simp [hfull, down_interruptible, h3, hcount]
  · intro hcount reason header ev rest hr hcl hins hrem
    have hnf : ¬completion_queue_full (ev.others mem16) := by
      unfold completion_queue_full
      rw [hins, hrem, hfull]
      omega
    refine ⟨?_, ?_⟩
    · unfold add_completion
      rw [add_completion_wait_unfold]
      simp only [hfull, ↓reduceIte, down_interruptible, h3, hcount, lt_self_iff_false, hr,
        down_interruptible_sleep, ne_eq, not_true_eq_false, hcl]
      unfold completion_queue_full at hnf
      rw [add_completion_wait_unfold]
      simp only [hnf, ↓reduceIte]
    · rw [(add_completion_insert_fields reason (ev.others mem16)).1, hins]

/-- C18 at sixteen bulk completions added to `memory_empty`. -/
theorem add_completion_capacity_witness :
    (List.replicate 16 VCHIQ_BULK_TRANSMIT_DONE).length = 16 ∧
    memory_empty.inst.completion_insert = memory_empty.inst.completion_remove ∧
    ∃ mem16, add_completion_calls (List.replicate 16 VCHIQ_BULK_TRANSMIT_DONE) []
        memory_empty = some (List.replicate 16 VCHIQ_SUCCESS, mem16, []) ∧
      mem16.inst.completion_insert = memory_empty.inst.completion_insert + 16 ∧
      add_completion VCHIQ_BULK_TRANSMIT_DONE none [] mem16 = none :=
  ⟨rfl, rfl,
   match (add_completion_capacity (List.replicate 16 VCHIQ_BULK_TRANSMIT_DONE) []
      memory_empty rfl rfl).2 with
   | ⟨mem16, h1, h2, _, _, _, h6, _⟩ =>
     ⟨mem16, h1, h2, h6 rfl VCHIQ_BULK_TRANSMIT_DONE none⟩⟩

/-- C19: `add_completion` preserves the invariant 0 ≤ `completion_insert` −
`completion_remove` ≤ `MAX_COMPLETIONS`, for any events whose other parties
preserve it and leave `completion_insert` and `insert_event` to the producer.  On
`VCHIQ_SUCCESS` it has advanced `completion_insert` by exactly one and signaled
`insert_event` exactly once, and it did so in a memory (the one found at the
last test of the loop) in which `completion_insert` − `completion_remove` <
`MAX_COMPLETIONS`; on another status it has written neither.  With the queue
not full at the call it returns `VCHIQ_SUCCESS` at once. -/
theorem add_completion_ring_invariant (reason : VCHIQ_REASON_T) (header : Option Nat)
    (evs : List dispatcher_event) (mem : dispatcher_memory)
    (hI : completion_ring_invariant mem)
    (hev : ∀ ev ∈ evs, ∀ t, completion_ring_invariant t →
      completion_ring_invariant (ev.others t) ∧
      (ev.others t).inst.completion_insert = t.inst.completion_insert ∧
      (ev.others t).inst.insert_event = t.inst.insert_event) :
    (∀ status mem1 rest, add_completion reason header evs mem = some (status, mem1, rest) →
      completion_ring_invariant mem1 ∧
      (status = VCHIQ_SUCCESS →
        mem1.inst.completion_insert = mem.inst.completion_insert + 1 ∧
        mem1.inst.insert_event.count = mem.inst.insert_event.count + 1 ∧
        ∃ m, mem1 = add_completion_insert reason m ∧ completion_ring_invariant m ∧
          m.inst.completion_insert - m.inst.completion_remove < MAX_COMPLETIONS ∧
          m.inst.completion_insert = mem.inst.completion_insert ∧
          m.inst.completion_remove = mem1.inst.completion_remove) ∧
      (status ≠ VCHIQ_SUCCESS →
        mem1.inst.completion_insert = mem.inst.completion_insert ∧
        mem1.inst.insert_event = mem.inst.insert_event)) ∧
    (¬completion_queue_full mem →
      add_completion reason header evs mem =
        some (VCHIQ_SUCCESS, add_completion_insert reason mem, evs)) := by
  refine ⟨fun status mem1 rest h => ?_, add_completion_not_full reason header evs mem⟩
  obtain ⟨-, hout⟩ := add_completion_outcome
    (fun t => completion_ring_invariant t ∧
      t.inst.completion_insert = mem.inst.completion_insert ∧
      t.inst.insert_event = mem.inst.insert_event)
    (fun m hm => hm) reason header evs mem status mem1 rest
    (fun ev he t ht => by
      obtain ⟨h1, h2, h3⟩ := hev ev he t ht.1
      exact ⟨h1, h2.trans ht.2.1, h3.trans ht.2.2⟩)
    ⟨hI, rfl, rfl⟩ h
  rcases hout with ⟨rfl, m, ⟨hm1, hm2, hm3⟩, hnf, rfl⟩ | ⟨rfl, ⟨hm1, hm2, hm3⟩, -⟩ |
    ⟨rfl, ⟨hm1, hm2, hm3⟩, -⟩
  · obtain ⟨e1, e2, e3, -, -⟩ := add_completion_insert_fields reason m
    have hlt : m.inst.completion_insert - m.inst.completion_remove < MAX_COMPLETIONS := by
      unfold completion_queue_full at hnf
      unfold completion_ring_invariant at hm1
      omega
    refine ⟨?_, fun _ => ⟨by rw [e1, hm2], by rw [e3, hm3], m, rfl, hm1, hlt, hm2, e2.symm⟩,
      fun hne => absurd rfl hne⟩
    unfold completion_ring_invariant at hm1 ⊢
    rw [e1, e2]
    omega
  · exact ⟨hm1, fun hs => absurd hs (by decide), fun _ => ⟨hm2, hm3⟩⟩
  · exact ⟨hm1, fun hs => absurd hs (by decide), fun _ => ⟨hm2, hm3⟩⟩

/-- C19 at a call in `memory_full` that sleeps until the consumer has taken one
completion off the queue. -/
theorem add_completion_ring_invariant_witness :
    completion_ring_invariant memory_full ∧
    add_completion VCHIQ_MESSAGE_AVAILABLE none [sleep_dequeued] memory_full =
      some (VCHIQ_SUCCESS, memory_refilled, []) ∧
    completion_ring_invariant memory_refilled ∧
    memory_refilled.inst.completion_insert = memory_full.inst.completion_insert + 1 :=
  have h := (add_completion_ring_invariant VCHIQ_MESSAGE_AVAILABLE none [sleep_dequeued]
    memory_full (by decide)
    (fun ev he t ht => by
      rw [List.mem_singleton.mp he]
      unfold completion_ring_invariant at ht ⊢
      unfold sleep_dequeued
      by_cases hpos : 0 < t.inst.completion_insert - t.inst.completion_remove
      · simp only [hpos, ↓reduceIte]
        exact ⟨⟨by omega, by omega⟩, by trivial, by trivial⟩
      · simp only [hpos, ↓reduceIte]
        exact ⟨ht, by trivial, by trivial⟩)).1 VCHIQ_SUCCESS memory_refilled [] rfl
  ⟨by decide, rfl, h.1, (h.2.1 rfl).1⟩

/-- C20: when `add_completion` finds the completion queue full and waits on
`remove_event` (no token is at hand), then if the sleep is interrupted it
returns `VCHIQ_RETRY`, and if the sleep ends normally and `closing` is set it
returns `VCHIQ_ERROR`, in both cases at once and in the memory that the other
parties left; the same `VCHIQ_ERROR` when a token was at hand and `closing` is
set.  Whenever the call returns a status other than `VCHIQ_SUCCESS`, whatever
the events, it has not written `completion_insert`, `message_available_pos`,
`insert_event` or the reference count of the service: if the other parties leave
these alone, they are as at the call. -/
theorem add_completion_failure (reason : VCHIQ_REASON_T) (header : Option Nat)
    (mem : dispatcher_memory) (hfull : completion_queue_full mem) :
    (mem.inst.remove_event.count = 0 → ∀ ev rest,
      (ev.result = wait_result.interrupted →
        add_completion reason header (ev :: rest) mem =
          some (VCHIQ_RETRY, ev.others mem, rest)) ∧
      (ev.result = wait_result.completed → (ev.others mem).inst.closing ≠ 0 →
        add_completion reason header (ev :: rest) mem =
          some (VCHIQ_ERROR, ev.others mem, rest))) ∧
    (0 < mem.inst.remove_event.count → mem.inst.closing ≠ 0 → ∀ evs,
      add_completion reason header evs mem =
        some (VCHIQ_ERROR,
          set_instance_remove_event mem ⟨mem.inst.remove_event.count - 1⟩, evs)) ∧
    (∀ evs status mem1 rest,
      (∀ ev ∈ evs, ∀ t,
        (ev.others t).inst.completion_insert = t.inst.completion_insert ∧
        (ev.others t).user_service.message_available_pos =
          t.user_service.message_available_pos ∧
        (ev.others t).inst.insert_event = t.inst.insert_event ∧
        (ev.others t).service_ref_count = t.service_ref_count) →
      add_completion reason header evs mem = some (status, mem1, rest) →
      status ≠ VCHIQ_SUCCESS →
      (status = VCHIQ_RETRY ∨ status = VCHIQ_ERROR) ∧
      mem1.inst.completion_insert = mem.inst.completion_insert ∧
      mem1.user_service.message_available_pos = mem.user_service.message_available_pos ∧
      mem1.inst.insert_event = mem.inst.insert_event ∧
      mem1.service_ref_count = mem.service_ref_count) := by
  unfold completion_queue_full at hfull
  refine ⟨fun hcount ev rest => ⟨fun hr => ?_, fun hr hcl => ?_⟩, fun htok hcl evs => ?_,
    fun evs status mem1 rest hev h hne => ?_⟩
  · unfold add_completion
    rw [add_completion_wait_unfold]
    simp only [hfull, ↓reduceIte, down_interruptible, hcount, lt_self_iff_false, hr,
      down_interruptible_sleep]
    norm_num
  · unfold add_completion
    rw [add_completion_wait_unfold]
    simp only [hfull, ↓reduceIte, down_interruptible, hcount, lt_self_iff_false, hr,
      down_interruptible_sleep, ne_eq, not_true_eq_false, hcl, not_false_eq_true]
  · have hcl1 : (set_instance_remove_event mem
        ⟨mem.inst.remove_event.count - 1⟩).inst.closing ≠ 0 := hcl
    unfold add_completion
    rw [add_completion_wait_unfold]
    simp only [hfull, ↓reduceIte, down_interruptible, htok, ne_eq, not_true_eq_false, hcl1,
      not_false_eq_true]
  · obtain ⟨-, hout⟩ := add_completion_outcome
      (fun t => t.inst.completion_insert = mem.inst.completion_insert ∧
        t.user_service.message_available_pos = mem.user_service.message_available_pos ∧
        t.inst.insert_event = mem.inst.insert_event ∧
        t.service_ref_count = mem.service_ref_count)
      (fun m hm => hm) reason header evs mem status mem1 rest
      (fun ev he t ht => by
        obtain ⟨h1, h2, h3, h4⟩ := hev ev he t
        exact ⟨h1.trans ht.1, h2.trans ht.2.1, h3.trans ht.2.2.1, h4.trans ht.2.2.2⟩)
      ⟨rfl, rfl, rfl, rfl⟩ h
    rcases hout with ⟨rfl, -⟩ | ⟨rfl, hJ, -⟩ | ⟨rfl, hJ, -⟩
    · exact absurd rfl hne
    · exact ⟨Or.inl rfl, hJ⟩
    · exact ⟨Or.inr rfl, hJ⟩

/-- C20 at a call in `memory_full` whose sleep is interrupted. -/
theorem add_completion_failure_witness :
    completion_queue_full memory_full ∧
    add_completion VCHIQ_MESSAGE_AVAILABLE none [sleep_interrupted] memory_full =
      some (VCHIQ_RETRY, sleep_interrupted.others memory_full, []) :=
  ⟨by decide,
   ((add_completion_failure VCHIQ_MESSAGE_AVAILABLE none memory_full (by decide)).1 rfl
      sleep_interrupted []).1 rfl⟩

/-! ### `vchiq_arm_vcsuspend` twice, and the number of waits of a force suspend -/

/-- C22: `vchiq_arm_vcsuspend` always returns `VCHIQ_SUCCESS`.  With the suspend
state REQUESTED or IN_PROGRESS it changes nothing (state, events and poll
requests are as before).  From every other suspend state it leaves the suspend
state REQUESTED with suspend-complete unsignaled; for the suspend state IDLE
this takes that suspend-complete is unsignaled in that state, as
`set_suspend_state` leaves it whenever it sets IDLE.  A second call right after
the first returns the same status and state as the first. -/
theorem vcsuspend_idempotent {n : Nat} (state : VCHIQ_STATE_T n) :
    (vchiq_arm_vcsuspend state).1 = VCHIQ_SUCCESS ∧
    (state.arm_state.vc_suspend_state = VC_SUSPEND_REQUESTED ∨
        state.arm_state.vc_suspend_state = VC_SUSPEND_IN_PROGRESS →
      vchiq_arm_vcsuspend state = (VCHIQ_SUCCESS, state)) ∧
    (¬(state.arm_state.vc_suspend_state = VC_SUSPEND_REQUESTED ∨
        state.arm_state.vc_suspend_state = VC_SUSPEND_IN_PROGRESS) →
      (state.arm_state.vc_suspend_state = VC_SUSPEND_IDLE →
        state.arm_state.vc_suspend_complete.done = false) →
      (vchiq_arm_vcsuspend state).2.arm_state.vc_suspend_state = VC_SUSPEND_REQUESTED ∧
      (vchiq_arm_vcsuspend state).2.arm_state.vc_suspend_complete.done = false) ∧
    vchiq_arm_vcsuspend (vchiq_arm_vcsuspend state).2 = vchiq_arm_vcsuspend state := by
  obtain ⟨arm, svcs, pr, sent⟩ := state
  obtain ⟨a1, ss, rs, a4, a5, a6, a7, a8, a9, a10, a11, a12, a13, a14, a15, a16, a17⟩ := arm
  cases ss <;> refine ⟨rfl, ?_, ?_, rfl⟩ <;> intro h <;> simp at h <;> first
    | rfl
    | (intro _; exact ⟨rfl, rfl⟩)
    | (intro h1; exact ⟨rfl, h1 rfl⟩)

/-- C22 at the initial state (suspend state IDLE) and at the state that the first
call leaves (REQUESTED). -/
theorem vcsuspend_idempotent_witness :
    (state_at_init 2).arm_state.vc_suspend_state = VC_SUSPEND_IDLE ∧
    (state_at_init 2).arm_state.vc_suspend_complete.done = false ∧
    (vchiq_arm_vcsuspend (state_at_init 2)).2.arm_state.vc_suspend_state =
      VC_SUSPEND_REQUESTED ∧
    (vchiq_arm_vcsuspend (state_at_init 2)).2.arm_state.vc_suspend_complete.done = false ∧
    vchiq_arm_vcsuspend state_suspend_requested = (VCHIQ_SUCCESS, state_suspend_requested) :=
  ⟨rfl, rfl,
   ((vcsuspend_idempotent (state_at_init 2)).2.2.1 (by decide) (fun _ => rfl)).1,
   ((vcsuspend_idempotent (state_at_init 2)).2.2.1 (by decide) (fun _ => rfl)).2,
   (vcsuspend_idempotent state_suspend_requested).2.1 (Or.inl rfl)⟩

/-- C23, as stated, fails: the first wait on suspend-complete times out with the
suspend state REQUESTED, not IN_PROGRESS, and the wait is repeated all the same:
the second event is taken too (and the call of `vchiq_arm_force_suspend` returns
`VCHIQ_SUCCESS` since the remote side suspends during the second wait). -/
theorem force_suspend_repeats_when_requested :
    quiet_timeout.result = wait_result.timed_out ∧
    (quiet_timeout.others state_suspend_requested).arm_state.vc_suspend_state =
      VC_SUSPEND_REQUESTED ∧
    (vchiq_arm_force_suspend_wait (-1) [quiet_timeout, remote_suspends]
        state_suspend_requested).map (fun r => (r.1, r.2.2.length)) = some (none, 0) ∧
    (vchiq_arm_force_suspend (platform_unwanted 2) [quiet_timeout, remote_suspends]
        (state_at_init 2)).map (fun r => r.1) = some VCHIQ_SUCCESS := by
  exact ⟨rfl, rfl, rfl, rfl⟩

/-- C23, amended: the loop of `vchiq_arm_force_suspend` waits on suspend-complete
at most twice.  After the first wait has timed out it repeats the wait, once, if
and only if the suspend state at that moment is above IDLE (REQUESTED,
IN_PROGRESS or SUSPENDED); a timeout of the second wait, or of the first when
the suspend state is at or below IDLE, increments `autosuspend_override` by one
and gives `VCHIQ_RETRY`.  There is never a third wait: the loop takes one or
two events, and with two events at hand it always ends.  A status that the loop
gives is the status that `vchiq_arm_force_suspend` returns, after
`unblock_resume`. -/
theorem force_suspend_wait_twice {n : Nat} (evs : List (wait_event n))
    (state : VCHIQ_STATE_T n) :
    (∀ ev rest, evs = ev :: rest → ev.result = wait_result.timed_out →
      (ev.others state).arm_state.vc_suspend_state.toInt ≤ VC_SUSPEND_IDLE.toInt →
      vchiq_arm_force_suspend_wait (-1) evs state =
        some (some VCHIQ_RETRY,
          { (ev.others state) with arm_state :=
            { (ev.others state).arm_state with
              autosuspend_override :=
                (ev.others state).arm_state.autosuspend_override + 1 } }, rest)) ∧
    (∀ e1 e2 rest, evs = e1 :: e2 :: rest → e1.result = wait_result.timed_out →
      VC_SUSPEND_IDLE.toInt < (e1.others state).arm_state.vc_suspend_state.toInt →
      vchiq_arm_force_suspend_wait (-1) evs state =
        match e2.result with
        | wait_result.completed => some (none, e2.others (e1.others state), rest)
        | wait_result.interrupted =>
          some (some VCHIQ_ERROR, e2.others (e1.others state), rest)
        | wait_result.timed_out =>
          some (some VCHIQ_RETRY,
            { (e2.others (e1.others state)) with arm_state :=
              { (e2.others (e1.others state)).arm_state with
                autosuspend_override :=
                  (e2.others (e1.others state)).arm_state.autosuspend_override + 1 } },
            rest)) ∧
    (∀ ev rest, evs = ev :: rest → ev.result ≠ wait_result.timed_out →
      vchiq_arm_force_suspend_wait (-1) evs state =
        some (if ev.result = wait_result.interrupted then some VCHIQ_ERROR else none,
          ev.others state, rest)) ∧
    (∀ r s rest, vchiq_arm_force_suspend_wait (-1) evs state = some (r, s, rest) →
      rest = evs.drop 1 ∨ rest = evs.drop 2) ∧
    (2 ≤ evs.length → (vchiq_arm_force_suspend_wait (-1) evs state).isSome = true) ∧
    (∀ (P : platform_ops n) (all : List (wait_event n)) (entry bs : VCHIQ_STATE_T n),
      block_resume all entry = some (VCHIQ_SUCCESS, bs, evs) →
      bs.arm_state.vc_suspend_state ≠ VC_SUSPEND_SUSPENDED →
      state = (vchiq_arm_force_suspend_start P bs).2 →
      ∀ status s rest,
        vchiq_arm_force_suspend_wait (-1) evs state = some (some status, s, rest) →
        vchiq_arm_force_suspend P all entry =
          some (status, { s with arm_state := unblock_resume s.arm_state })) := by
  have h1 : ∀ ev rest, ev.result = wait_result.timed_out →
      (ev.others state).arm_state.vc_suspend_state.toInt ≤ VC_SUSPEND_IDLE.toInt →
      vchiq_arm_force_suspend_wait (-1) (ev :: rest) state =
        some (some VCHIQ_RETRY,
          { (ev.others state) with arm_state :=
            { (ev.others state).arm_state with
              autosuspend_override :=
                (ev.others state).arm_state.autosuspend_override + 1 } }, rest) := by
    intro ev rest ht hle
    rw [vchiq_arm_force_suspend_wait]
    simp only [ht, wait_for_completion_interruptible_timeout]
    have hng : ¬ ((ev.others state).arm_state.vc_suspend_state.toInt
        > VC_SUSPEND_IDLE.toInt) := not_lt.mpr hle
    norm_num [hng]
  have h2 : ∀ e1 e2 rest, e1.result = wait_result.timed_out →
      VC_SUSPEND_IDLE.toInt < (e1.others state).arm_state.vc_suspend_state.toInt →
      vchiq_arm_force_suspend_wait (-1) (e1 :: e2 :: rest) state =
        match e2.result with
        | wait_result.completed => some (none, e2.others (e1.others state), rest)
        | wait_result.interrupted =>
          some (some VCHIQ_ERROR, e2.others (e1.others state), rest)
        | wait_result.timed_out =>
          some (some VCHIQ_RETRY,
            { (e2.others (e1.others state)) with arm_state :=
              { (e2.others (e1.others state)).arm_state with
                autosuspend_override :=
                  (e2.others (e1.others state)).arm_state.autosuspend_override + 1 } },
            rest) := by
    intro e1 e2 rest ht hgt
    rw [vchiq_arm_force_suspend_wait]
    simp only [ht, wait_for_completion_interruptible_timeout]
    norm_num [hgt]
    rw [vchiq_arm_force_suspend_wait]
    cases hr : e2.result <;>
      simp only [hr, wait_for_completion_interruptible_timeout] <;> norm_num
  have h3 : ∀ ev rest, ev.result ≠ wait_result.timed_out →
      vchiq_arm_force_suspend_wait (-1) (ev :: rest) state =
        some (if ev.result = wait_result.interrupted then some VCHIQ_ERROR else none,
          ev.others state, rest) := by
    intro ev rest hne
    rw [vchiq_arm_force_suspend_wait]
    cases hr : ev.result with
    | completed => simp only [wait_for_completion_interruptible_timeout]; norm_num; rfl
    | timed_out => exact absurd hr hne
    | interrupted => simp only [wait_for_completion_interruptible_timeout]; norm_num
  refine ⟨fun ev rest he => he ▸ h1 ev rest, fun e1 e2 rest he => he ▸ h2 e1 e2 rest,
    fun ev rest he => he ▸ h3 ev rest, ?_, ?_, ?_⟩
  rotate_left 2
  · intro P all entry bs hb hns hst status s rest hw
    rw [force_suspend_after_block P all entry bs evs hb]
    simp only [hns, ↓reduceIte, ← hst, hw]
  · intro r s rest h
    cases evs with
    | nil => simp [vchiq_arm_force_suspend_wait] at h
    | cons e1 evs1 =>
      by_cases ht : e1.result = wait_result.timed_out
      · by_cases hgt : VC_SUSPEND_IDLE.toInt <
            (e1.others state).arm_state.vc_suspend_state.toInt
        · cases evs1 with
          | nil =>
            rw [vchiq_arm_force_suspend_wait] at h
            simp only [ht, wait_for_completion_interruptible_timeout] at h
            norm_num [hgt] at h
            simp [vchiq_arm_force_suspend_wait] at h
          | cons e2 evs2 =>
            rw [h2 e1 e2 evs2 ht hgt] at h
            cases hr : e2.result <;> simp only [hr, Option.some.injEq, Prod.mk.injEq] at h <;>
              exact Or.inr h.2.2.symm
        · rw [h1 e1 evs1 ht (not_lt.mp hgt)] at h
          simp only [Option.some.injEq, Prod.mk.injEq] at h
          exact Or.inl h.2.2.symm
      · rw [h3 e1 evs1 ht] at h
        simp only [Option.some.injEq, Prod.mk.injEq] at h
        exact Or.inl h.2.2.symm
  · intro hlen
    match evs, hlen with
    | e1 :: e2 :: rest, _ =>
      by_cases ht : e1.result = wait_result.timed_out
      · by_cases hgt : VC_SUSPEND_IDLE.toInt <
            (e1.others state).arm_state.vc_suspend_state.toInt
        · rw [h2 e1 e2 rest ht hgt]
          cases e2.result <;> rfl
        · rw [h1 e1 (e2 :: rest) ht (not_lt.mp hgt)]; rfl
      · rw [h3 e1 (e2 :: rest) ht]; rfl

/-- C23 at a loop whose first wait times out with the suspend state REQUESTED and
whose second wait times out as well. -/
theorem force_suspend_wait_twice_witness :
    quiet_timeout.result = wait_result.timed_out ∧
    VC_SUSPEND_IDLE.toInt <
      (quiet_timeout.others state_suspend_requested).arm_state.vc_suspend_state.toInt ∧
    (vchiq_arm_force_suspend_wait (-1) [quiet_timeout, quiet_timeout, remote_suspends]
        state_suspend_requested).map (fun r => (r.1, r.2.2.length)) =
      some (some VCHIQ_RETRY, 1) :=
  ⟨rfl, by decide,
   by rw [(force_suspend_wait_twice [quiet_timeout, quiet_timeout, remote_suspends]
      state_suspend_requested).2.1 quiet_timeout quiet_timeout [remote_suspends] rfl rfl
      (by decide)]; rfl⟩

/-! ### Blocked callers and failed calls of `vchiq_use_internal` -/

/-- C26: in `vchiq_use_internal`, a pass of the loop that sleeps on the resume
blocker and is released makes the step `vchiq_use_internal_block`
(`blocked_count` + 1) once before the sleep and the step
`vchiq_use_internal_unblock` (`blocked_count` − 1) once after it, and this step
calls `complete_all` on `blocked_blocker` if and only if it brings
`blocked_count` to 0.  For two callers blocked during one resume-block, in every
order of their steps, `blocked_count` goes from 0 to 1, 2, 1, 0 and
`blocked_blocker` is signaled exactly once, by the caller that is released
last. -/
theorem blocked_count_two_callers :
    (∀ (n : Nat) (ev : wait_event n) (rest : List (wait_event n)) (state : VCHIQ_STATE_T n),
      state.arm_state.resume_blocked ≠ 0 →
      state.arm_state.vc_suspend_state ≠ VC_SUSPEND_IDLE →
      state.arm_state.resume_blocker.done = false →
      ev.result = wait_result.completed →
      vchiq_use_internal_blocked (ev :: rest) state =
        vchiq_use_internal_blocked rest
          { (ev.others { state with
              arm_state := vchiq_use_internal_block state.arm_state }) with
            arm_state := (vchiq_use_internal_unblock (ev.others { state with
              arm_state := vchiq_use_internal_block state.arm_state }).arm_state).2 }) ∧
    (∀ arm_state : VCHIQ_ARM_STATE_T,
      (vchiq_use_internal_block arm_state).blocked_count = arm_state.blocked_count + 1 ∧
      (vchiq_use_internal_unblock arm_state).2.blocked_count = arm_state.blocked_count - 1 ∧
      ((vchiq_use_internal_unblock arm_state).1 = true ↔
        (vchiq_use_internal_unblock arm_state).2.blocked_count = 0) ∧
      ((vchiq_use_internal_unblock arm_state).1 = false →
        (vchiq_use_internal_unblock arm_state).2.blocked_blocker =
          arm_state.blocked_blocker)) ∧
    (∀ (a c : blocked_caller) (arm_state : VCHIQ_ARM_STATE_T),
      arm_state.blocked_count = 0 →
      (run_blocked_steps (two_blocked_schedule a c) arm_state).1 = [1, 2, 1, 0] ∧
      (run_blocked_steps (two_blocked_schedule a c) arm_state).2.1 =
        [if c = blocked_caller.first then blocked_caller.second
          else blocked_caller.first] ∧
      (run_blocked_steps (two_blocked_schedule a c) arm_state).2.2.blocked_blocker.done =
        true) := by
  refine ⟨?_, ?_, ?_⟩
  · intro n ev rest state hb hi hd hr
    rw [blocked_cons ev rest state hb hi hd]
    simp only [hr, wait_for_completion_killable, ne_eq, not_true_eq_false, ↓reduceIte,
      vchiq_use_internal_block, vchiq_use_internal_unblock]
    split_ifs <;> rfl
  · intro arm_state
    unfold vchiq_use_internal_block vchiq_use_internal_unblock
    refine ⟨rfl, ?_, ?_, ?_⟩
    · dsimp only; split_ifs <;> rfl
    · dsimp only; split_ifs with h0
      · exact ⟨fun _ => h0, fun _ => rfl⟩
      · exact ⟨fun h => absurd h (by decide), fun h => absurd h h0⟩
    · dsimp only; split_ifs
      · intro h; exact absurd h (by decide)
      · intro _; rfl
  · intro a c arm_state h0
    cases a <;> cases c <;>
      simp [two_blocked_schedule, run_blocked_steps, vchiq_use_internal_block,
        vchiq_use_internal_unblock, h0, complete_all]

/-- C26 at a first caller that sleeps on the resume blocker of a force-suspended
link while a second caller blocks and resume is then unblocked: the first caller
leaves `blocked_count` at 1 without a signal, the second brings it to 0 and
signals `blocked_blocker`. -/
theorem blocked_count_two_callers_witness :
    state_force_suspended.arm_state.resume_blocked ≠ 0 ∧
    state_force_suspended.arm_state.vc_suspend_state ≠ VC_SUSPEND_IDLE ∧
    state_force_suspended.arm_state.resume_blocker.done = false ∧
    second_blocks_then_release.result = wait_result.completed ∧
    vchiq_use_internal_blocked [second_blocks_then_release] state_force_suspended =
      vchiq_use_internal_blocked []
        { (second_blocks_then_release.others { state_force_suspended with
            arm_state := vchiq_use_internal_block state_force_suspended.arm_state }) with
          arm_state := (vchiq_use_internal_unblock (second_blocks_then_release.others
            { state_force_suspended with
              arm_state :=
                vchiq_use_internal_block state_force_suspended.arm_state }).arm_state).2 } ∧
    state_first_drained.arm_state.blocked_count = 1 ∧
    (vchiq_use_internal_unblock state_first_drained.arm_state).1 = true ∧
    (vchiq_use_internal_unblock state_first_drained.arm_state).2.blocked_count = 0 :=
  ⟨by decide, by decide, rfl, rfl,
   blocked_count_two_callers.1 2 second_blocks_then_release [] state_force_suspended
     (by decide) (by decide) rfl rfl,
   rfl, rfl, rfl⟩

/-- The loop on the resume blocker leaves `blocked_count`, `videocore_use_count`
and every entity use count as they were, when the other parties leave them
alone during its sleeps. -/
theorem blocked_loop_counts {n : Nat} (evs : List (wait_event n)) :
    ∀ (state : VCHIQ_STATE_T n) (ret : VCHIQ_STATUS_T) (s' : VCHIQ_STATE_T n)
      (rest : List (wait_event n)),
      (∀ ev ∈ evs, ∀ t,
        (ev.others t).arm_state.blocked_count = t.arm_state.blocked_count ∧
        (ev.others t).arm_state.videocore_use_count = t.arm_state.videocore_use_count ∧
        ∀ e, entity_uc (ev.others t) e = entity_uc t e) →
      vchiq_use_internal_blocked evs state = some (ret, s', rest) →
      s'.arm_state.blocked_count = state.arm_state.blocked_count ∧
      s'.arm_state.videocore_use_count = state.arm_state.videocore_use_count ∧
      ∀ e, entity_uc s' e = entity_uc state e := by
  induction evs with
  | nil =>
    intro state ret s' rest _ h
    by_cases hb : state.arm_state.resume_blocked = 0
    · rw [blocked_not_blocked _ _ hb] at h
      simp only [Option.some.injEq, Prod.mk.injEq] at h
      obtain ⟨rfl, rfl, rfl⟩ := h
      exact ⟨rfl, rfl, fun _ => rfl⟩
    · by_cases hi : state.arm_state.vc_suspend_state = VC_SUSPEND_IDLE
      · rw [blocked_idle _ _ hb hi] at h
        simp only [Option.some.injEq, Prod.mk.injEq] at h
        obtain ⟨rfl, rfl, rfl⟩ := h
        exact ⟨rfl, rfl, fun e => by cases e <;> rfl⟩
      · rw [blocked_nil _ hb hi] at h
        exact absurd h (by simp)
  | cons ev evs ih =>
    intro state ret s' rest hev h
    by_cases hb : state.arm_state.resume_blocked = 0
    · rw [blocked_not_blocked _ _ hb] at h
      simp only [Option.some.injEq, Prod.mk.injEq] at h
      obtain ⟨rfl, rfl, rfl⟩ := h
      exact ⟨rfl, rfl, fun _ => rfl⟩
    · by_cases hi : state.arm_state.vc_suspend_state = VC_SUSPEND_IDLE
      · rw [blocked_idle _ _ hb hi] at h
        simp only [Option.some.injEq, Prod.mk.injEq] at h
        obtain ⟨rfl, rfl, rfl⟩ := h
        exact ⟨rfl, rfl, fun e => by cases e <;> rfl⟩
      · cases hd : state.arm_state.resume_blocker.done with
        | true =>
          rw [blocked_spin _ _ hb hi hd] at h
          exact absurd h (by simp)
        | false =>
          rw [blocked_cons _ _ _ hb hi hd] at h
          obtain ⟨k1, k2, k3⟩ := hev ev (List.mem_cons_self _ _) { state with arm_state :=
              { state.arm_state with blocked_count := state.arm_state.blocked_count + 1 } }
          have k3' : ∀ e, entity_uc (ev.others { state with arm_state :=
              { state.arm_state with blocked_count := state.arm_state.blocked_count + 1 } }) e =
              entity_uc state e := fun e => by rw [k3 e]; cases e <;> rfl
          cases hr : ev.result with
          | completed =>
            simp only [hr, wait_for_completion_killable, ne_eq, not_true_eq_false,
              ↓reduceIte] at h
            obtain ⟨h1, h2, h3⟩ := ih _ ret s' rest
              (fun e he => hev e (List.mem_cons_of_mem _ he)) h
            refine ⟨?_, ?_, fun e => ?_⟩
            · rw [h1]; split_ifs <;> simp only [k1] <;> ring
            · rw [h2]; split_ifs <;> exact k2
            · rw [h3 e, ← k3' e]; split_ifs <;> cases e <;> rfl
          | timed_out =>
            simp only [hr, wait_for_completion_killable] at h
            exact absurd h (by simp)
          | interrupted =>
            simp only [hr, wait_for_completion_killable] at h
            simp only [ne_eq, Int.reduceNeg, neg_eq_zero, OfNat.ofNat_ne_zero, not_false_eq_true,
              ↓reduceIte, Option.some.injEq, Prod.mk.injEq] at h
            obtain ⟨rfl, rfl, rfl⟩ := h
            refine ⟨?_, k2, fun e => ?_⟩
            · simp only [k1]; ring
            · rw [← k3' e]; cases e <;> rfl

/-- C28, as stated, fails: on a suspended link a use of service 0 counts the use
(`videocore_use_count` and the use count of service 0 go from 0 to 1), requests
the resume and waits on resume-complete; when that wait is interrupted the call
returns `VCHIQ_ERROR` with both counts still 1. -/
theorem use_internal_error_keeps_count :
    state_suspended.arm_state.videocore_use_count = 0 ∧
    entity_uc state_suspended (some 0) = 0 ∧
    (vchiq_use_internal (platform_wanted 2) [quiet_interrupt] state_suspended (some 0)
        USE_TYPE_SERVICE).map
        (fun r => (r.1, r.2.arm_state.videocore_use_count, entity_uc r.2 (some 0))) =
      some (VCHIQ_ERROR, 1, 1) := by
  exact ⟨rfl, rfl, rfl⟩

/-- C28, amended: when `vchiq_use_internal` returns `VCHIQ_ERROR` and the other
parties leave the use counts and `blocked_count` alone during its sleeps,
`blocked_count` is as on entry.  If the error is the null target, the state is
untouched; if it comes from the loop on the resume blocker (interrupted wait),
`videocore_use_count` and every entity use count are as on entry; if it comes
from the wait on resume-complete (interrupted), the use has been counted and is
not taken back: `videocore_use_count` and the use count of the target are one
above their values on entry, the other use counts are as on entry. -/
theorem use_internal_error_counts {n : Nat} (P : platform_ops n)
    (evs : List (wait_event n)) (state : VCHIQ_STATE_T n) (service : Option (Fin n))
    (use_type : USE_TYPE_E) (s1 : VCHIQ_STATE_T n)
    (hev : ∀ ev ∈ evs, ∀ t,
      (ev.others t).arm_state.blocked_count = t.arm_state.blocked_count ∧
      (ev.others t).arm_state.videocore_use_count = t.arm_state.videocore_use_count ∧
      ∀ e, entity_uc (ev.others t) e = entity_uc t e)
    (h : vchiq_use_internal P evs state service use_type = some (VCHIQ_ERROR, s1)) :
    s1.arm_state.blocked_count = state.arm_state.blocked_count ∧
    ((vchiq_use_internal_entity service use_type = none ∧ s1 = state) ∨
     ((∃ rest, vchiq_use_internal_blocked evs state = some (VCHIQ_ERROR, s1, rest)) ∧
        s1.arm_state.videocore_use_count = state.arm_state.videocore_use_count ∧
        ∀ e, entity_uc s1 e = entity_uc state e) ∨
     (∃ entity bs rest, vchiq_use_internal_entity service use_type = some entity ∧
        vchiq_use_internal_blocked evs state = some (VCHIQ_SUCCESS, bs, rest) ∧
        (∃ ev ∈ rest, ev.result = wait_result.interrupted) ∧
        s1.arm_state.videocore_use_count = state.arm_state.videocore_use_count + 1 ∧
        ∀ e, entity_uc s1 e =
          if e = entity then entity_uc state entity + 1 else entity_uc state e)) := by
  unfold vchiq_use_internal at h
  simp only [vchiq_platform_get_arm_state] at h
  cases he : vchiq_use_internal_entity service use_type with
  | none =>
    simp only [he, Option.some.injEq, Prod.mk.injEq, true_and] at h
    subst h
    exact ⟨rfl, Or.inl ⟨rfl, rfl⟩⟩
  | some entity =>
    simp only [he] at h
    cases hb : vchiq_use_internal_blocked evs state with
    | none => simp [hb] at h
    | some res =>
      obtain ⟨ret, bs, rest⟩ := res
      obtain ⟨b1, b2, b3⟩ := blocked_loop_counts evs state ret bs rest hev hb
      obtain ⟨-, hsuf, -⟩ := blocked_loop_outcome (fun _ => True) (fun _ _ _ _ => trivial)
        evs state ret bs rest (fun _ _ _ _ => trivial) trivial hb
      cases ret with
      | VCHIQ_ERROR =>
        simp only [hb, Option.some.injEq, Prod.mk.injEq, true_and] at h
        subst h
        exact ⟨b1, Or.inr (Or.inl ⟨⟨rest, rfl⟩, b2, b3⟩)⟩
      | VCHIQ_RETRY =>
        simp only [hb, Option.some.injEq, Prod.mk.injEq] at h
        exact absurd h.1 (by decide)
      | VCHIQ_SUCCESS =>
        simp only [hb] at h
        have hl1 := locked_videocore_use_count P bs entity use_type
        have hl2 := locked_entity_uc P bs entity use_type
        have hl3 : (vchiq_use_internal_locked P bs entity use_type).arm_state.blocked_count =
            bs.arm_state.blocked_count := by
          obtain ⟨arm, svcs, pr, sent⟩ := bs
          cases entity <;>
            simp only [vchiq_use_internal_locked, set_entity_uc, entity_uc, stop_suspend_timer,
              set_suspend_state, set_resume_state, request_poll] <;>
            split_ifs <;> rfl
        unfold vchiq_use_internal_wait_resume at h
        cases hd : (vchiq_use_internal_locked P bs entity
            use_type).arm_state.vc_resume_complete.done with
        | true =>
          simp [try_wait_for_completion, hd] at h
        | false =>
          cases rest with
          | nil => simp [try_wait_for_completion, hd] at h
          | cons ev rest1 =>
            have hmem : ev ∈ evs := hsuf.subset (List.mem_cons_self _ _)
            obtain ⟨k1, k2, k3⟩ := hev ev hmem (vchiq_use_internal_locked P bs entity use_type)
            cases hr : ev.result with
            | completed =>
              simp [try_wait_for_completion, hd, hr, wait_for_completion_killable] at h
            | timed_out =>
              simp [try_wait_for_completion, hd, hr, wait_for_completion_killable] at h
            | interrupted =>
              simp [try_wait_for_completion, hd, hr, wait_for_completion_killable] at h
              subst h
              refine ⟨by rw [k1, hl3, b1], Or.inr (Or.inr ⟨entity, bs, ev :: rest1, rfl, rfl,
                ⟨ev, List.mem_cons_self _ _, hr⟩, by rw [k2, hl1, b2], fun e => ?_⟩)⟩
              rw [k3 e, hl2 e, b3 entity, b3 e]

/-- C28 at the use of service 0 on a suspended link whose wait on resume-complete
is interrupted. -/
theorem use_internal_error_counts_witness :
    vchiq_use_internal (platform_wanted 2) [quiet_interrupt] state_suspended (some 0)
      USE_TYPE_SERVICE = some (VCHIQ_ERROR, state_use_interrupted) ∧
    state_use_interrupted.arm_state.blocked_count =
      state_suspended.arm_state.blocked_count ∧
    state_use_interrupted.arm_state.videocore_use_count =
      state_suspended.arm_state.videocore_use_count + 1 :=
  ⟨rfl,
   (use_internal_error_counts (platform_wanted 2) [quiet_interrupt] state_suspended (some 0)
      USE_TYPE_SERVICE state_use_interrupted
      (fun ev he t => by rw [List.mem_singleton.mp he]; exact ⟨rfl, rfl, fun _ => rfl⟩)
      rfl).1,
   rfl⟩

/-! ### The mailbox interrupt handler -/

/-- C30: the test `chan > MBOX_CHAN_COUNT` of `bcm2835_mbox_irq` lets the channel
number 9 through.  A message whose low four bits are 9 makes the handler index
`chan[9]` in an array of `MBOX_CHAN_COUNT` = 9 entries, while a message with
channel 10 is rejected and one with channel 8 is stored.  For an array of 9
entries, the loop body indexes outside the array exactly for the messages of
channel 9. -/
theorem mbox_irq_channel_nine :
    MBOX_CHAN 0x19 = 9 ∧ mbox_idle.chan.length = MBOX_CHAN_COUNT ∧
    bcm2835_mbox_irq [0x19] mbox_idle = Except.error 9 ∧
    bcm2835_mbox_irq [0x1a] mbox_idle = Except.ok (false, mbox_idle) ∧
    bcm2835_mbox_irq [0x18] mbox_idle =
      Except.ok (true, { chan := mbox_idle.chan.set 8 { msg := 0x18, comp := ⟨true⟩ } }) ∧
    (∀ (mbox : bcm2835_mbox) (ret : Bool) (msg : Nat),
      mbox.chan.length = MBOX_CHAN_COUNT →
      ((∃ index, bcm2835_mbox_irq_message mbox ret msg = Except.error index) ↔
        MBOX_CHAN msg = MBOX_CHAN_COUNT)) := by
  refine ⟨by decide, rfl, rfl, rfl, rfl, ?_⟩
  intro mbox ret msg hlen
  unfold bcm2835_mbox_irq_message
  simp only
  by_cases hgt : MBOX_CHAN msg > MBOX_CHAN_COUNT
  · simp only [hgt, ↓reduceIte]
    constructor
    · rintro ⟨index, h⟩; cases h
    · intro h; omega
  · simp only [hgt, ↓reduceIte]
    by_cases heq : MBOX_CHAN msg = MBOX_CHAN_COUNT
    · have hnone : mbox.chan.get? (MBOX_CHAN msg) = none := by
        rw [List.get?_eq_none]; omega
      rw [heq] at hnone
      simp only [heq, hnone]
      exact ⟨fun _ => trivial, fun _ => ⟨_, rfl⟩⟩
    · have hlt : MBOX_CHAN msg < mbox.chan.length := by omega
      rw [List.get?_eq_get hlt]
      simp only [heq, iff_false, not_exists]
      intro index h
      split_ifs at h

/-! ### The events mirror the states -/

/-- The property `events_mirror_states` reads the two state variables and their
two events only. -/
theorem mirror_of_same (a b : VCHIQ_ARM_STATE_T)
    (h1 : b.vc_suspend_state = a.vc_suspend_state)
    (h2 : b.vc_resume_state = a.vc_resume_state)
    (h3 : b.vc_suspend_complete = a.vc_suspend_complete)
    (h4 : b.vc_resume_complete = a.vc_resume_complete)
    (h : events_mirror_states a) : events_mirror_states b := by
  unfold events_mirror_states at h ⊢
  rw [h1, h2, h3, h4]
  exact h

/-- The function `set_suspend_state` keeps the events in step with the states; for
REQUESTED and IN_PROGRESS, which do not write suspend-complete, this takes a
suspend state whose event is unsignaled. -/
theorem mirror_set_suspend_state (a : VCHIQ_ARM_STATE_T) (new_state : vc_suspend_status)
    (h : events_mirror_states a)
    (hnew : new_state = VC_SUSPEND_REQUESTED ∨ new_state = VC_SUSPEND_IN_PROGRESS →
      a.vc_suspend_state = VC_SUSPEND_IDLE ∨ a.vc_suspend_state = VC_SUSPEND_REQUESTED ∨
        a.vc_suspend_state = VC_SUSPEND_IN_PROGRESS) :
    events_mirror_states (set_suspend_state a new_state) := by
  obtain ⟨a1, ss, rs, ⟨sc⟩, ⟨rc⟩, a6, a7, a8, a9, a10, a11, a12, a13, a14, a15, a16, a17⟩ := a
  unfold events_mirror_states at h ⊢
  cases new_state <;> cases ss <;>
    simp [set_suspend_state, set_resume_state, complete_all, INIT_COMPLETION] at h hnew ⊢ <;>
    first
      | exact h
      | exact h.1
      | exact h.2

/-- The function `set_resume_state` keeps the events in step with the states; for
REQUESTED, IN_PROGRESS and FAILED, which do not write resume-complete, this takes
a resume state other than RESUMED. -/
theorem mirror_set_resume_state (a : VCHIQ_ARM_STATE_T) (new_state : vc_resume_status)
    (h : events_mirror_states a)
    (hnew : new_state = VC_RESUME_REQUESTED ∨ new_state = VC_RESUME_IN_PROGRESS ∨
      new_state = VC_RESUME_FAILED → a.vc_resume_state ≠ VC_RESUME_RESUMED) :
    events_mirror_states (set_resume_state a new_state) := by
  obtain ⟨a1, ss, rs, ⟨sc⟩, ⟨rc⟩, a6, a7, a8, a9, a10, a11, a12, a13, a14, a15, a16, a17⟩ := a
  unfold events_mirror_states at h ⊢
  cases new_state <;>
    simp [set_resume_state, set_suspend_state_IDLE, complete_all, INIT_COMPLETION] at h hnew ⊢ <;>
    first
      | exact h
      | exact h.2
      | simp_all

/-- A platform call keeps the events in step with the states. -/
theorem mirror_platform_call (c : platform_call) (a : VCHIQ_ARM_STATE_T)
    (h : events_mirror_states a) : events_mirror_states (c.run a) := by
  cases c
  · exact mirror_set_suspend_state a _ h (fun hn => by rcases hn with hn | hn <;> cases hn)
  · exact mirror_set_suspend_state a _ h (fun hn => by rcases hn with hn | hn <;> cases hn)
  · exact mirror_set_suspend_state a _ h (fun hn => by rcases hn with hn | hn <;> cases hn)
  · exact mirror_set_resume_state a _ h (fun hn => by rcases hn with hn | hn | hn <;> cases hn)

/-- A list of platform calls keeps the events in step with the states. -/
theorem mirror_platform_calls {n : Nat} (calls : List platform_call) :
    ∀ state : VCHIQ_STATE_T n, events_mirror_states state.arm_state →
      events_mirror_states (run_platform_calls calls state).arm_state := by
  induction calls with
  | nil => intro state h; exact h
  | cons c calls ih =>
    intro state h
    rw [run_platform_calls]
    exact ih _ (mirror_platform_call c _ h)

/-- The state after `vchiq_arm_init_state` has the events in step with the
states. -/
theorem mirror_init_state (a : VCHIQ_ARM_STATE_T) :
    events_mirror_states (vchiq_arm_init_state a) := by
  obtain ⟨a1, ss, rs, ⟨sc⟩, ⟨rc⟩, a6, a7, a8, a9, a10, a11, a12, a13, a14, a15, a16, a17⟩ := a
  simp [events_mirror_states, vchiq_arm_init_state, set_resume_state, set_suspend_state_IDLE,
    complete_all, INIT_COMPLETION, init_completion]

/-- The function `vchiq_arm_vcsuspend` keeps the events in step with the states. -/
theorem mirror_vcsuspend {n : Nat} (state : VCHIQ_STATE_T n)
    (h : events_mirror_states state.arm_state) :
    events_mirror_states (vchiq_arm_vcsuspend state).2.arm_state := by
  obtain ⟨arm, svcs, pr, sent⟩ := state
  obtain ⟨a1, ss, rs, ⟨sc⟩, ⟨rc⟩, a6, a7, a8, a9, a10, a11, a12, a13, a14, a15, a16, a17⟩ := arm
  unfold events_mirror_states at h ⊢
  cases ss <;>
    simp [vchiq_arm_vcsuspend, vchiq_platform_get_arm_state, request_poll, set_suspend_state,
      complete_all, INIT_COMPLETION] at h ⊢ <;>
    first
      | exact h
      | exact h.1

/-- The function `need_resume` holds only with a resume state below REQUESTED. -/
theorem need_resume_not_resumed {n : Nat} (P : platform_ops n) (state : VCHIQ_STATE_T n)
    (h : need_resume P state = true) :
    state.arm_state.vc_resume_state ≠ VC_RESUME_RESUMED := by
  intro hr
  unfold need_resume at h
  simp only [vchiq_platform_get_arm_state, hr] at h
  revert h
  simp [vc_resume_status.toInt]

/-- The function `vchiq_check_resume` keeps the events in step with the states. -/
theorem mirror_check_resume {n : Nat} (P : platform_ops n) (state : VCHIQ_STATE_T n)
    (h : events_mirror_states state.arm_state) :
    events_mirror_states (vchiq_check_resume P state).2.arm_state := by
  unfold vchiq_check_resume
  simp only [vchiq_platform_get_arm_state]
  split_ifs with hn
  · exact mirror_set_resume_state _ _ h (fun _ => need_resume_not_resumed P state hn)
  · exact h

/-- The function `vchiq_check_suspend` keeps the events in step with the states. -/
theorem mirror_check_suspend {n : Nat} (P : platform_ops n) (state : VCHIQ_STATE_T n)
    (h : events_mirror_states state.arm_state) :
    events_mirror_states (vchiq_check_suspend P state).arm_state := by
  unfold vchiq_check_suspend
  simp only [vchiq_platform_get_arm_state]
  split_ifs
  · exact mirror_vcsuspend state h
  · exact h

/-- The function `vchiq_platform_check_suspend` keeps the events in step with the
states. -/
theorem mirror_platform_check_suspend {n : Nat} (calls : List platform_call)
    (state : VCHIQ_STATE_T n) (h : events_mirror_states state.arm_state) :
    events_mirror_states (vchiq_platform_check_suspend calls state).arm_state := by
  unfold vchiq_platform_check_suspend
  simp only [vchiq_platform_get_arm_state]
  split_ifs with hc
  · exact mirror_platform_calls calls _
      (mirror_set_suspend_state _ _ h (fun _ => Or.inr (Or.inl hc.1)))
  · exact h

/-- The function `vchiq_platform_check_resume` keeps the events in step with the
states. -/
theorem mirror_platform_check_resume {n : Nat} (calls : List platform_call)
    (state : VCHIQ_STATE_T n) (h : events_mirror_states state.arm_state) :
    events_mirror_states (vchiq_platform_check_resume calls state).arm_state := by
  unfold vchiq_platform_check_resume
  simp only [vchiq_platform_get_arm_state]
  split_ifs with h1 h2 h3
  · exact h
  · exact h
  · exact mirror_platform_calls calls _
      (mirror_set_resume_state _ _ h (fun _ => by rw [h3]; decide))
  · exact h

/-- The loop of `vchiq_use_internal` on the resume blocker keeps the events in step
with the states, when the other parties do so during its sleeps. -/
theorem mirror_blocked_loop {n : Nat} (evs : List (wait_event n)) :
    ∀ (state : VCHIQ_STATE_T n) (ret : VCHIQ_STATUS_T) (s' : VCHIQ_STATE_T n)
      (rest : List (wait_event n)),
      (∀ ev ∈ evs, ∀ t, events_mirror_states t.arm_state →
        events_mirror_states (ev.others t).arm_state) →
      events_mirror_states state.arm_state →
      vchiq_use_internal_blocked evs state = some (ret, s', rest) →
      events_mirror_states s'.arm_state ∧ rest <:+ evs := by
  have hcancel : ∀ state : VCHIQ_STATE_T n, events_mirror_states state.arm_state →
      events_mirror_states
        (set_suspend_state state.arm_state VC_SUSPEND_FORCE_CANCELED) :=
    fun state h => mirror_set_suspend_state _ _ h
      (fun hn => by rcases hn with hn | hn <;> cases hn)
  induction evs with
  | nil =>
    intro state ret s' rest _ hs h
    by_cases hb : state.arm_state.resume_blocked = 0
    · rw [blocked_not_blocked _ _ hb] at h
      simp only [Option.some.injEq, Prod.mk.injEq] at h
      obtain ⟨rfl, rfl, rfl⟩ := h
      exact ⟨hs, List.suffix_refl _⟩
    · by_cases hi : state.arm_state.vc_suspend_state = VC_SUSPEND_IDLE
      · rw [blocked_idle _ _ hb hi] at h
        simp only [Option.some.injEq, Prod.mk.injEq] at h
        obtain ⟨rfl, rfl, rfl⟩ := h
        exact ⟨hcancel state hs, List.suffix_refl _⟩
      · rw [blocked_nil _ hb hi] at h
        exact absurd h (by simp)
  | cons ev evs ih =>
    intro state ret s' rest hev hs h
    by_cases hb : state.arm_state.resume_blocked = 0
    · rw [blocked_not_blocked _ _ hb] at h
      simp only [Option.some.injEq, Prod.mk.injEq] at h
      obtain ⟨rfl, rfl, rfl⟩ := h
      exact ⟨hs, List.suffix_refl _⟩
    · by_cases hi : state.arm_state.vc_suspend_state = VC_SUSPEND_IDLE
      · rw [blocked_idle _ _ hb hi] at h
        simp only [Option.some.injEq, Prod.mk.injEq] at h
        obtain ⟨rfl, rfl, rfl⟩ := h
        exact ⟨hcancel state hs, List.suffix_refl _⟩
      · cases hd : state.arm_state.resume_blocker.done with
        | true =>
          rw [blocked_spin _ _ hb hi hd] at h
          exact absurd h (by simp)
        | false =>
          rw [blocked_cons _ _ _ hb hi hd] at h
          have hs1 : events_mirror_states (ev.others { state with arm_state :=
              { state.arm_state with
                blocked_count := state.arm_state.blocked_count + 1 } }).arm_state :=
            hev ev (List.mem_cons_self _ _) _
              (mirror_of_same state.arm_state _ rfl rfl rfl rfl hs)
          cases hr : ev.result with
          | completed =>
            simp only [hr, wait_for_completion_killable, ne_eq, not_true_eq_false,
              ↓reduceIte] at h
            obtain ⟨h1, h2⟩ := ih _ ret s' rest
              (fun e he => hev e (List.mem_cons_of_mem _ he))
              (by split_ifs <;> exact mirror_of_same _ _ rfl rfl rfl rfl hs1) h
            exact ⟨h1, h2.trans (List.suffix_cons _ _)⟩
          | timed_out =>
            simp only [hr, wait_for_completion_killable] at h
            exact absurd h (by simp)
          | interrupted =>
            simp only [hr, wait_for_completion_killable] at h
            simp only [ne_eq, Int.reduceNeg, neg_eq_zero, OfNat.ofNat_ne_zero, not_false_eq_true,
              ↓reduceIte, Option.some.injEq, Prod.mk.injEq] at h
            obtain ⟨rfl, rfl, rfl⟩ := h
            exact ⟨mirror_of_same _ _ rfl rfl rfl rfl hs1, List.suffix_cons _ _⟩

/-- A write through `entity_uc` leaves the state variables and their events
alone. -/
theorem set_entity_uc_power {n : Nat} (state : VCHIQ_STATE_T n) (entity : Option (Fin n))
    (v : Int) :
    (set_entity_uc state entity v).arm_state.vc_suspend_state =
      state.arm_state.vc_suspend_state ∧
    (set_entity_uc state entity v).arm_state.vc_resume_state =
      state.arm_state.vc_resume_state ∧
    (set_entity_uc state entity v).arm_state.vc_suspend_complete =
      state.arm_state.vc_suspend_complete ∧
    (set_entity_uc state entity v).arm_state.vc_resume_complete =
      state.arm_state.vc_resume_complete := by
  cases entity <;> exact ⟨rfl, rfl, rfl, rfl⟩

/-- The locked stretch of `vchiq_use_internal` keeps the events in step with the
states. -/
theorem mirror_locked {n : Nat} (P : platform_ops n) (state : VCHIQ_STATE_T n)
    (entity : Option (Fin n)) (use_type : USE_TYPE_E)
    (h : events_mirror_states state.arm_state) :
    events_mirror_states (vchiq_use_internal_locked P state entity use_type).arm_state := by
  obtain ⟨t, r, ht⟩ := stop_suspend_timer_arm state.arm_state
  have h1 : events_mirror_states (set_entity_uc { state with arm_state :=
      { (stop_suspend_timer state.arm_state) with
        videocore_use_count := (stop_suspend_timer state.arm_state).videocore_use_count + 1 } }
      entity (entity_uc { state with arm_state :=
      { (stop_suspend_timer state.arm_state) with
        videocore_use_count := (stop_suspend_timer state.arm_state).videocore_use_count + 1 } }
      entity + 1)).arm_state := by
    obtain ⟨e1, e2, e3, e4⟩ := set_entity_uc_power { state with arm_state :=
      { (stop_suspend_timer state.arm_state) with
        videocore_use_count := (stop_suspend_timer state.arm_state).videocore_use_count + 1 } }
      entity (entity_uc { state with arm_state :=
      { (stop_suspend_timer state.arm_state) with
        videocore_use_count := (stop_suspend_timer state.arm_state).videocore_use_count + 1 } }
      entity + 1)
    refine mirror_of_same state.arm_state _ ?_ ?_ ?_ ?_ h
    · rw [e1]; simp only [ht]
    · rw [e2]; simp only [ht]
    · rw [e3]; simp only [ht]
    · rw [e4]; simp only [ht]
  unfold vchiq_use_internal_locked
  dsimp only
  split_ifs with hle hn hn
  · exact mirror_set_resume_state _ _
      (mirror_set_suspend_state _ _ h1 (fun hx => by rcases hx with hx | hx <;> cases hx))
      (fun _ => need_resume_not_resumed P _ hn.2)
  · exact mirror_set_suspend_state _ _ h1 (fun hx => by rcases hx with hx | hx <;> cases hx)
  · exact mirror_set_resume_state _ _ h1 (fun _ => need_resume_not_resumed P _ hn.2)
  · exact h1

/-- The use notifications keep the events in step with the states. -/
theorem mirror_ack {n : Nat} (P : platform_ops n) (ack_cnt : Nat) :
    ∀ state : VCHIQ_STATE_T n, events_mirror_states state.arm_state →
      events_mirror_states (vchiq_use_internal_ack P ack_cnt state).arm_state := by
  induction ack_cnt with
  | zero => intro state h; exact h
  | succ k ih =>
    intro state h
    rw [vchiq_use_internal_ack]
    split_ifs
    · exact ih _ h
    · exact mirror_of_same state.arm_state _ rfl rfl rfl rfl h

/-- The end of `vchiq_use_internal` keeps the events in step with the states, when
the other parties do so during its sleep. -/
theorem mirror_wait_resume {n : Nat} (P : platform_ops n) (evs : List (wait_event n))
    (state : VCHIQ_STATE_T n) (ret : VCHIQ_STATUS_T) (s' : VCHIQ_STATE_T n)
    (hev : ∀ ev ∈ evs, ∀ t, events_mirror_states t.arm_state →
      events_mirror_states (ev.others t).arm_state)
    (hs : events_mirror_states state.arm_state)
    (h : vchiq_use_internal_wait_resume P evs state = some (ret, s')) :
    events_mirror_states s'.arm_state := by
  have hack : ∀ t : VCHIQ_STATE_T n, events_mirror_states t.arm_state →
      events_mirror_states (vchiq_use_internal_ack P t.arm_state.ka_use_ack_count
        { t with arm_state := { t.arm_state with ka_use_ack_count := 0 } }).arm_state :=
    fun t ht => mirror_ack P _ _ (mirror_of_same t.arm_state _ rfl rfl rfl rfl ht)
  unfold vchiq_use_internal_wait_resume at h
  cases hd : state.arm_state.vc_resume_complete.done with
  | true =>
    simp only [try_wait_for_completion, hd, Bool.not_true, Bool.false_eq_true, ↓reduceIte,
      Option.some.injEq, Prod.mk.injEq] at h
    obtain ⟨rfl, rfl⟩ := h
    exact hack _ hs
  | false =>
    cases evs with
    | nil => simp [try_wait_for_completion, hd] at h
    | cons ev rest =>
      have hs1 := hev ev (List.mem_cons_self _ _) _ hs
      cases hr : ev.result with
      | completed =>
        simp [try_wait_for_completion, hd, hr, wait_for_completion_killable] at h
        obtain ⟨rfl, rfl⟩ := h
        exact hack _ hs1
      | timed_out =>
        simp [try_wait_for_completion, hd, hr, wait_for_completion_killable] at h
      | interrupted =>
        simp [try_wait_for_completion, hd, hr, wait_for_completion_killable] at h
        obtain ⟨rfl, rfl⟩ := h
        exact hs1

/-- The function `vchiq_use_internal` keeps the events in step with the states,
when the other parties do so during its sleeps. -/
theorem mirror_use_internal {n : Nat} (P : platform_ops n) (evs : List (wait_event n))
    (state : VCHIQ_STATE_T n) (service : Option (Fin n)) (use_type : USE_TYPE_E)
    (ret : VCHIQ_STATUS_T) (s' : VCHIQ_STATE_T n)
    (hev : ∀ ev ∈ evs, ∀ t, events_mirror_states t.arm_state →
      events_mirror_states (ev.others t).arm_state)
    (hs : events_mirror_states state.arm_state)
    (h : vchiq_use_internal P evs state service use_type = some (ret, s')) :
    events_mirror_states s'.arm_state := by
  unfold vchiq_use_internal at h
  simp only [vchiq_platform_get_arm_state] at h
  cases he : vchiq_use_internal_entity service use_type with
  | none =>
    simp only [he, Option.some.injEq, Prod.mk.injEq] at h
    obtain ⟨-, rfl⟩ := h
    exact hs
  | some entity =>
    simp only [he] at h
    cases hb : vchiq_use_internal_blocked evs state with
    | none => simp [hb] at h
    | some res =>
      obtain ⟨r, bs, rest⟩ := res
      obtain ⟨hbs, hsuf⟩ := mirror_blocked_loop evs state r bs rest hev hs hb
      cases r with
      | VCHIQ_ERROR =>
        simp only [hb, Option.some.injEq, Prod.mk.injEq] at h
        obtain ⟨-, rfl⟩ := h
        exact hbs
      | VCHIQ_RETRY =>
        simp only [hb, Option.some.injEq, Prod.mk.injEq] at h
        obtain ⟨-, rfl⟩ := h
        exact hbs
      | VCHIQ_SUCCESS =>
        simp only [hb] at h
        exact mirror_wait_resume P rest _ ret s'
          (fun ev he => hev ev (hsuf.subset he)) (mirror_locked P bs entity use_type hbs) h

/-- The function `vchiq_release_internal` keeps the events in step with the
states. -/
theorem mirror_release_internal {n : Nat} (P : platform_ops n) (state : VCHIQ_STATE_T n)
    (service : Option (Fin n)) (hs : events_mirror_states state.arm_state) :
    events_mirror_states (vchiq_release_internal P state service).2.arm_state := by
  by_cases h : state.arm_state.videocore_use_count = 0 ∨ entity_uc state service = 0
  · rw [release_error P state service h]
    exact hs
  · have hc : events_mirror_states (vchiq_release_internal_counts state service).arm_state := by
      obtain ⟨e1, e2, e3, e4⟩ := set_entity_uc_power { state with arm_state :=
        { state.arm_state with
          videocore_use_count := state.arm_state.videocore_use_count - 1 } } service
        (entity_uc { state with arm_state :=
        { state.arm_state with
          videocore_use_count := state.arm_state.videocore_use_count - 1 } } service - 1)
      exact mirror_of_same state.arm_state _ e1 e2 e3 e4 hs
    rw [release_internal_unfold P state service h]
    split_ifs
    · exact mirror_of_same _ _ rfl rfl rfl rfl hc
    · exact mirror_vcsuspend _ hc
    · exact hc

/-- The branches of `vchiq_arm_force_suspend` before the wait keep the events in
step with the states. -/
theorem mirror_force_suspend_start {n : Nat} (P : platform_ops n) (state : VCHIQ_STATE_T n)
    (hs : events_mirror_states state.arm_state) :
    events_mirror_states (vchiq_arm_force_suspend_start P state).2.arm_state := by
  obtain ⟨t, r, ht⟩ := stop_suspend_timer_arm state.arm_state
  have h1 : events_mirror_states
      ({ state with arm_state := stop_suspend_timer state.arm_state } :
        VCHIQ_STATE_T n).arm_state := by
    refine mirror_of_same state.arm_state _ ?_ ?_ ?_ ?_ hs <;> simp only [ht]
  unfold vchiq_arm_force_suspend_start
  split_ifs
  · dsimp only
    split_ifs
    · exact mirror_vcsuspend _ h1
    · exact h1
    · exact mirror_vcsuspend _ h1
  · exact hs

/-- The function `vchiq_arm_force_suspend` keeps the events in step with the
states, when the other parties do so during its sleeps. -/
theorem mirror_force_suspend {n : Nat} (P : platform_ops n) (evs : List (wait_event n))
    (state : VCHIQ_STATE_T n) (status : VCHIQ_STATUS_T) (s' : VCHIQ_STATE_T n)
    (hev : ∀ ev ∈ evs, ∀ t, events_mirror_states t.arm_state →
      events_mirror_states (ev.others t).arm_state)
    (hs : events_mirror_states state.arm_state)
    (h : vchiq_arm_force_suspend P evs state = some (status, s')) :
    events_mirror_states s'.arm_state := by
  cases hb : block_resume evs state with
  | none =>
    unfold vchiq_arm_force_suspend at h
    simp [vchiq_platform_get_arm_state, hb] at h
  | some res =>
    obtain ⟨bstatus, bs1, rest⟩ := res
    obtain ⟨hsuf, hout⟩ := block_resume_outcome
      (fun t => events_mirror_states t.arm_state)
      (fun s hs => mirror_of_same s.arm_state _ rfl rfl rfl rfl hs)
      evs state bstatus bs1 rest hev hs hb
    rcases hout with ⟨rfl, bs, hbs, rfl⟩ | ⟨rfl, hbs⟩
    · have hbs1 : events_mirror_states
          ({ bs with arm_state :=
            { bs.arm_state with
              resume_blocker := INIT_COMPLETION bs.arm_state.resume_blocker,
              resume_blocked := 1 } } : VCHIQ_STATE_T n).arm_state :=
        mirror_of_same bs.arm_state _ rfl rfl rfl rfl hbs
      rw [force_suspend_after_block P evs state _ rest hb] at h
      split_ifs at h with hsus
      · simp only [Option.some.injEq, Prod.mk.injEq] at h
        obtain ⟨-, rfl⟩ := h
        exact hbs1
      · cases hw : vchiq_arm_force_suspend_wait (-1) rest
            (vchiq_arm_force_suspend_start P { bs with arm_state :=
              { bs.arm_state with
                resume_blocker := INIT_COMPLETION bs.arm_state.resume_blocker,
                resume_blocked := 1 } }).2 with
        | none => simp [hw] at h
        | some wres =>
          obtain ⟨r, ws, wrest⟩ := wres
          obtain ⟨hws, -⟩ := force_suspend_wait_outcome
            (fun t => events_mirror_states t.arm_state)
            (fun s hs => mirror_of_same s.arm_state _ rfl rfl rfl rfl hs)
            rest (-1) _ r ws wrest (fun ev he => hev ev (hsuf.subset he))
            (mirror_force_suspend_start P _ hbs1) hw
          cases r with
          | some st =>
            simp only [hw, Option.some.injEq, Prod.mk.injEq] at h
            obtain ⟨-, rfl⟩ := h
            exact mirror_of_same ws.arm_state _ rfl rfl rfl rfl hws
          | none =>
            simp only [hw] at h
            by_cases h3 : ws.arm_state.vc_suspend_state = VC_SUSPEND_SUSPENDED
            · simp only [h3, ne_eq, not_true_eq_false, ↓reduceIte, Option.some.injEq,
                Prod.mk.injEq] at h
              obtain ⟨-, rfl⟩ := h
              exact hws
            · simp only [h3, ne_eq, not_false_eq_true, ↓reduceIte, Option.some.injEq,
                Prod.mk.injEq] at h
              obtain ⟨-, rfl⟩ := h
              by_cases h4 : ws.arm_state.vc_suspend_state.toInt < VC_SUSPEND_IDLE.toInt
              · simp only [h4, ↓reduceIte]
                exact mirror_of_same (set_suspend_state ws.arm_state VC_SUSPEND_IDLE) _
                  rfl rfl rfl rfl (mirror_set_suspend_state _ _ hws
                    (fun hx => by rcases hx with hx | hx <;> cases hx))
              · simp only [h4, ↓reduceIte]
                exact mirror_of_same ws.arm_state _ rfl rfl rfl rfl hws
    · rw [force_suspend_block_failed P evs state bs1 rest VCHIQ_ERROR hb (by decide)] at h
      simp only [Option.some.injEq, Prod.mk.injEq] at h
      obtain ⟨-, rfl⟩ := h
      exact hbs

/-- The function `vchiq_arm_allow_resume` keeps the events in step with the states,
when the other parties do so during its sleep. -/
theorem mirror_allow_resume {n : Nat} (P : platform_ops n) (evs : List (wait_event n))
    (state : VCHIQ_STATE_T n) (ret : Int) (s' : VCHIQ_STATE_T n)
    (hev : ∀ ev ∈ evs, ∀ t, events_mirror_states t.arm_state →
      events_mirror_states (ev.others t).arm_state)
    (hs : events_mirror_states state.arm_state)
    (h : vchiq_arm_allow_resume P evs state = some (ret, s')) :
    events_mirror_states s'.arm_state := by
  have hu : events_mirror_states
      ({ state with arm_state := unblock_resume state.arm_state } :
        VCHIQ_STATE_T n).arm_state :=
    mirror_of_same state.arm_state _ rfl rfl rfl rfl hs
  rw [allow_resume_unfold] at h
  dsimp only at h
  by_cases hn : need_resume P { state with arm_state := unblock_resume state.arm_state } = true
  · simp only [hn, ↓reduceIte] at h
    cases evs with
    | nil => simp at h
    | cons ev rest =>
      have hr0 := mirror_set_resume_state (unblock_resume state.arm_state)
        VC_RESUME_REQUESTED hu (fun _ => need_resume_not_resumed P
          { state with arm_state := unblock_resume state.arm_state } hn)
      have hs1 := hev ev (List.mem_cons_self _ _)
        (request_poll { state with
          arm_state := set_resume_state (unblock_resume state.arm_state) VC_RESUME_REQUESTED })
        hr0
      simp only at h
      cases hr : wait_for_completion_interruptible ev.result with
      | none => simp [hr] at h
      | some rc =>
        simp only [hr] at h
        split_ifs at h <;>
          (simp only [Option.some.injEq, Prod.mk.injEq] at h
           obtain ⟨-, rfl⟩ := h
           exact hs1)
  · simp only [hn, Bool.false_eq_true, ↓reduceIte] at h
    split_ifs at h <;>
      (simp only [Option.some.injEq, Prod.mk.injEq] at h
       obtain ⟨-, rfl⟩ := h
       exact hu)

/-- A sequence of operations keeps the events in step with the states, when the
other parties do so during the sleeps of the operations. -/
theorem mirror_run_operations {n : Nat} (P : platform_ops n) (ops : List (arm_operation n)) :
    ∀ (state s : VCHIQ_STATE_T n),
      (∀ op ∈ ops, ∀ ev ∈ op.events, ∀ t, events_mirror_states t.arm_state →
        events_mirror_states (ev.others t).arm_state) →
      events_mirror_states state.arm_state →
      run_operations P ops state = some s → events_mirror_states s.arm_state := by
  induction ops with
  | nil =>
    intro state s _ hs h
    simp only [run_operations, Option.some.injEq] at h
    subst h
    exact hs
  | cons op ops ih =>
    intro state s hev hs h
    have hev' : ∀ op1 ∈ ops, ∀ ev ∈ op1.events, ∀ t, events_mirror_states t.arm_state →
        events_mirror_states (ev.others t).arm_state :=
      fun op1 h1 => hev op1 (List.mem_cons_of_mem _ h1)
    have hop := hev op (List.mem_cons_self _ _)
    cases op with
    | use evs service use_type =>
      rw [run_operations] at h
      cases hu : vchiq_use_internal P evs state service use_type with
      | none => simp [hu] at h
      | some out =>
        simp only [hu] at h
        exact ih _ s hev' (mirror_use_internal P evs state service use_type out.1 out.2
          hop hs hu) h
    | release service =>
      rw [run_operations] at h
      exact ih _ s hev' (mirror_release_internal P state service hs) h
    | check_suspend =>
      rw [run_operations] at h
      exact ih _ s hev' (mirror_check_suspend P state hs) h
    | platform_check_suspend calls =>
      rw [run_operations] at h
      exact ih _ s hev' (mirror_platform_check_suspend calls state hs) h
    | check_resume =>
      rw [run_operations] at h
      exact ih _ s hev' (mirror_check_resume P state hs) h
    | platform_check_resume calls =>
      rw [run_operations] at h
      exact ih _ s hev' (mirror_platform_check_resume calls state hs) h
    | force_suspend evs =>
      rw [run_operations] at h
      cases hu : vchiq_arm_force_suspend P evs state with
      | none => simp [hu] at h
      | some out =>
        simp only [hu] at h
        exact ih _ s hev' (mirror_force_suspend P evs state out.1 out.2 hop hs hu) h
    | allow_resume evs =>
      rw [run_operations] at h
      cases hu : vchiq_arm_allow_resume P evs state with
      | none => simp [hu] at h
      | some out =>
        simp only [hu] at h
        exact ih _ s hev' (mirror_allow_resume P evs state out.1 out.2 hop hs hu) h
    | platform c =>
      rw [run_operations] at h
      exact ih _ s hev' (mirror_platform_call c _ hs) h

/-- C27: in every state reached from `vchiq_arm_init_state` through a sequence of
the operations use, release, check_suspend, platform_check_suspend, check_resume,
platform_check_resume, force_suspend and allow_resume and of platform calls
(`set_suspend_state` to SUSPENDED, REJECTED or FAILED, `set_resume_state` to
RESUMED), the events mirror the states: resume-complete is signaled if and only
if the resume state is RESUMED, and suspend-complete is signaled if and only if
the suspend state is FORCE_CANCELED, REJECTED, FAILED or SUSPENDED.  What the
other parties do during the sleeps of an operation is taken to keep this
property, as the operations themselves do. -/
theorem events_mirror_states_reachable {n : Nat} (P : platform_ops n)
    (arm_state : VCHIQ_ARM_STATE_T) (state s : VCHIQ_STATE_T n)
    (ops : List (arm_operation n))
    (hinit : state.arm_state = vchiq_arm_init_state arm_state)
    (hev : ∀ op ∈ ops, ∀ ev ∈ op.events, ∀ t, events_mirror_states t.arm_state →
      events_mirror_states (ev.others t).arm_state)
    (h : run_operations P ops state = some s) :
    (s.arm_state.vc_resume_complete.done = true ↔
      s.arm_state.vc_resume_state = VC_RESUME_RESUMED) ∧
    (s.arm_state.vc_suspend_complete.done = true ↔
      (s.arm_state.vc_suspend_state = VC_SUSPEND_FORCE_CANCELED ∨
        s.arm_state.vc_suspend_state = VC_SUSPEND_REJECTED ∨
        s.arm_state.vc_suspend_state = VC_SUSPEND_FAILED ∨
        s.arm_state.vc_suspend_state = VC_SUSPEND_SUSPENDED)) := by
  have h0 : events_mirror_states state.arm_state := by
    rw [hinit]; exact mirror_init_state arm_state
  exact mirror_run_operations P ops state s hev h0 h

/-- The remote side suspending, and the remote side resuming, keep the events in
step with the states. -/
theorem mirror_remote_events (ev : wait_event 2)
    (he : ev = remote_suspends ∨ ev = remote_resumes) (t : VCHIQ_STATE_T 2)
    (h : events_mirror_states t.arm_state) : events_mirror_states (ev.others t).arm_state := by
  rcases he with rfl | rfl
  · obtain ⟨arm, svcs, pr, sent⟩ := t
    obtain ⟨a1, ss, rs, ⟨sc⟩, ⟨rc⟩, a6, a7, a8, a9, a10, a11, a12, a13, a14, a15, a16, a17⟩ :=
      arm
    simp [events_mirror_states, remote_suspends, set_suspend_state, set_resume_state,
      INIT_COMPLETION, complete_all]
  · exact mirror_set_resume_state _ _ h (fun hn => by rcases hn with hn | hn | hn <;> cases hn)

/-- C27 at `operations_example`, run from the initial state. -/
theorem events_mirror_states_reachable_witness :
    (state_at_init 2).arm_state = vchiq_arm_init_state arm_state_zero ∧
    run_operations (platform_unwanted 2) operations_example (state_at_init 2) =
      some state_after_operations ∧
    (state_after_operations.arm_state.vc_resume_complete.done = true ↔
      state_after_operations.arm_state.vc_resume_state = VC_RESUME_RESUMED) ∧
    (state_after_operations.arm_state.vc_suspend_complete.done = true ↔
      (state_after_operations.arm_state.vc_suspend_state = VC_SUSPEND_FORCE_CANCELED ∨
        state_after_operations.arm_state.vc_suspend_state = VC_SUSPEND_REJECTED ∨
        state_after_operations.arm_state.vc_suspend_state = VC_SUSPEND_FAILED ∨
        state_after_operations.arm_state.vc_suspend_state = VC_SUSPEND_SUSPENDED)) :=
  ⟨rfl, rfl,
   events_mirror_states_reachable (platform_unwanted 2) arm_state_zero (state_at_init 2)
     state_after_operations operations_example rfl
     (fun op hop ev hev t ht => by
       simp only [operations_example, List.mem_cons, List.mem_singleton,
         List.not_mem_nil, or_false] at hop
       rcases hop with rfl | rfl | rfl | rfl | rfl | rfl | rfl <;>
         simp only [arm_operation.events, List.mem_singleton, List.not_mem_nil] at hev
       · exact mirror_remote_events ev (Or.inl hev) t ht
       · exact mirror_remote_events ev (Or.inr hev) t ht)
     rfl⟩

/-- A difference of two set bits: `a & ~b` is `a ^ (a & b)`. -/
theorem ldiff_eq_xor (a b : Nat) : Nat.ldiff a b = a ^^^ (a &&& b) := by
  apply Nat.eq_of_testBit_eq
  intro k
  rw [Nat.testBit_ldiff, Nat.testBit_xor, Nat.testBit_and]
  cases a.testBit k <;> cases b.testBit k <;> rfl

/-- The mask `& 63` of the C code is the remainder modulo 64, for negative numbers
too (two's complement). -/
theorem land_63 (x : Int) : Int.land x 63 = x % 64 := by
  have low : ∀ r : Nat, r < 64 → 63 ^^^ (63 &&& r) = 63 - r := by decide
  have hmod : ∀ m : Nat, Nat.ldiff 63 m = Nat.ldiff 63 (m % 64) := by
    intro m
    apply Nat.eq_of_testBit_eq
    intro k
    rw [Nat.testBit_ldiff, Nat.testBit_ldiff]
    have h64 : (64 : Nat) = 2 ^ 6 := by norm_num
    have h63 : (63 : Nat) = 2 ^ 6 - 1 := by norm_num
    rw [h64, Nat.testBit_mod_two_pow, h63, Nat.testBit_two_pow_sub_one]
    by_cases hk : k < 6 <;> simp [hk]
  cases x with
  | ofNat m =>
    show ((m &&& 63 : Nat) : Int) = (m : Int) % 64
    have h := Nat.and_pow_two_sub_one_eq_mod m 6
    norm_num at h
    rw [h]
    norm_cast
  | negSucc m =>
    show ((Nat.ldiff 63 m : Nat) : Int) = Int.negSucc m % 64
    have hm : m % 64 < 64 := Nat.mod_lt _ (by norm_num)
    rw [hmod, ldiff_eq_xor, low _ hm, Int.negSucc_eq]
    omega

/-- The slot of a counter value is its remainder modulo `MSG_QUEUE_SIZE`. -/
theorem msg_queue_slot_val (x : Int) :
    ((msg_queue_slot x).val : Int) = x % MSG_QUEUE_SIZE := by
  have hnn : 0 ≤ x % 64 := Int.emod_nonneg _ (by norm_num)
  have hlt : x % 64 < 64 := Int.emod_lt_of_pos _ (by norm_num)
  unfold msg_queue_slot MSG_QUEUE_SIZE
  have h63 : ((64 : Int) - 1) = 63 := by norm_num
  rw [h63, land_63]
  have hlt' : (x % 64).toNat < 64 := by omega
  show (((x % 64).toNat % 64 : Nat) : Int) = x % 64
  rw [Nat.mod_eq_of_lt hlt']
  omega

/-- Two counter values less than `MSG_QUEUE_SIZE` apart have different slots. -/
theorem msg_queue_slot_ne (x y : Int) (h1 : x < y) (h2 : y - x < MSG_QUEUE_SIZE) :
    msg_queue_slot x ≠ msg_queue_slot y := by
  intro h
  have hx := msg_queue_slot_val x
  have hy := msg_queue_slot_val y
  rw [h] at hx
  rw [hx] at hy
  unfold MSG_QUEUE_SIZE at h2 hy
  omega

/-- What the loop of `service_callback` on a full message queue returns.  It keeps
what the other parties, the taking of a token and (unless a notice is
outstanding whenever the property holds) the insertion of a completion keep; it
ends only with the message queue not full. -/
theorem service_callback_wait_outcome (J : dispatcher_memory → Prop)
    (reason : VCHIQ_REASON_T)
    (htok1 : ∀ m, J m → J (set_instance_remove_event m ⟨m.inst.remove_event.count - 1⟩))
    (htok2 : ∀ m, J m → J (set_user_remove_event m ⟨m.user_service.remove_event.count - 1⟩))
    (hadd : (∀ m, J m →
        ¬(m.user_service.message_available_pos - m.inst.completion_remove < 0)) ∨
      (∀ m, J m → J (add_completion_insert reason m)))
    (fuel : Nat) :
    ∀ (evs : List dispatcher_event) (mem : dispatcher_memory) (r : Option VCHIQ_STATUS_T)
      (m : dispatcher_memory) (rest : List dispatcher_event),
      (∀ ev ∈ evs, ∀ t, J t → J (ev.others t)) → J mem →
      service_callback_wait fuel reason evs mem = some (r, m, rest) →
      J m ∧ rest <:+ evs ∧
        ((r = none ∧ ¬msg_queue_full m) ∨ r = some VCHIQ_RETRY ∨ r = some VCHIQ_ERROR) := by
  induction fuel with
  | zero => intro evs mem r m rest _ _ h; simp [service_callback_wait] at h
  | succ fuel ih =>
    intro evs mem r m rest hev hJ h
    rw [service_callback_wait] at h
    by_cases hfull : mem.user_service.msg_insert =
        mem.user_service.msg_remove + MSG_QUEUE_SIZE
    · simp only [hfull, ↓reduceIte] at h
      -- the memory and the events after the optional `add_completion`
      have hadded : ∀ (status : VCHIQ_STATUS_T) (m1 : dispatcher_memory)
          (evs1 : List dispatcher_event),
          (if mem.user_service.message_available_pos - mem.inst.completion_remove < 0 then
            add_completion reason none evs mem
          else some (VCHIQ_SUCCESS, mem, evs)) = some (status, m1, evs1) →
          J m1 ∧ evs1 <:+ evs ∧
            (status = VCHIQ_SUCCESS ∨ status = VCHIQ_RETRY ∨ status = VCHIQ_ERROR) := by
        intro status m1 evs1 ha
        by_cases hg : mem.user_service.message_available_pos - mem.inst.completion_remove < 0
        · simp only [hg, ↓reduceIte] at ha
          obtain ⟨hsuf, hout⟩ := add_completion_outcome J htok1 reason none evs mem status m1
            evs1 hev hJ ha
          rcases hout with ⟨rfl, m0, hm0, -, rfl⟩ | ⟨rfl, hm1, -⟩ | ⟨rfl, hm1, -⟩
          · rcases hadd with hno | hins
            · exact absurd hg (hno mem hJ)
            · exact ⟨hins m0 hm0, hsuf, Or.inl rfl⟩
          · exact ⟨hm1, hsuf, Or.inr (Or.inl rfl)⟩
          · exact ⟨hm1, hsuf, Or.inr (Or.inr rfl)⟩
        · simp only [hg, ↓reduceIte, Option.some.injEq, Prod.mk.injEq] at ha
          obtain ⟨rfl, rfl, rfl⟩ := ha
          exact ⟨hJ, List.suffix_refl _, Or.inl rfl⟩
      cases hadd1 : (if mem.user_service.message_available_pos -
          mem.inst.completion_remove < 0 then add_completion reason none evs mem
          else some (VCHIQ_SUCCESS, mem, evs)) with
      | none =>
        simp only [hadd1] at h
        exact absurd h (by simp)
      | some res =>
        obtain ⟨status, m1, evs1⟩ := res
        obtain ⟨hm1, hsuf1, hst⟩ := hadded status m1 evs1 hadd1
        simp only [hadd1] at h
        have hev1 : ∀ ev ∈ evs1, ∀ t, J t → J (ev.others t) :=
          fun ev he => hev ev (hsuf1.subset he)
        rcases hst with rfl | rfl | rfl
        · simp only [ne_eq, not_true_eq_false, ↓reduceIte, down_interruptible] at h
          by_cases htk : 0 < m1.user_service.remove_event.count
          · simp only [htk, ↓reduceIte, not_true_eq_false] at h
            split_ifs at h with hc
            · obtain ⟨h1, h2, h3⟩ := ih evs1 _ r m rest hev1 (htok2 m1 hm1) h
              exact ⟨h1, h2.trans hsuf1, h3⟩
            · simp only [Option.some.injEq, Prod.mk.injEq] at h
              obtain ⟨rfl, rfl, rfl⟩ := h
              exact ⟨htok2 m1 hm1, hsuf1, Or.inr (Or.inr rfl)⟩
          · simp only [htk, ↓reduceIte] at h
            cases evs1 with
            | nil => simp at h
            | cons ev evs2 =>
              have hm2 : J (ev.others m1) := hev1 ev (List.mem_cons_self _ _) _ hm1
              have hsuf2 : evs2 <:+ evs := (List.suffix_cons _ _).trans hsuf1
              cases hr : ev.result with
              | completed =>
                simp only [hr, down_interruptible_sleep, ne_eq, not_true_eq_false,
                  ↓reduceIte] at h
                split_ifs at h with hc
                · obtain ⟨h1, h2, h3⟩ := ih evs2 _ r m rest
                    (fun e he => hev e (hsuf2.subset he)) hm2 h
                  exact ⟨h1, h2.trans hsuf2, h3⟩
                · simp only [Option.some.injEq, Prod.mk.injEq] at h
                  obtain ⟨rfl, rfl, rfl⟩ := h
                  exact ⟨hm2, hsuf2, Or.inr (Or.inr rfl)⟩
              | timed_out => simp [hr, down_interruptible_sleep] at h
              | interrupted =>
                simp only [hr, down_interruptible_sleep] at h
                norm_num at h
                obtain ⟨rfl, rfl, rfl⟩ := h
                exact ⟨hm2, hsuf2, Or.inr (Or.inl rfl)⟩
        · simp only [ne_eq, reduceCtorEq, not_false_eq_true, ↓reduceIte, Option.some.injEq,
            Prod.mk.injEq] at h
          obtain ⟨rfl, rfl, rfl⟩ := h
          exact ⟨hm1, hsuf1, Or.inr (Or.inl rfl)⟩
        · simp only [ne_eq, reduceCtorEq, not_false_eq_true, ↓reduceIte, Option.some.injEq,
            Prod.mk.injEq] at h
          obtain ⟨rfl, rfl, rfl⟩ := h
          exact ⟨hm1, hsuf1, Or.inr (Or.inr rfl)⟩
    · simp only [hfull, ↓reduceIte, Option.some.injEq, Prod.mk.injEq] at h
      obtain ⟨rfl, rfl, rfl⟩ := h
      exact ⟨hJ, List.suffix_refl _, Or.inl ⟨rfl, hfull⟩⟩

/-- The function `service_callback` for a message (`header` present) on an
endpoint in the message queue mode whose instance is there and not closing:
the loop on a full message queue, the stores that queue the message, and then
either the bypass or `add_completion` with a null header. -/
theorem service_callback_message (fuel : Nat) (reason : VCHIQ_REASON_T) (h : Nat)
    (evs : List dispatcher_event) (mem : dispatcher_memory)
    (hinst : mem.user_service.instance_present = true) (hcl : mem.inst.closing = 0)
    (hmode : mem.user_service.is_vchi ≠ 0) :
    service_callback fuel reason (some h) evs mem =
      match service_callback_wait fuel reason evs mem with
      | none => none
      | some (some status, m, rest) => some (status, m, rest)
      | some (none, m, rest) =>
        if completion_bypassed (service_callback_queue (some h) m) then
          some (VCHIQ_SUCCESS,
            { (service_callback_queue (some h) m) with
              user_service :=
                { (service_callback_queue (some h) m).user_service with
                  dequeue_pending := 0 } }, rest)
        else add_completion reason none rest (service_callback_queue (some h) m) := by
  unfold service_callback completion_bypassed
  simp only [hinst, hcl, Bool.true_eq_false, ne_eq, not_true_eq_false, or_self, ↓reduceIte,
    Option.isSome_some, hmode, not_false_eq_true, and_self]

/-- What the stores that queue a message write. -/
theorem service_callback_queue_fields (header : Option Nat) (m : dispatcher_memory) :
    (service_callback_queue header m).user_service.msg_insert =
      m.user_service.msg_insert + 1 ∧
    (service_callback_queue header m).user_service.msg_remove = m.user_service.msg_remove ∧
    (service_callback_queue header m).user_service.msg_queue =
      Function.update m.user_service.msg_queue (msg_queue_slot m.user_service.msg_insert)
        header ∧
    (service_callback_queue header m).user_service.insert_event.count =
      m.user_service.insert_event.count + 1 ∧
    (service_callback_queue header m).user_service.message_available_pos =
      m.user_service.message_available_pos ∧
    (service_callback_queue header m).user_service.dequeue_pending =
      m.user_service.dequeue_pending ∧
    (service_callback_queue header m).inst = m.inst ∧
    (service_callback_queue header m).service_ref_count = m.service_ref_count :=
  ⟨rfl, rfl, rfl, rfl, rfl, rfl, rfl, rfl⟩

/-- The property `msg_queue_holds` reads the two counters and the ring only. -/
theorem msg_queue_holds_of_same (us us1 : USER_SERVICE_T) (pending : List Nat)
    (h1 : us1.msg_insert = us.msg_insert) (h2 : us1.msg_remove = us.msg_remove)
    (h3 : us1.msg_queue = us.msg_queue) (h : msg_queue_holds us pending) :
    msg_queue_holds us1 pending := by
  unfold msg_queue_holds at h ⊢
  rw [h1, h2, h3]
  exact h

/-- The insertion of a completion leaves the message ring alone. -/
theorem add_completion_insert_msg (reason : VCHIQ_REASON_T) (m : dispatcher_memory) :
    (add_completion_insert reason m).user_service.msg_insert = m.user_service.msg_insert ∧
    (add_completion_insert reason m).user_service.msg_remove = m.user_service.msg_remove ∧
    (add_completion_insert reason m).user_service.msg_queue = m.user_service.msg_queue := by
  cases reason <;> exact ⟨rfl, rfl, rfl⟩

/-- The stores that queue a message append its header to the headers that the ring
holds, when the ring is not full. -/
theorem msg_queue_holds_append (h : Nat) (m : dispatcher_memory) (pending : List Nat)
    (hholds : msg_queue_holds m.user_service pending) (hnf : ¬msg_queue_full m) :
    m.user_service.msg_insert - m.user_service.msg_remove < MSG_QUEUE_SIZE ∧
    msg_queue_holds (service_callback_queue (some h) m).user_service (pending ++ [h]) := by
  obtain ⟨hlen, hle, hslots⟩ := hholds
  unfold msg_queue_full at hnf
  have hlt : m.user_service.msg_insert - m.user_service.msg_remove < MSG_QUEUE_SIZE := by
    omega
  refine ⟨hlt, ?_, ?_, ?_⟩
  · show m.user_service.msg_insert + 1 - m.user_service.msg_remove = _
    rw [List.length_append, List.length_singleton]
    push_cast
    omega
  · rw [List.length_append, List.length_singleton]
    push_cast
    omega
  · intro i
    show Function.update m.user_service.msg_queue (msg_queue_slot m.user_service.msg_insert)
      (some h) (msg_queue_slot (m.user_service.msg_remove + i.val)) = _
    have hi : i.val < pending.length + 1 := by
      have hi0 := i.isLt
      simpa using hi0
    by_cases hlast : i.val < pending.length
    · have hne : msg_queue_slot (m.user_service.msg_remove + i.val) ≠
          msg_queue_slot m.user_service.msg_insert :=
        msg_queue_slot_ne _ _ (by omega) (by omega)
      rw [Function.update_noteq hne, hslots ⟨i.val, hlast⟩]
      congr 1
      simp only [List.get_eq_getElem]
      rw [List.getElem_append_left hlast]
    · have hi2 : i.val = pending.length := by omega
      have hslot : m.user_service.msg_remove + (i.val : Int) = m.user_service.msg_insert := by
        rw [hi2]; omega
      rw [hslot, Function.update_same]
      congr 1
      simp only [List.get_eq_getElem]
      rw [List.getElem_append_right (by omega)]
      simp [hi2]

/-- C21: for an endpoint in the message queue mode (and an instance that is there
and not closing), `service_callback` stores an incoming header only when
`msg_insert` − `msg_remove` < `MSG_QUEUE_SIZE`, at the slot `msg_insert` mod
`MSG_QUEUE_SIZE`, and then adds exactly one to `msg_insert`.  So when the slots
from `msg_remove` to `msg_insert` − 1 hold the headers not yet dequeued in the
order of their arrival, and the other parties during the sleeps of the call only
take headers off the front, then after the call these slots hold what is left of
the same headers, with the new header behind them unless the call has failed in
its loop on the full message queue: no header that is still to be dequeued is
overwritten. -/
theorem service_callback_fifo (fuel : Nat) (reason : VCHIQ_REASON_T) (h : Nat)
    (evs : List dispatcher_event) (mem : dispatcher_memory) (pending : List Nat)
    (status : VCHIQ_STATUS_T) (mem1 : dispatcher_memory) (rest : List dispatcher_event)
    (hinst : mem.user_service.instance_present = true) (hcl : mem.inst.closing = 0)
    (hmode : mem.user_service.is_vchi ≠ 0)
    (hholds : msg_queue_holds mem.user_service pending)
    (hev : ∀ ev ∈ evs, ∀ t p, msg_queue_holds t.user_service p →
      ∃ p1, p1 <:+ p ∧ msg_queue_holds (ev.others t).user_service p1)
    (hres : service_callback fuel reason (some h) evs mem = some (status, mem1, rest)) :
    (∀ m : dispatcher_memory,
      (service_callback_queue (some h) m).user_service.msg_insert =
        m.user_service.msg_insert + 1 ∧
      (service_callback_queue (some h) m).user_service.msg_queue =
        Function.update m.user_service.msg_queue
          (msg_queue_slot m.user_service.msg_insert) (some h) ∧
      ((msg_queue_slot m.user_service.msg_insert).val : Int) =
        m.user_service.msg_insert % MSG_QUEUE_SIZE) ∧
    ((status ≠ VCHIQ_SUCCESS ∧
        service_callback_wait fuel reason evs mem = some (some status, mem1, rest) ∧
        ∃ p1, p1 <:+ pending ∧ msg_queue_holds mem1.user_service p1) ∨
      (∃ m r p1, service_callback_wait fuel reason evs mem = some (none, m, r) ∧
        p1 <:+ pending ∧ msg_queue_holds m.user_service p1 ∧
        m.user_service.msg_insert - m.user_service.msg_remove < MSG_QUEUE_SIZE ∧
        msg_queue_holds (service_callback_queue (some h) m).user_service (p1 ++ [h]) ∧
        ∃ p2, p2 <:+ p1 ++ [h] ∧ msg_queue_holds mem1.user_service p2)) := by
  refine ⟨fun m => ⟨rfl, rfl, msg_queue_slot_val _⟩, ?_⟩
  rw [service_callback_message fuel reason h evs mem hinst hcl hmode] at hres
  -- the property that the loop keeps
  have hJev : ∀ (q : List Nat) (evs1 : List dispatcher_event), evs1 <:+ evs →
      ∀ ev ∈ evs1, ∀ t, (∃ p1, p1 <:+ q ∧ msg_queue_holds t.user_service p1) →
        ∃ p1, p1 <:+ q ∧ msg_queue_holds (ev.others t).user_service p1 := by
    intro q evs1 hsuf ev he t ht
    obtain ⟨p1, hp1, hh⟩ := ht
    obtain ⟨p2, hp2, hh2⟩ := hev ev (hsuf.subset he) t p1 hh
    exact ⟨p2, hp2.trans hp1, hh2⟩
  have hframe1 : ∀ (q : List Nat) (m : dispatcher_memory),
      (∃ p1, p1 <:+ q ∧ msg_queue_holds m.user_service p1) →
      ∃ p1, p1 <:+ q ∧ msg_queue_holds (set_instance_remove_event m
        ⟨m.inst.remove_event.count - 1⟩).user_service p1 := fun q m hm => hm
  have hframe2 : ∀ (q : List Nat) (m : dispatcher_memory),
      (∃ p1, p1 <:+ q ∧ msg_queue_holds m.user_service p1) →
      ∃ p1, p1 <:+ q ∧ msg_queue_holds (set_user_remove_event m
        ⟨m.user_service.remove_event.count - 1⟩).user_service p1 := by
    intro q m hm
    obtain ⟨p1, hp1, hh⟩ := hm
    exact ⟨p1, hp1, msg_queue_holds_of_same m.user_service _ p1 rfl rfl rfl hh⟩
  have hframe3 : ∀ (q : List Nat) (m : dispatcher_memory),
      (∃ p1, p1 <:+ q ∧ msg_queue_holds m.user_service p1) →
      ∃ p1, p1 <:+ q ∧ msg_queue_holds (add_completion_insert reason m).user_service p1 := by
    intro q m hm
    obtain ⟨p1, hp1, hh⟩ := hm
    obtain ⟨e1, e2, e3⟩ := add_completion_insert_msg reason m
    exact ⟨p1, hp1, msg_queue_holds_of_same m.user_service _ p1 e1 e2 e3 hh⟩
  cases hw : service_callback_wait fuel reason evs mem with
  | none => simp [hw] at hres
  | some wres =>
    obtain ⟨r, m, rest1⟩ := wres
    obtain ⟨hJm, hsuf, hout⟩ := service_callback_wait_outcome
      (fun t => ∃ p1, p1 <:+ pending ∧ msg_queue_holds t.user_service p1) reason
      (hframe1 pending) (hframe2 pending) (Or.inr (hframe3 pending)) fuel evs mem r m rest1
      (hJev pending evs (List.suffix_refl _)) ⟨pending, List.suffix_refl _, hholds⟩ hw
    cases r with
    | some st =>
      simp only [hw, Option.some.injEq, Prod.mk.injEq] at hres
      obtain ⟨rfl, rfl, rfl⟩ := hres
      rcases hout with ⟨hnone, -⟩ | hst | hst
      · exact absurd hnone (by simp)
      · simp only [Option.some.injEq] at hst
        subst hst
        exact Or.inl ⟨by decide, rfl, hJm⟩
      · simp only [Option.some.injEq] at hst
        subst hst
        exact Or.inl ⟨by decide, rfl, hJm⟩
    | none =>
      have hnf : ¬msg_queue_full m := by
        rcases hout with ⟨-, hnf⟩ | hst | hst
        · exact hnf
        · exact absurd hst (by simp)
        · exact absurd hst (by simp)
      obtain ⟨p1, hp1, hh1⟩ := hJm
      obtain ⟨hlt, happ⟩ := msg_queue_holds_append h m p1 hh1 hnf
      refine Or.inr ⟨m, rest1, p1, rfl, hp1, hh1, hlt, happ, ?_⟩
      simp only [hw] at hres
      split_ifs at hres with hby
      · simp only [Option.some.injEq, Prod.mk.injEq] at hres
        obtain ⟨-, rfl, -⟩ := hres
        exact ⟨p1 ++ [h], List.suffix_refl _,
          msg_queue_holds_of_same _ _ _ rfl rfl rfl happ⟩
      · obtain ⟨-, hout2⟩ := add_completion_outcome
          (fun t => ∃ p2, p2 <:+ p1 ++ [h] ∧ msg_queue_holds t.user_service p2)
          (hframe1 (p1 ++ [h])) reason none rest1 (service_callback_queue (some h) m) status
          mem1 rest (hJev (p1 ++ [h]) rest1 hsuf) ⟨p1 ++ [h], List.suffix_refl _, happ⟩ hres
        rcases hout2 with ⟨-, m0, hm0, -, rfl⟩ | ⟨-, hm1, -⟩ | ⟨-, hm1, -⟩
        · exact hframe3 (p1 ++ [h]) m0 hm0
        · exact hm1
        · exact hm1

/-- C21 at the delivery of the header 5 to the empty endpoint `memory_empty`. -/
theorem service_callback_fifo_witness :
    memory_empty.user_service.instance_present = true ∧ memory_empty.inst.closing = 0 ∧
    memory_empty.user_service.is_vchi ≠ 0 ∧
    msg_queue_holds memory_empty.user_service [] ∧
    service_callback 1 VCHIQ_MESSAGE_AVAILABLE (some 5) [] memory_empty =
      some (VCHIQ_SUCCESS, memory_one_message, []) ∧
    (memory_one_message.user_service.msg_insert =
      memory_empty.user_service.msg_insert + 1) ∧
    ∃ p2, p2 <:+ [5] ∧ msg_queue_holds memory_one_message.user_service p2 := by
  have hholds : msg_queue_holds memory_empty.user_service [] :=
    ⟨rfl, by decide, fun i => i.elim0⟩
  have h := service_callback_fifo 1 VCHIQ_MESSAGE_AVAILABLE 5 [] memory_empty []
    VCHIQ_SUCCESS memory_one_message [] rfl rfl (by decide) hholds
    (fun ev he => absurd he (List.not_mem_nil _)) rfl
  refine ⟨rfl, rfl, by decide, hholds, rfl, rfl, ?_⟩
  rcases h.2 with ⟨hne, -⟩ | ⟨m, r, p1, -, hp1, -, -, -, p2, hp2, hh2⟩
  · exact absurd rfl hne
  · rw [List.eq_nil_of_suffix_nil hp1] at hp2
    exact ⟨p2, hp2, hh2⟩

/-- C24, as stated, fails: a message arrives with no notice outstanding and no
consumer waiting while the completion queue is full; `service_callback` stores
the message, does not bypass the completion queue and calls `add_completion`,
which sleeps and, the instance closing meanwhile, returns `VCHIQ_ERROR`: no
completion has been enqueued (`completion_insert` is still 16). -/
theorem service_callback_completion_not_enqueued :
    ¬completion_bypassed (service_callback_queue (some 5) memory_full) ∧
    memory_full.inst.completion_insert = 16 ∧
    (service_callback 1 VCHIQ_MESSAGE_AVAILABLE (some 5) [sleep_closing] memory_full).map
        (fun r => (r.1, r.2.1.inst.completion_insert, r.2.1.user_service.msg_insert)) =
      some (VCHIQ_ERROR, 16, 1) := by
  exact ⟨by decide, rfl, rfl⟩

/-- C24, amended: after `service_callback` has stored a message in the ring of an
endpoint (its loop on the full message queue has ended in the memory `m`), it
bypasses the completion queue if and only if a message-available notice is
outstanding (`message_available_pos` − `completion_remove` ≥ 0) or
`dequeue_pending` is set: it then returns `VCHIQ_SUCCESS` with `dequeue_pending`
cleared and `completion_insert` unchanged.  Otherwise it returns what
`add_completion`, called with a null header, returns: on `VCHIQ_SUCCESS`
exactly one completion has been enqueued (`completion_insert` is one higher), on
`VCHIQ_RETRY` or `VCHIQ_ERROR` none (the other parties leave
`completion_insert` to the producer). -/
theorem service_callback_bypass (fuel : Nat) (reason : VCHIQ_REASON_T) (h : Nat)
    (evs : List dispatcher_event) (mem m : dispatcher_memory) (r : List dispatcher_event)
    (hinst : mem.user_service.instance_present = true) (hcl : mem.inst.closing = 0)
    (hmode : mem.user_service.is_vchi ≠ 0)
    (hw : service_callback_wait fuel reason evs mem = some (none, m, r)) :
    (completion_bypassed (service_callback_queue (some h) m) ↔
      (m.user_service.message_available_pos - m.inst.completion_remove ≥ 0 ∨
        m.user_service.dequeue_pending ≠ 0)) ∧
    (completion_bypassed (service_callback_queue (some h) m) →
      ∃ mem1, service_callback fuel reason (some h) evs mem = some (VCHIQ_SUCCESS, mem1, r) ∧
        mem1.inst.completion_insert = m.inst.completion_insert ∧
        mem1.user_service.dequeue_pending = 0 ∧
        mem1.user_service.msg_insert = m.user_service.msg_insert + 1) ∧
    (¬completion_bypassed (service_callback_queue (some h) m) →
      service_callback fuel reason (some h) evs mem =
        add_completion reason none r (service_callback_queue (some h) m) ∧
      ((∀ ev ∈ r, ∀ t, (ev.others t).inst.completion_insert = t.inst.completion_insert) →
        ∀ status mem1 rest,
          service_callback fuel reason (some h) evs mem = some (status, mem1, rest) →
          (status = VCHIQ_SUCCESS →
            mem1.inst.completion_insert = m.inst.completion_insert + 1) ∧
          (status ≠ VCHIQ_SUCCESS →
            mem1.inst.completion_insert = m.inst.completion_insert))) := by
  have hsc := service_callback_message fuel reason h evs mem hinst hcl hmode
  simp only [hw] at hsc
  refine ⟨Iff.rfl, fun hby => ?_, fun hnby => ?_⟩
  · rw [hsc, if_pos hby]
    exact ⟨_, rfl, rfl, rfl, rfl⟩
  · rw [hsc, if_neg hnby]
    refine ⟨rfl, fun hev status mem1 rest hres => ?_⟩
    obtain ⟨-, hout⟩ := add_completion_outcome
      (fun t => t.inst.completion_insert = m.inst.completion_insert)
      (fun t ht => ht) reason none r (service_callback_queue (some h) m) status mem1 rest
      (fun ev he t ht => (hev ev he t).trans ht) rfl hres
    rcases hout with ⟨rfl, m0, hm0, -, rfl⟩ | ⟨rfl, hm1, -⟩ | ⟨rfl, hm1, -⟩
    · refine ⟨fun _ => ?_, fun hne => absurd rfl hne⟩
      rw [(add_completion_insert_fields reason m0).1, hm0]
    · exact ⟨fun hs => absurd hs (by decide), fun _ => hm1⟩
    · exact ⟨fun hs => absurd hs (by decide), fun _ => hm1⟩

/-- C24 at a message for an endpoint whose consumer waits (`dequeue_pending` set):
the completion queue is bypassed. -/
theorem service_callback_bypass_witness :
    memory_consumer_waiting.user_service.instance_present = true ∧
    memory_consumer_waiting.inst.closing = 0 ∧
    memory_consumer_waiting.user_service.is_vchi ≠ 0 ∧
    service_callback_wait 1 VCHIQ_MESSAGE_AVAILABLE [] memory_consumer_waiting =
      some (none, memory_consumer_waiting, []) ∧
    completion_bypassed (service_callback_queue (some 5) memory_consumer_waiting) ∧
    ∃ mem1, service_callback 1 VCHIQ_MESSAGE_AVAILABLE (some 5) [] memory_consumer_waiting =
        some (VCHIQ_SUCCESS, mem1, []) ∧
      mem1.inst.completion_insert = memory_consumer_waiting.inst.completion_insert ∧
      mem1.user_service.dequeue_pending = 0 ∧
      mem1.user_service.msg_insert = memory_consumer_waiting.user_service.msg_insert + 1 :=
  ⟨rfl, rfl, by decide, rfl, by decide,
   (service_callback_bypass 1 VCHIQ_MESSAGE_AVAILABLE 5 [] memory_consumer_waiting
      memory_consumer_waiting [] rfl rfl (by decide) rfl).2.1 (by decide)⟩

/-- C25: for a message delivered to an endpoint in the message queue mode,
`service_callback` calls `add_completion` only when no message-available notice
is outstanding, and `add_completion` records the index of the new notice.
(1) When a notice is outstanding on entry (`message_available_pos` −
`completion_remove` ≥ 0) and stays so while the function sleeps (the consumer
does not advance `completion_remove` past it; `completion_insert` is left to the
producer), no completion is enqueued whatever the status returned.
(2) In the normal path (message queue not full) a call of `add_completion`
happens only with `message_available_pos` − `completion_remove` < 0.
(3) In the path of the full message queue, a pass of the loop with a notice
outstanding goes to the sleep on `remove_event` without calling `add_completion`.
(4) The insertion of `add_completion` for `VCHIQ_MESSAGE_AVAILABLE` stores the
index of the new record in `message_available_pos` and advances
`completion_insert` by one, so that the notice is outstanding afterwards. -/
theorem message_available_once (fuel : Nat) (reason : VCHIQ_REASON_T) (h : Nat)
    (evs : List dispatcher_event) (mem : dispatcher_memory)
    (hinst : mem.user_service.instance_present = true) (hcl : mem.inst.closing = 0)
    (hmode : mem.user_service.is_vchi ≠ 0) :
    (mem.user_service.message_available_pos - mem.inst.completion_remove ≥ 0 →
      (∀ ev ∈ evs, ∀ t,
        t.user_service.message_available_pos - t.inst.completion_remove ≥ 0 →
        (ev.others t).user_service.message_available_pos -
            (ev.others t).inst.completion_remove ≥ 0 ∧
          (ev.others t).inst.completion_insert = t.inst.completion_insert) →
      ∀ status mem1 rest,
        service_callback fuel reason (some h) evs mem = some (status, mem1, rest) →
        mem1.inst.completion_insert = mem.inst.completion_insert ∧
        mem1.user_service.message_available_pos - mem1.inst.completion_remove ≥ 0) ∧
    (¬msg_queue_full mem → 0 < fuel →
      (completion_bypassed (service_callback_queue (some h) mem) →
        ∃ mem1, service_callback fuel reason (some h) evs mem =
            some (VCHIQ_SUCCESS, mem1, evs) ∧
          mem1.inst.completion_insert = mem.inst.completion_insert) ∧
      (¬completion_bypassed (service_callback_queue (some h) mem) →
        mem.user_service.message_available_pos - mem.inst.completion_remove < 0 ∧
        service_callback fuel reason (some h) evs mem =
          add_completion reason none evs (service_callback_queue (some h) mem))) ∧
    (msg_queue_full mem →
      ¬(mem.user_service.message_available_pos - mem.inst.completion_remove < 0) →
      service_callback_wait (fuel + 1) reason evs mem =
        match down_interruptible (fun m => m.user_service.remove_event)
            set_user_remove_event evs mem with
        | none => none
        | some (rc, m, es) =>
          if rc ≠ 0 then some (some VCHIQ_RETRY, m, es)
          else if m.inst.closing ≠ 0 then some (some VCHIQ_ERROR, m, es)
          else service_callback_wait fuel reason es m) ∧
    (∀ m, completion_ring_invariant m →
      (add_completion_insert VCHIQ_MESSAGE_AVAILABLE m).user_service.message_available_pos =
        m.inst.completion_insert ∧
      (add_completion_insert VCHIQ_MESSAGE_AVAILABLE m).inst.completion_insert =
        m.inst.completion_insert + 1 ∧
      (add_completion_insert VCHIQ_MESSAGE_AVAILABLE m).user_service.message_available_pos -
        (add_completion_insert VCHIQ_MESSAGE_AVAILABLE m).inst.completion_remove ≥ 0) := by
  have hsc := service_callback_message fuel reason h evs mem hinst hcl hmode
  refine ⟨fun hout hev status mem1 rest hres => ?_, fun hnf hfuel => ?_,
    fun hfull hno => ?_, fun m hinv => ?_⟩
  · rw [hsc] at hres
    cases hw : service_callback_wait fuel reason evs mem with
    | none => simp [hw] at hres
    | some res =>
      obtain ⟨r, m, es⟩ := res
      obtain ⟨hJ, -, -⟩ := service_callback_wait_outcome
        (fun t => t.user_service.message_available_pos - t.inst.completion_remove ≥ 0 ∧
          t.inst.completion_insert = mem.inst.completion_insert) reason
        (fun t ht => ht) (fun t ht => ht)
        (Or.inl (fun t ht => not_lt.mpr ht.1)) fuel evs mem r m es
        (fun ev he t ht => ⟨(hev ev he t ht.1).1, (hev ev he t ht.1).2.trans ht.2⟩)
        ⟨hout, rfl⟩ hw
      cases r with
      | some st =>
        simp only [hw, Option.some.injEq, Prod.mk.injEq] at hres
        obtain ⟨-, rfl, -⟩ := hres
        exact ⟨hJ.2, hJ.1⟩
      | none =>
        have hby : completion_bypassed (service_callback_queue (some h) m) := Or.inl hJ.1
        simp only [hw, if_pos hby, Option.some.injEq, Prod.mk.injEq] at hres
        obtain ⟨-, rfl, -⟩ := hres
        exact ⟨hJ.2, hJ.1⟩
  · obtain ⟨f, rfl⟩ : ∃ f, fuel = f + 1 := ⟨fuel - 1, by omega⟩
    have hw : service_callback_wait (f + 1) reason evs mem = some (none, mem, evs) := by
      unfold msg_queue_full at hnf
      simp only [service_callback_wait, if_neg hnf]
    simp only [hw] at hsc
    refine ⟨fun hby => ?_, fun hnby => ?_⟩
    · rw [hsc, if_pos hby]
      exact ⟨_, rfl, rfl⟩
    · rw [hsc, if_neg hnby]
      refine ⟨?_, rfl⟩
      have h1 : ¬(mem.user_service.message_available_pos - mem.inst.completion_remove ≥ 0) :=
        fun hge => hnby (Or.inl hge)
      exact not_le.mp h1
  · unfold msg_queue_full at hfull
    simp only [service_callback_wait, if_pos hfull, if_neg hno]
    simp
  · unfold completion_ring_invariant at hinv
    refine ⟨rfl, rfl, ?_⟩
    show m.inst.completion_insert - m.inst.completion_remove ≥ 0
    exact hinv.1

/-- C25 at two messages delivered in a row to the empty endpoint `memory_empty`:
the first enqueues a notice at index 0, the second enqueues none. -/
theorem message_available_once_witness :
    memory_one_message.user_service.instance_present = true ∧
    memory_one_message.inst.closing = 0 ∧
    memory_one_message.user_service.is_vchi ≠ 0 ∧
    memory_one_message.user_service.message_available_pos -
      memory_one_message.inst.completion_remove ≥ 0 ∧
    memory_one_message.inst.completion_insert = 1 ∧
    (∀ status mem1 rest,
      service_callback 1 VCHIQ_MESSAGE_AVAILABLE (some 6) [] memory_one_message =
        some (status, mem1, rest) →
      mem1.inst.completion_insert = memory_one_message.inst.completion_insert ∧
      mem1.user_service.message_available_pos - mem1.inst.completion_remove ≥ 0) ∧
    (service_callback 1 VCHIQ_MESSAGE_AVAILABLE (some 6) [] memory_one_message).map
        (fun r => (r.1, r.2.1.inst.completion_insert, r.2.1.user_service.msg_insert)) =
      some (VCHIQ_SUCCESS, 1, 2) :=
  ⟨rfl, rfl, by decide, by decide, rfl,
   (message_available_once 1 VCHIQ_MESSAGE_AVAILABLE 6 [] memory_one_message
      rfl rfl (by decide)).1 (by decide) (fun ev he => absurd he (List.not_mem_nil _)),
   rfl⟩

/-- C29, as stated, fails: a message (header 5) arrives while the completion queue
is full; `service_callback` stores it in the ring and then sleeps in
`add_completion`, where a signal makes it return `VCHIQ_RETRY`: `msg_insert` has
gone from 0 to 1 and slot 0 holds the header.  A redelivery of the same header
stores it a second time, in slot 1. -/
theorem service_callback_retry_keeps_message :
    memory_full.user_service.msg_insert = 0 ∧
    memory_full.user_service.msg_queue 0 = none ∧
    (service_callback 1 VCHIQ_MESSAGE_AVAILABLE (some 5) [sleep_interrupted]
        memory_full).map (fun r => (r.1, r.2.1.user_service.msg_insert,
          r.2.1.user_service.msg_queue 0)) = some (VCHIQ_RETRY, 1, some 5) ∧
    (service_callback 1 VCHIQ_MESSAGE_AVAILABLE (some 5) [sleep_dequeued]
        memory_after_retry).map (fun r => (r.1, r.2.1.user_service.msg_insert,
          r.2.1.user_service.msg_queue 0, r.2.1.user_service.msg_queue 1)) =
      some (VCHIQ_SUCCESS, 2, some 5, some 5) := by
  exact ⟨rfl, rfl, rfl, rfl⟩

/-- C29, amended: when `service_callback` returns `VCHIQ_RETRY` or `VCHIQ_ERROR`
for a message of an endpoint in the message queue mode (the other parties leave
`msg_insert` and the slots of the ring to the producer), either the failure comes
from its loop on the full message queue, and then `msg_insert` and the contents of
the ring are as on entry; or it comes from the call of `add_completion` that
follows the store of the message, and then the header is in slot `msg_insert` mod
`MSG_QUEUE_SIZE` and `msg_insert` is one higher than on entry. -/
theorem service_callback_failure_queue (fuel : Nat) (reason : VCHIQ_REASON_T) (h : Nat)
    (evs : List dispatcher_event) (mem : dispatcher_memory)
    (status : VCHIQ_STATUS_T) (mem1 : dispatcher_memory) (rest : List dispatcher_event)
    (hinst : mem.user_service.instance_present = true) (hcl : mem.inst.closing = 0)
    (hmode : mem.user_service.is_vchi ≠ 0)
    (hev : ∀ ev ∈ evs, ∀ t,
      (ev.others t).user_service.msg_insert = t.user_service.msg_insert ∧
      (ev.others t).user_service.msg_queue = t.user_service.msg_queue)
    (hres : service_callback fuel reason (some h) evs mem = some (status, mem1, rest))
    (hfail : status ≠ VCHIQ_SUCCESS) :
    (service_callback_wait fuel reason evs mem = some (some status, mem1, rest) ∧
      mem1.user_service.msg_insert = mem.user_service.msg_insert ∧
      mem1.user_service.msg_queue = mem.user_service.msg_queue) ∨
    (∃ m r, service_callback_wait fuel reason evs mem = some (none, m, r) ∧
      ¬completion_bypassed (service_callback_queue (some h) m) ∧
      add_completion reason none r (service_callback_queue (some h) m) =
        some (status, mem1, rest) ∧
      mem1.user_service.msg_insert = mem.user_service.msg_insert + 1 ∧
      mem1.user_service.msg_queue =
        Function.update mem.user_service.msg_queue
          (msg_queue_slot mem.user_service.msg_insert) (some h)) := by
  have hsc := service_callback_message fuel reason h evs mem hinst hcl hmode
  rw [hsc] at hres
  cases hw : service_callback_wait fuel reason evs mem with
  | none => simp [hw] at hres
  | some res =>
    obtain ⟨r, m, es⟩ := res
    obtain ⟨hJ, hsuf, -⟩ := service_callback_wait_outcome
      (fun t => t.user_service.msg_insert = mem.user_service.msg_insert ∧
        t.user_service.msg_queue = mem.user_service.msg_queue) reason
      (fun t ht => ht) (fun t ht => ht)
      (Or.inr (fun t ht => ⟨(add_completion_insert_msg reason t).1.trans ht.1,
        (add_completion_insert_msg reason t).2.2.trans ht.2⟩)) fuel evs mem r m es
      (fun ev he t ht => ⟨(hev ev he t).1.trans ht.1, (hev ev he t).2.trans ht.2⟩)
      ⟨rfl, rfl⟩ hw
    cases r with
    | some st =>
      simp only [hw, Option.some.injEq, Prod.mk.injEq] at hres
      obtain ⟨rfl, rfl, rfl⟩ := hres
      exact Or.inl ⟨rfl, hJ.1, hJ.2⟩
    | none =>
      simp only [hw] at hres
      by_cases hby : completion_bypassed (service_callback_queue (some h) m)
      · simp only [if_pos hby, Option.some.injEq, Prod.mk.injEq] at hres
        exact absurd hres.1.symm hfail
      · simp only [if_neg hby] at hres
        have hq := service_callback_queue_fields (some h) m
        obtain ⟨-, hout⟩ := add_completion_outcome
          (fun t => t.user_service.msg_insert = mem.user_service.msg_insert + 1 ∧
            t.user_service.msg_queue = Function.update mem.user_service.msg_queue
              (msg_queue_slot mem.user_service.msg_insert) (some h))
          (fun t ht => ht) reason none es (service_callback_queue (some h) m) status mem1 rest
          (fun ev he t ht => ⟨(hev ev (hsuf.subset he) t).1.trans ht.1,
            (hev ev (hsuf.subset he) t).2.trans ht.2⟩)
          ⟨by rw [hq.1, hJ.1], by rw [hq.2.2.1, hJ.1, hJ.2]⟩ hres
        rcases hout with ⟨rfl, -⟩ | ⟨-, hm1, -⟩ | ⟨-, hm1, -⟩
        · exact absurd rfl hfail
        · exact Or.inr ⟨m, es, rfl, hby, hres, hm1.1, hm1.2⟩
        · exact Or.inr ⟨m, es, rfl, hby, hres, hm1.1, hm1.2⟩

/-- C29 at the delivery of the header 5 in `memory_full`, interrupted in
`add_completion`. -/
theorem service_callback_failure_queue_witness :
    memory_full.user_service.instance_present = true ∧ memory_full.inst.closing = 0 ∧
    memory_full.user_service.is_vchi ≠ 0 ∧
    service_callback 1 VCHIQ_MESSAGE_AVAILABLE (some 5) [sleep_interrupted] memory_full =
      some (VCHIQ_RETRY, memory_after_retry, []) ∧
    ((service_callback_wait 1 VCHIQ_MESSAGE_AVAILABLE [sleep_interrupted] memory_full =
        some (some VCHIQ_RETRY, memory_after_retry, []) ∧
      memory_after_retry.user_service.msg_insert = memory_full.user_service.msg_insert ∧
      memory_after_retry.user_service.msg_queue = memory_full.user_service.msg_queue) ∨
    (∃ m r, service_callback_wait 1 VCHIQ_MESSAGE_AVAILABLE [sleep_interrupted] memory_full =
        some (none, m, r) ∧
      ¬completion_bypassed (service_callback_queue (some 5) m) ∧
      add_completion VCHIQ_MESSAGE_AVAILABLE none r (service_callback_queue (some 5) m) =
        some (VCHIQ_RETRY, memory_after_retry, []) ∧
      memory_after_retry.user_service.msg_insert = memory_full.user_service.msg_insert + 1 ∧
      memory_after_retry.user_service.msg_queue =
        Function.update memory_full.user_service.msg_queue
          (msg_queue_slot memory_full.user_service.msg_insert) (some 5))) :=
  ⟨rfl, rfl, by decide, rfl,
   service_callback_failure_queue 1 VCHIQ_MESSAGE_AVAILABLE 5 [sleep_interrupted] memory_full
     VCHIQ_RETRY memory_after_retry [] rfl rfl (by decide)
     (fun ev he t => by
       rw [List.mem_singleton.mp he]
       exact ⟨rfl, rfl⟩)
     rfl (by decide)⟩

end VchiqArm
